import Mathlib

/-!
# Beam geometry of verovio (`src/beam.cpp`)

A shallow embedding of `BeamSegment` and `BeamElementCoord` from `src/beam.cpp`,
of `Verse::AdjustPosition` from `src/verse.cpp` and of
`TimeSpanningInterface::ExtractUuidFragment` from `src/timeinterface.cpp`, and theorems
about them.

Conventions of the embedding

* C++ `int` is `Int` (no wrap-around: signed overflow is undefined in C++ and the
  drawing coordinates are far from the bounds). Integer `/` and `%` of C++ truncate
  toward zero, so they are `Int.tdiv` and `Int.tmod`.
* The `double` field `m_beamSlope` holds the exact quotient that the two-point slope
  stands for, a rational `ℚ`. Where it enters `double` arithmetic (the interpolation of
  `CalcBeam`) it is rounded to the nearest binary64 number first (`toDouble`), and so is
  the result of every `double` multiplication and addition. The conversion of an `int`
  to `double` is exact, the conversion of a `double` to `int` in an assignment is
  truncation toward zero (`truncToInt`).
* Pointers into the list of coordinates (`m_firstNoteOrChord`, `m_lastNoteOrChord`)
  are indices into that list; `NULL` is `none`.
* `assert` failures and out-of-range `.at(i)` are `none` of `Option`.
* Logging calls (`LogDebug`, `LogMessage`) are dropped.
* A `std::string` is the list of its characters; `size_t` values are natural numbers
  computed modulo `2 ^ 64`, and `std::string::npos` is `2 ^ 64 - 1`.
-/

namespace vrv

/-! ## Data model -/

/-- Modelled from the spec: the placement modes `data_BEAMPLACE` (above, below, mixed,
unset); the enumeration is declared in a header that is not part of the sources. -/
inductive data_BEAMPLACE where
  | BEAMPLACE_NONE
  | BEAMPLACE_above
  | BEAMPLACE_below
  | BEAMPLACE_mixed
  deriving DecidableEq, Repr

/-- Modelled from the spec: the stem directions `data_STEMDIRECTION` (up, down, or
none); the enumeration is declared in a header that is not part of the sources. -/
inductive data_STEMDIRECTION where
  | STEMDIRECTION_NONE
  | STEMDIRECTION_up
  | STEMDIRECTION_down
  deriving DecidableEq, Repr

/-- Modelled from the spec: the duration classes behind the `DUR_*` constants, which
are declared in a header that is not part of the sources. -/
inductive Dur where
  | DUR_MX
  | DUR_LG
  | DUR_BR
  | DUR_1
  | DUR_2
  | DUR_4
  | DUR_8
  | DUR_16
  | DUR_32
  | DUR_64
  | DUR_128
  | DUR_256
  | DUR_512
  | DUR_1024
  deriving DecidableEq, Repr

open data_BEAMPLACE data_STEMDIRECTION Dur

/-- A value that exists once per size: index `0` (full size) and index `1` (cue size);
this is a C++ array of two `int` indexed by the `bool` `m_cueSize`, and a metric of
`Doc` that takes a cue-size flag. -/
structure SizePair where
  normal : Int
  cue : Int
  deriving DecidableEq, Repr

/-- The element `p[cueSize]`. -/
def SizePair.get (p : SizePair) (cueSize : Bool) : Int :=
  if cueSize then p.cue else p.normal

/-- What `beam.cpp` reads from a `Note`: `GetDrawingLoc()`, the value returned by
`CalcStemLenInHalfUnits(staff)` (the function is not part of the sources, its result
is a field), and the colour written by `SetColor`. -/
structure Note where
  drawingLoc : Int
  stemLenInHalfUnits : Int
  color : String
  deriving DecidableEq, Repr

/-- What `beam.cpp` reads and writes in a `Stem`: the encoded direction `GetStemDir()`,
the drawing direction, the relative position and the length. -/
structure Stem where
  stemDir : data_STEMDIRECTION
  drawingStemDir : data_STEMDIRECTION
  drawingXRel : Int
  drawingYRel : Int
  drawingStemLen : Int
  deriving DecidableEq, Repr

/-- The run-time class of a beam member with the data that depends on it: `Is(NOTE)`
with the note itself, `Is(CHORD)` with `GetYExtremes` and `GetTopNote()` /
`GetBottomNote()`, a rest, or anything else (a space). -/
inductive ElementClass where
  | NOTE (note : Note)
  | CHORD (yMax yMin : Int) (topNote bottomNote : Option Note)
  | REST
  | SPACE
  deriving DecidableEq, Repr

/-- What `beam.cpp` reads from a `LayerElement`: its class, `GetDrawingX()`,
`GetDrawingY()`, whether `m_crossStaff` is set, and the `y` of `GetStemUpSE` and
`GetStemDownNW` of its stemmed interface (per cue size). -/
structure LayerElement where
  cls : ElementClass
  drawingX : Int
  drawingY : Int
  crossStaff : Bool
  stemUpSE_y : SizePair
  stemDownNW_y : SizePair
  deriving DecidableEq, Repr

/-- The test `el->Is(NOTE)`. -/
def LayerElement.isNote (el : LayerElement) : Bool :=
  match el.cls with
  | .NOTE _ => true
  | _ => false

/-- The test `el->Is(CHORD)`. -/
def LayerElement.isChord (el : LayerElement) : Bool :=
  match el.cls with
  | .CHORD _ _ _ _ => true
  | _ => false

/-- The cast `dynamic_cast<Note *>(m_element)` followed by `SetColor(c)` when the cast succeeds. -/
def LayerElement.setNoteColor (el : LayerElement) (c : String) : LayerElement :=
  match el.cls with
  | .NOTE n => { el with cls := .NOTE { n with color := c } }
  | _ => el

/-- The record `BeamElementCoord`. `m_stem` is the drawing stem of the element (the
`Stem` object that `m_stem` and `GetStemmedDrawingInterface()->GetDrawingStem()` both
point to), `none` when there is none. -/
structure BeamElementCoord where
  m_x : Int
  m_yTop : Int
  m_yBottom : Int
  m_yBeam : Int
  m_dur : Dur
  m_onStaffLine : Bool
  m_shortenable : Int
  m_stem : Option Stem
  m_element : LayerElement
  deriving DecidableEq, Repr

/-- The fields of `BeamDrawingInterface` that `beam.cpp` uses, and the result of
`IsRepeatedPattern()`. -/
structure BeamDrawingInterface where
  m_drawingPlace : data_BEAMPLACE
  m_crossStaff : Bool
  m_hasMultipleStemDir : Bool
  m_notesStemDir : data_STEMDIRECTION
  m_cueSize : Bool
  m_shortestDur : Dur
  m_beamWidthBlack : Int
  m_beamWidthWhite : Int
  m_beamWidth : Int
  m_stemXAbove : SizePair
  m_stemXBelow : SizePair
  isRepeatedPattern : Bool
  deriving DecidableEq, Repr

/-- The metrics `beam.cpp` asks of `Doc`, at the staff size `staff->m_drawingStaffSize`
of the call. -/
structure Doc where
  drawingUnit : Int
  drawingDoubleUnit : Int
  drawingStemWidth : Int
  drawingBeamWidth : SizePair
  drawingBeamWhiteWidth : SizePair
  glyphWidthNoteheadHalf : SizePair
  deriving DecidableEq, Repr

/-- What `beam.cpp` reads from the `Staff`: `GetDrawingY()`. -/
structure Staff where
  drawingY : Int
  deriving DecidableEq, Repr

/-- What `beam.cpp` reads from the `Layer`: the value of
`GetDrawingStemDir(&m_beamElementCoordRefs)`. -/
structure Layer where
  drawingStemDir : data_STEMDIRECTION
  deriving DecidableEq, Repr

/-- The class `BeamSegment`. -/
structure BeamSegment where
  m_beamElementCoordRefs : List BeamElementCoord
  m_startingX : Int
  m_startingY : Int
  m_beamSlope : ℚ
  m_verticalCenter : Int
  m_avgY : Int
  m_nbNotesOrChords : Int
  m_firstNoteOrChord : Option Nat
  m_lastNoteOrChord : Option Nat

/-- Conversion of a `double` to `int`: truncation toward zero. -/
def truncToInt (q : ℚ) : Int :=
  if 0 ≤ q then ⌊q⌋ else ⌈q⌉

/-- The position of the leading binary digit of `n` (`0` for `n < 2`), found by halving
at most `fuel` times. -/
def log2Aux : Nat → Nat → Nat
  | 0, _ => 0
  | fuel + 1, n => if n < 2 then 0 else log2Aux fuel (n / 2) + 1

/-- The quotient `n / d` rounded to the nearest natural number, a tie to the even one. -/
def roundHalfEven (n d : Nat) : Nat :=
  if 2 * (n % d) < d then n / d
  else if d < 2 * (n % d) then n / d + 1
  else if (n / d) % 2 = 0 then n / d else n / d + 1

/-- The `double` nearest to a real number, as the result of a `double` operation is
rounded (IEEE 754 binary64, round to nearest, ties to even): with `e` the exponent of
the leading binary digit of `|q|`, the multiple of `2 ^ (e - 52)` nearest to `q`, which
has 53 significant binary digits. The exponent range is not bounded: the quotients,
products and sums of drawing coordinates are far from overflow and underflow. -/
def toDouble (q : ℚ) : ℚ :=
  if q = 0 then 0
  else
    let n : Nat := q.num.natAbs
    let d : Nat := q.den
    let l : Int := (log2Aux n n : Int) - (log2Aux d d : Int)
    let e : Int := if n * 2 ^ (-l).toNat < d * 2 ^ l.toNat then l - 1 else l
    let k : Int := e - 52
    let r : Nat := roundHalfEven (n * 2 ^ (-k).toNat) (d * 2 ^ k.toNat)
    let v : ℚ := mkRat (r * 2 ^ k.toNat : Nat) (2 ^ (-k).toNat)
    if q < 0 then -v else v

/-- Modelled from the spec: `BoundingBox::CalcSlope`, the two-point slope (rise over
run) between two points, `0` for points at zero distance in `x` or `y`; the function
is not part of the sources. -/
def CalcSlope (p1 p2 : Int × Int) : ℚ :=
  if p1.2 = p2.2 ∨ p1.1 = p2.1 then 0 else ((p2.2 - p1.2 : Int) : ℚ) / ((p2.1 - p1.1 : Int) : ℚ)

/-! ## `BeamSegment::CalcBeamPlace` -/

/-- The method `BeamSegment::CalcBeamPlace`: the only field written is `m_drawingPlace`. -/
def BeamSegment.CalcBeamPlace (seg : BeamSegment) (layer : Layer)
    (beamInterface : BeamDrawingInterface) (place : data_BEAMPLACE) : BeamDrawingInterface :=
  if place ≠ BEAMPLACE_NONE then
    { beamInterface with m_drawingPlace := place }
  else if beamInterface.m_crossStaff then
    { beamInterface with m_drawingPlace := BEAMPLACE_mixed }
  else if beamInterface.m_hasMultipleStemDir then
    { beamInterface with m_drawingPlace := BEAMPLACE_mixed }
  else if beamInterface.m_notesStemDir = STEMDIRECTION_up then
    { beamInterface with m_drawingPlace := BEAMPLACE_above }
  else if beamInterface.m_notesStemDir = STEMDIRECTION_down then
    { beamInterface with m_drawingPlace := BEAMPLACE_below }
  else
    let layerStemDir := layer.drawingStemDir
    if layerStemDir = STEMDIRECTION_NONE then
      { beamInterface with
        m_drawingPlace :=
          if seg.m_avgY < seg.m_verticalCenter then BEAMPLACE_above else BEAMPLACE_below }
    else
      { beamInterface with
        m_drawingPlace :=
          if layerStemDir = STEMDIRECTION_up then BEAMPLACE_above else BEAMPLACE_below }

/-! ## `BeamElementCoord::SetDrawingStemDir` -/

/-- The conversion of `note->GetDrawingLoc() % 2` to `bool`, stored in `m_onStaffLine`. -/
def Note.locFlag (note : Note) : Bool :=
  decide (Int.tmod note.drawingLoc 2 ≠ 0)

/-- The note `SetDrawingStemDir` measures: the element itself when it is a note, the
chord's `GetTopNote()` for direction up and `GetBottomNote()` otherwise, and `NULL`
for anything else. -/
def BeamElementCoord.refNote (c : BeamElementCoord) (stemDir : data_STEMDIRECTION) :
    Option Note :=
  match c.m_element.cls with
  | .NOTE n => some n
  | .CHORD _ _ topNote bottomNote =>
    if stemDir = STEMDIRECTION_up then topNote else bottomNote
  | _ => none

/-- The value of the local variable `stemLen` of `SetDrawingStemDir` after the duration
switch, for a reference note `note`: `sign` is `1` for direction up and `-1` otherwise,
`onStaffLine` is `m_onStaffLine`. The constant `STANDARD_STEMLENGTH` is declared in a
header that is not part of the sources and is a parameter. -/
def BeamElementCoord.stemLen (STANDARD_STEMLENGTH : Int) (m_dur : Dur) (sign : Int)
    (onStaffLine : Bool) (note : Note) : Int :=
  let extend : Bool := onStaffLine
  let stemLenInHalfUnits := note.stemLenInHalfUnits
  let extend : Bool := if stemLenInHalfUnits ≠ STANDARD_STEMLENGTH * 2 then false else extend
  if m_dur = DUR_8 then
    if stemLenInHalfUnits ≠ STANDARD_STEMLENGTH * 2 then sign * stemLenInHalfUnits
    else sign * (if onStaffLine then 14 else 13)
  else
    match m_dur with
    | DUR_16 => sign * (if extend then 14 else 13)
    | DUR_32 => sign * (if extend then 18 else 16)
    | DUR_64 => sign * (if extend then 22 else 20)
    | DUR_128 => sign * (if extend then 26 else 24)
    | DUR_256 => sign * (if extend then 30 else 28)
    | DUR_512 => sign * (if extend then 34 else 32)
    | DUR_1024 => sign * (if extend then 38 else 36)
    | _ => sign * 14

/-- The method `BeamElementCoord::SetDrawingStemDir`. -/
def BeamElementCoord.SetDrawingStemDir (STANDARD_STEMLENGTH : Int) (c : BeamElementCoord)
    (stemDir : data_STEMDIRECTION) (doc : Doc) (interface : BeamDrawingInterface) :
    BeamElementCoord :=
  match c.m_stem with
  | none => c
  | some stem =>
    let c : BeamElementCoord :=
      { c with
        m_stem := some { stem with drawingStemDir := stemDir }
        m_onStaffLine := false
        m_shortenable := 0 }
    let note := c.refNote stemDir
    let c : BeamElementCoord :=
      if stemDir = STEMDIRECTION_up then
        { c with
          m_yBeam := c.m_yTop
          m_x := c.m_x + interface.m_stemXAbove.get interface.m_cueSize }
      else
        { c with
          m_yBeam := c.m_yBottom
          m_x := c.m_x + interface.m_stemXBelow.get interface.m_cueSize }
    let sign : Int := if stemDir = STEMDIRECTION_up then 1 else -1
    match note with
    | none => c
    | some note =>
      let c : BeamElementCoord := { c with m_onStaffLine := note.locFlag }
      let stemLen := BeamElementCoord.stemLen STANDARD_STEMLENGTH c.m_dur sign c.m_onStaffLine note
      let c : BeamElementCoord :=
        if Int.tmod stemLen 2 ≠ 0 then { c with m_element := c.m_element.setNoteColor "red" }
        else { c with m_element := c.m_element.setNoteColor "" }
      { c with m_yBeam := c.m_yBeam + Int.tdiv (stemLen * doc.drawingUnit) 2 }

/-! ## `BeamSegment::Reset` and `BeamSegment::CalcBeamInit` -/

/-- The method `BeamSegment::Reset` (`m_nbNotesOrChords` is not touched by it). -/
def BeamSegment.Reset (seg : BeamSegment) : BeamSegment :=
  { seg with
    m_beamElementCoordRefs := []
    m_startingX := 0
    m_startingY := 0
    m_beamSlope := 0
    m_verticalCenter := 0
    m_avgY := 0
    m_firstNoteOrChord := none
    m_lastNoteOrChord := none }

/-- The method `BeamSegment::InitCoordRefs`. -/
def BeamSegment.InitCoordRefs (seg : BeamSegment) (beamElementCoords : List BeamElementCoord) :
    BeamSegment :=
  { seg with m_beamElementCoordRefs := beamElementCoords }

/-- The variables the second loop of `CalcBeamInit` carries from one member to the
next: `m_avgY`, `m_nbNotesOrChords`, `nbRests`, `m_firstNoteOrChord` and
`m_lastNoteOrChord`. -/
structure InitAcc where
  m_avgY : Int
  m_nbNotesOrChords : Int
  nbRests : Int
  m_firstNoteOrChord : Option Nat
  m_lastNoteOrChord : Option Nat
  deriving DecidableEq, Repr

/-- One turn of the second loop of `CalcBeamInit`, for the member at index `i`. -/
def BeamSegment.CalcBeamInit.step (i : Nat) (coord : BeamElementCoord) (acc : InitAcc) :
    BeamElementCoord × InitAcc :=
  let coord : BeamElementCoord := { coord with m_yBeam := 0 }
  let acc : InitAcc :=
    if coord.m_element.isChord || coord.m_element.isNote then
      { acc with
        m_firstNoteOrChord :=
          if acc.m_firstNoteOrChord.isNone then some i else acc.m_firstNoteOrChord
        m_lastNoteOrChord := some i
        m_nbNotesOrChords := acc.m_nbNotesOrChords + 1 }
    else acc
  match coord.m_element.cls with
  | .CHORD yMax yMin _ _ =>
    ({ coord with m_yTop := yMax, m_yBottom := yMin },
     { acc with m_avgY := acc.m_avgY + Int.tdiv (yMax + yMin) 2 })
  | .NOTE _ =>
    let curY := coord.m_element.drawingY
    ({ coord with m_yTop := curY, m_yBottom := curY },
     { acc with m_avgY := acc.m_avgY + curY })
  | _ =>
    let curY := coord.m_element.drawingY
    ({ coord with m_yTop := curY, m_yBottom := curY },
     { acc with nbRests := acc.nbRests + 1 })

/-- The second loop of `CalcBeamInit` over the members from index `i` on. -/
def BeamSegment.CalcBeamInit.loop :
    Nat → List BeamElementCoord → InitAcc → List BeamElementCoord × InitAcc
  | _, [], acc => ([], acc)
  | i, coord :: rest, acc =>
    let r := BeamSegment.CalcBeamInit.step i coord acc
    let rs := BeamSegment.CalcBeamInit.loop (i + 1) rest r.2
    (r.1 :: rs.1, rs.2)

/-- The method `BeamSegment::CalcBeamInit`; `none` when `assert(elementCount > 0)`
fails. -/
def BeamSegment.CalcBeamInit (seg : BeamSegment) (staff : Staff) (doc : Doc)
    (beamInterface : BeamDrawingInterface) :
    Option (BeamSegment × BeamDrawingInterface) :=
  let elementCount : Int := seg.m_beamElementCoordRefs.length
  if ¬ (elementCount > 0) then none
  else
    let coords := seg.m_beamElementCoordRefs.map
      (fun coord => { coord with m_x := coord.m_element.drawingX })
    let seg : BeamSegment :=
      { seg with
        m_beamElementCoordRefs := coords
        m_verticalCenter := staff.drawingY - doc.drawingDoubleUnit * 2 }
    let beamInterface : BeamDrawingInterface :=
      { beamInterface with
        m_beamWidthBlack := doc.drawingBeamWidth.get beamInterface.m_cueSize
        m_beamWidthWhite := doc.drawingBeamWhiteWidth.get beamInterface.m_cueSize }
    let beamInterface : BeamDrawingInterface :=
      if beamInterface.m_shortestDur = DUR_64 then
        { beamInterface with m_beamWidthWhite := Int.tdiv (beamInterface.m_beamWidthWhite * 4) 3 }
      else beamInterface
    let beamInterface : BeamDrawingInterface :=
      { beamInterface with
        m_beamWidth := beamInterface.m_beamWidthBlack + beamInterface.m_beamWidthWhite }
    let beamInterface : BeamDrawingInterface :=
      { beamInterface with
        m_stemXAbove :=
          { beamInterface.m_stemXAbove with
            normal := doc.glyphWidthNoteheadHalf.get false - Int.tdiv doc.drawingStemWidth 2 } }
    let beamInterface : BeamDrawingInterface :=
      { beamInterface with
        m_stemXBelow :=
          { beamInterface.m_stemXBelow with
            cue := doc.glyphWidthNoteheadHalf.get true - Int.tdiv doc.drawingStemWidth 2 } }
    let beamInterface : BeamDrawingInterface :=
      { beamInterface with
        m_stemXBelow :=
          { beamInterface.m_stemXBelow with normal := Int.tdiv doc.drawingStemWidth 2 } }
    let beamInterface : BeamDrawingInterface :=
      { beamInterface with
        m_stemXBelow :=
          { beamInterface.m_stemXBelow with cue := Int.tdiv doc.drawingStemWidth 2 } }
    let r := BeamSegment.CalcBeamInit.loop 0 seg.m_beamElementCoordRefs
      { m_avgY := 0
        m_nbNotesOrChords := 0
        nbRests := 0
        m_firstNoteOrChord := seg.m_firstNoteOrChord
        m_lastNoteOrChord := seg.m_lastNoteOrChord }
    let seg : BeamSegment :=
      { seg with
        m_beamElementCoordRefs := r.1
        m_avgY := r.2.m_avgY
        m_nbNotesOrChords := r.2.m_nbNotesOrChords
        m_firstNoteOrChord := r.2.m_firstNoteOrChord
        m_lastNoteOrChord := r.2.m_lastNoteOrChord }
    let seg : BeamSegment :=
      if elementCount ≠ r.2.nbRests then
        { seg with m_avgY := Int.tdiv seg.m_avgY (elementCount - r.2.nbRests) }
      else seg
    some (seg, beamInterface)

/-! ## `BeamSegment::CalcBeamSlope` -/

/-- The value of `maxStep` in `CalcBeamSlope` when the comparison with `curStep` is
made: `dist` is `m_lastNoteOrChord->m_x - m_firstNoteOrChord->m_x`. -/
def BeamSegment.CalcBeamSlope.maxStep (unit : Int) (m_nbNotesOrChords : Int) (dist : Int) :
    Int :=
  if m_nbNotesOrChords = 2 then
    if dist ≤ unit * 6 then Int.tdiv unit 2 else unit * 2
  else unit * 4

/-- The assignments of `CalcBeamSlope` to `m_yBeam` of one of the two end points once
the step is too large; `fi` and `la` are the indices of `m_firstNoteOrChord` and
`m_lastNoteOrChord`, `first` and `last` the records there. -/
def BeamSegment.CalcBeamSlope.clamp (coords : List BeamElementCoord) (fi la : Nat)
    (first last : BeamElementCoord) (place : data_BEAMPLACE) (slope : ℚ) (maxStep : Int) :
    List BeamElementCoord :=
  if place = BEAMPLACE_above then
    if slope > 0 then coords.set fi { first with m_yBeam := last.m_yBeam - maxStep }
    else coords.set la { last with m_yBeam := first.m_yBeam - maxStep }
  else if place = BEAMPLACE_below then
    if slope > 0 then coords.set la { last with m_yBeam := first.m_yBeam + maxStep }
    else coords.set fi { first with m_yBeam := last.m_yBeam + maxStep }
  else coords

/-- The method `BeamSegment::CalcBeamSlope`; `none` when
`assert(m_firstNoteOrChord && m_lastNoteOrChord)` fails or a reference points outside
the list. -/
def BeamSegment.CalcBeamSlope (seg : BeamSegment) (doc : Doc)
    (beamInterface : BeamDrawingInterface) : Option BeamSegment :=
  let seg : BeamSegment := { seg with m_beamSlope := 0 }
  if seg.m_nbNotesOrChords < 2 then some seg
  else
    match seg.m_firstNoteOrChord, seg.m_lastNoteOrChord with
    | some fi, some la =>
      match seg.m_beamElementCoordRefs[fi]?, seg.m_beamElementCoordRefs[la]? with
      | some first, some last =>
        let slope := CalcSlope (first.m_x, first.m_yBeam) (last.m_x, last.m_yBeam)
        let seg : BeamSegment := { seg with m_beamSlope := slope }
        if slope = 0 then some seg
        else
          let unit := doc.drawingUnit
          let curStep := |first.m_yBeam - last.m_yBeam|
          let maxStep := BeamSegment.CalcBeamSlope.maxStep unit seg.m_nbNotesOrChords
            (last.m_x - first.m_x)
          if curStep < maxStep then some seg
          else
            let coords := BeamSegment.CalcBeamSlope.clamp seg.m_beamElementCoordRefs fi la
              first last beamInterface.m_drawingPlace slope maxStep
            match coords[fi]?, coords[la]? with
            | some first2, some last2 =>
              some { seg with
                m_beamElementCoordRefs := coords
                m_beamSlope :=
                  CalcSlope (first2.m_x, first2.m_yBeam) (last2.m_x, last2.m_yBeam) }
            | _, _ => none
      | _, _ => none
    | _, _ => none

/-! ## `BeamSegment::CalcBeam` -/

/-- One turn of the loop "Set drawing stem positions" of `CalcBeam`. -/
def BeamSegment.CalcBeam.setStemDir (STANDARD_STEMLENGTH : Int) (doc : Doc)
    (beamInterface : BeamDrawingInterface) (coord : BeamElementCoord) : BeamElementCoord :=
  match coord.m_stem with
  | none => coord
  | some stem =>
    if beamInterface.m_drawingPlace = BEAMPLACE_above then
      coord.SetDrawingStemDir STANDARD_STEMLENGTH STEMDIRECTION_up doc beamInterface
    else if beamInterface.m_drawingPlace = BEAMPLACE_below then
      coord.SetDrawingStemDir STANDARD_STEMLENGTH STEMDIRECTION_down doc beamInterface
    else if beamInterface.m_crossStaff then coord
    else coord.SetDrawingStemDir STANDARD_STEMLENGTH stem.stemDir doc beamInterface

/-- One turn of the loop `coord->m_yBeam = m_startingY + m_beamSlope * (coord->m_x -
m_startingX)` of `CalcBeam`: the two `int` operands are converted to `double`, the
product and the sum are `double` operations, and the `double` on the right is converted
to `int`. The field `m_beamSlope` holds the exact quotient; the `double` the code holds
there, the quotient of two `double`s, is `toDouble` of it. -/
def BeamSegment.CalcBeam.setYBeam (m_startingX m_startingY : Int) (m_beamSlope : ℚ)
    (coord : BeamElementCoord) : BeamElementCoord :=
  { coord with
    m_yBeam :=
      truncToInt (toDouble ((m_startingY : ℚ) +
        toDouble (toDouble m_beamSlope * ((coord.m_x - m_startingX : Int) : ℚ)))) }

/-- One turn of the loop "Set the stem lengths" of `CalcBeam`. -/
def BeamSegment.CalcBeam.setStemLen (doc : Doc) (beamInterface : BeamDrawingInterface)
    (coord : BeamElementCoord) : BeamElementCoord :=
  let el := coord.m_element
  if el.isNote || el.isChord then
    let y1 : Int :=
      if beamInterface.m_drawingPlace = BEAMPLACE_above then coord.m_yBeam - doc.drawingStemWidth
      else coord.m_yBeam + doc.drawingStemWidth
    let y2 : Int :=
      if beamInterface.m_drawingPlace = BEAMPLACE_above then
        coord.m_yBottom + el.stemUpSE_y.get beamInterface.m_cueSize
      else coord.m_yTop + el.stemDownNW_y.get beamInterface.m_cueSize
    match coord.m_stem with
    | none => coord
    | some stem =>
      { coord with
        m_stem := some
          { stem with
            drawingXRel := coord.m_x - el.drawingX
            drawingYRel := y2 - el.drawingY
            drawingStemLen := y2 - y1 } }
  else coord

/-- The method `BeamSegment::CalcBeam`; `none` when an assertion of it, of
`CalcBeamInit` or of `CalcBeamSlope` fails. -/
def BeamSegment.CalcBeam (STANDARD_STEMLENGTH : Int) (seg : BeamSegment) (layer : Layer)
    (staff : Staff) (doc : Doc) (beamInterface : BeamDrawingInterface) (place : data_BEAMPLACE)
    (init : Bool) : Option (BeamSegment × BeamDrawingInterface) :=
  let elementCount : Int := seg.m_beamElementCoordRefs.length
  if ¬ (elementCount > 0) then none
  else
    match (if init then seg.CalcBeamInit staff doc beamInterface else some (seg, beamInterface)) with
    | none => none
    | some (seg, beamInterface) =>
      let horizontal := beamInterface.isRepeatedPattern
      let beamInterface := seg.CalcBeamPlace layer beamInterface place
      let seg : BeamSegment :=
        { seg with
          m_beamElementCoordRefs := seg.m_beamElementCoordRefs.map
            (BeamSegment.CalcBeam.setStemDir STANDARD_STEMLENGTH doc beamInterface) }
      let seg : BeamSegment := { seg with m_beamSlope := 0 }
      match (if ¬ horizontal then seg.CalcBeamSlope doc beamInterface else some seg) with
      | none => none
      | some seg =>
        match seg.m_beamElementCoordRefs[0]? with
        | none => none
        | some coord0 =>
          let seg : BeamSegment :=
            { seg with m_startingX := coord0.m_x, m_startingY := coord0.m_yBeam }
          let seg : BeamSegment :=
            { seg with
              m_beamElementCoordRefs := seg.m_beamElementCoordRefs.map
                (BeamSegment.CalcBeam.setYBeam seg.m_startingX seg.m_startingY seg.m_beamSlope) }
          let seg : BeamSegment :=
            { seg with
              m_beamElementCoordRefs := seg.m_beamElementCoordRefs.map
                (BeamSegment.CalcBeam.setStemLen doc beamInterface) }
          some (seg, beamInterface)

/-! ## `Verse::AdjustPosition` -/

/-- What `verse.cpp` reads and writes in a `Verse`: the relative drawing `x`
(`GetDrawingXRel()` and `SetDrawingXRel`). -/
structure Verse where
  drawingXRel : Int
  deriving DecidableEq, Repr

/-- The method `Verse::AdjustPosition`: the returned `nextFreeSpace`, the value left in the
reference parameter `overlap`, and the verse. `drawingUnit100` is
`doc->GetDrawingUnit(100)`. -/
def Verse.AdjustPosition (v : Verse) (overlap freeSpace drawingUnit100 : Int) :
    Int × Int × Verse :=
  let nextFreeSpace : Int := 0
  if overlap > 0 then
    if freeSpace > overlap then
      (nextFreeSpace, 0, { v with drawingXRel := v.drawingXRel - overlap })
    else if freeSpace > 0 then
      (nextFreeSpace, overlap - freeSpace, { v with drawingXRel := v.drawingXRel - freeSpace })
    else (nextFreeSpace, overlap, v)
  else
    (min (-overlap) (3 * drawingUnit100), overlap, v)

/-! ## `TimeSpanningInterface::ExtractUuidFragment` -/

/-- Modelled from the spec: the constant `std::string::npos`, the largest value of
`size_t` (64 bits); the standard library is not part of the sources. -/
def npos : Nat := 2 ^ 64 - 1

/-- The search of `find_last_of` over the characters from index `i` on: the index of the
last one that is in `chars`. -/
def find_last_of.go (chars : List Char) : Nat → List Char → Option Nat
  | _, [] => none
  | i, c :: cs =>
    match find_last_of.go chars (i + 1) cs with
    | some j => some j
    | none => if c ∈ chars then some i else none

/-- Modelled from the spec: `std::string::find_last_of(chars)`, the index of the last
character of the string that is one of `chars`, `npos` when there is none; the standard
library is not part of the sources. A `std::string` is the list of its characters. -/
def find_last_of (s chars : List Char) : Nat :=
  match find_last_of.go chars 0 s with
  | some j => j
  | none => npos

/-- Modelled from the spec: `std::string::substr(pos)`, the characters from index `pos`
to the end; `none` when it throws `out_of_range` (`pos` beyond the length); the standard
library is not part of the sources. -/
def substr (s : List Char) (pos : Nat) : Option (List Char) :=
  if pos > s.length then none else some (s.drop pos)

/-- The method `TimeSpanningInterface::ExtractUuidFragment`; `pos`, `length() - 1` and
`pos + 1` are `size_t` values, computed modulo `2 ^ 64`. -/
def TimeSpanningInterface.ExtractUuidFragment (refUuid : List Char) : Option (List Char) :=
  let pos := find_last_of refUuid ['#']
  if pos ≠ npos ∧ pos < (refUuid.length + (2 ^ 64 - 1)) % 2 ^ 64 then
    substr refUuid ((pos + 1) % 2 ^ 64)
  else some refUuid

/-! ## Auxiliary definitions for the statements -/

/-- A reference is unset or an index below `n`. -/
def refInRange (r : Option Nat) (n : Nat) : Bool :=
  match r with
  | none => true
  | some i => decide (i < n)

/-- A reference is set and an index below `n`. -/
def refSet (r : Option Nat) (n : Nat) : Bool :=
  match r with
  | none => false
  | some i => decide (i < n)

/-- The state in which a pass of `CalcBeam` meets no failing assertion of
`CalcBeamSlope`: with `init`, a reference left in `m_firstNoteOrChord` by an earlier pass
points into the list; without `init`, the two references are set and point into the
list whenever the counter of notes and chords is at least `2`. -/
def BeamSegment.passReady (seg : BeamSegment) (init : Bool) : Bool :=
  if init then refInRange seg.m_firstNoteOrChord seg.m_beamElementCoordRefs.length
  else
    decide (seg.m_nbNotesOrChords < 2) ||
      (refSet seg.m_firstNoteOrChord seg.m_beamElementCoordRefs.length &&
        refSet seg.m_lastNoteOrChord seg.m_beamElementCoordRefs.length)

/-- The number of members that are a note or a chord. -/
def noteOrChordCount (coords : List BeamElementCoord) : Int :=
  (coords.filter (fun c => c.m_element.isChord || c.m_element.isNote)).length

/-- The result of the second loop of `CalcBeamInit` on a segment. -/
def BeamSegment.CalcBeamInit.extremes (seg : BeamSegment) : List BeamElementCoord × InitAcc :=
  BeamSegment.CalcBeamInit.loop 0
    (seg.m_beamElementCoordRefs.map (fun coord => { coord with m_x := coord.m_element.drawingX }))
    { m_avgY := 0
      m_nbNotesOrChords := 0
      nbRests := 0
      m_firstNoteOrChord := seg.m_firstNoteOrChord
      m_lastNoteOrChord := seg.m_lastNoteOrChord }

/-- The segment of `CalcBeam` after the loop "Set drawing stem positions" and the
assignment `m_beamSlope = 0.0`; `beamInterface` is the configuration after
`CalcBeamPlace`. -/
def BeamSegment.CalcBeam.afterStems (STANDARD_STEMLENGTH : Int) (seg : BeamSegment) (doc : Doc)
    (beamInterface : BeamDrawingInterface) : BeamSegment :=
  { seg with
    m_beamElementCoordRefs := seg.m_beamElementCoordRefs.map
      (BeamSegment.CalcBeam.setStemDir STANDARD_STEMLENGTH doc beamInterface)
    m_beamSlope := 0 }

/-- The segment of `CalcBeam` at its end, from the segment after the slope computation
and the first member `coord0` of that segment. -/
def BeamSegment.CalcBeam.finish (seg : BeamSegment) (coord0 : BeamElementCoord) (doc : Doc)
    (beamInterface : BeamDrawingInterface) : BeamSegment :=
  { seg with
    m_startingX := coord0.m_x
    m_startingY := coord0.m_yBeam
    m_beamElementCoordRefs :=
      (seg.m_beamElementCoordRefs.map
        (BeamSegment.CalcBeam.setYBeam coord0.m_x coord0.m_yBeam seg.m_beamSlope)).map
        (BeamSegment.CalcBeam.setStemLen doc beamInterface) }

/-- The stage of `CalcBeam` between the stem loop and the anchor: `CalcBeamSlope`
unless the beam is a repeated pattern. -/
def BeamSegment.CalcBeam.slopeStage (STANDARD_STEMLENGTH : Int) (seg : BeamSegment) (layer : Layer)
    (doc : Doc) (beamInterface : BeamDrawingInterface) (place : data_BEAMPLACE) :
    Option BeamSegment :=
  if beamInterface.isRepeatedPattern then
    some (BeamSegment.CalcBeam.afterStems STANDARD_STEMLENGTH seg doc
      (seg.CalcBeamPlace layer beamInterface place))
  else
    (BeamSegment.CalcBeam.afterStems STANDARD_STEMLENGTH seg doc
      (seg.CalcBeamPlace layer beamInterface place)).CalcBeamSlope doc
      (seg.CalcBeamPlace layer beamInterface place)

/-- The value of the local variable `stemLen` that `SetDrawingStemDir` computes for the
member `c` and the direction `stemDir` when the note it measures is `note`. -/
def BeamElementCoord.chosenStemLen (STANDARD_STEMLENGTH : Int) (c : BeamElementCoord)
    (stemDir : data_STEMDIRECTION) (note : Note) : Int :=
  BeamElementCoord.stemLen STANDARD_STEMLENGTH c.m_dur
    (if stemDir = STEMDIRECTION_up then 1 else -1) note.locFlag note

/-- The condition under which the lookup is extended: the flag `m_onStaffLine` of the
note holds and `CalcStemLenInHalfUnits` is `2 * STANDARD_STEMLENGTH`. -/
def Note.extended (STANDARD_STEMLENGTH : Int) (note : Note) : Bool :=
  note.locFlag && decide (note.stemLenInHalfUnits = STANDARD_STEMLENGTH * 2)

/-- The sum `CalcBeamInit` accumulates in `m_avgY` before the division: the drawing `y`
of every single note and the midpoint `(yMax + yMin) / 2` of every chord. -/
def noteOrChordYSum : List BeamElementCoord → Int
  | [] => 0
  | c :: cs =>
    (match c.m_element.cls with
      | .CHORD yMax yMin _ _ => Int.tdiv (yMax + yMin) 2
      | .NOTE _ => c.m_element.drawingY
      | _ => 0) + noteOrChordYSum cs

/-- The three values the last loop of `CalcBeam` stores in the stem of a member: the `x`
offset, the `y` offset and the length; `none` for a member without a stem. -/
def BeamElementCoord.storedStemValues (c : BeamElementCoord) : Option (Int × Int × Int) :=
  c.m_stem.map (fun s => (s.drawingXRel, s.drawingYRel, s.drawingStemLen))

/-- What the last loop of `CalcBeam` has to leave alone in a member: whether it has a
stem, whether it is a note or a chord, and for a member that is neither the three values
stored in its stem. -/
def BeamElementCoord.keptValues (c : BeamElementCoord) :
    Bool × Bool × Option (Option (Int × Int × Int)) :=
  (c.m_stem.isSome, (c.m_element.isNote || c.m_element.isChord),
    if (c.m_element.isNote || c.m_element.isChord) = true then none
    else some c.storedStemValues)

/-- The segment and the configuration of a pass of `CalcBeam` with `init = true` when it
reaches the slope computation: after `CalcBeamInit`, `CalcBeamPlace` and the stem loop. -/
def BeamSegment.CalcBeam.beforeSlope (STANDARD_STEMLENGTH : Int) (seg : BeamSegment)
    (layer : Layer) (staff : Staff) (doc : Doc) (beamInterface : BeamDrawingInterface)
    (place : data_BEAMPLACE) : Option (BeamSegment × BeamDrawingInterface) :=
  (seg.CalcBeamInit staff doc beamInterface).map fun r1 =>
    (BeamSegment.CalcBeam.afterStems STANDARD_STEMLENGTH r1.1 doc
        (r1.1.CalcBeamPlace layer r1.2 place),
      r1.1.CalcBeamPlace layer r1.2 place)

/-- The pairs `(m_x, m_yBeam)` of the members. -/
def BeamSegment.beamPoints (seg : BeamSegment) : List (Int × Int) :=
  seg.m_beamElementCoordRefs.map (fun c => (c.m_x, c.m_yBeam))

/-- The index, counted from `i`, of the first member of a list that is a note or a
chord. -/
def firstNoteOrChordFrom (i : Nat) : List BeamElementCoord → Option Nat
  | [] => none
  | c :: cs =>
    if c.m_element.isChord || c.m_element.isNote then some i
    else firstNoteOrChordFrom (i + 1) cs

/-- The index, counted from `i`, of the last member of a list that is a note or a
chord. -/
def lastNoteOrChordFrom (i : Nat) : List BeamElementCoord → Option Nat
  | [] => none
  | c :: cs =>
    match lastNoteOrChordFrom (i + 1) cs with
    | some j => some j
    | none => if c.m_element.isChord || c.m_element.isNote then some i else none

/-- What identifies a member across a pass of `CalcBeam`, which writes none of it: the
drawing `x` and `y` of its element, whether the element is a note and whether it is a
chord, the duration, and the encoded direction of the stem (`none` for a member without
a stem). -/
def BeamElementCoord.origin (c : BeamElementCoord) :
    Int × Int × Bool × Bool × Dur × Option data_STEMDIRECTION :=
  (c.m_element.drawingX, c.m_element.drawingY, c.m_element.isNote, c.m_element.isChord,
    c.m_dur, c.m_stem.map Stem.stemDir)

/-! ## Concrete inputs -/

/-- A note at staff location `loc` whose `CalcStemLenInHalfUnits` is `len`. -/
def demoNote (loc len : Int) : Note :=
  { drawingLoc := loc, stemLenInHalfUnits := len, color := "" }

/-- A stem with encoded direction `d` and nothing computed yet. -/
def demoStem (d : data_STEMDIRECTION) : Stem :=
  { stemDir := d, drawingStemDir := STEMDIRECTION_NONE, drawingXRel := 0, drawingYRel := 0,
    drawingStemLen := 0 }

/-- A member of class `cls` at drawing position `(x, y)` with duration `dur`. -/
def demoCoord (cls : ElementClass) (x y : Int) (dur : Dur) (stem : Option Stem) :
    BeamElementCoord :=
  { m_x := 0, m_yTop := 0, m_yBottom := 0, m_yBeam := 0, m_dur := dur, m_onStaffLine := false,
    m_shortenable := 0, m_stem := stem,
    m_element :=
      { cls := cls, drawingX := x, drawingY := y, crossStaff := false,
        stemUpSE_y := { normal := 0, cue := 0 }, stemDownNW_y := { normal := 0, cue := 0 } } }

/-- Metrics with staff unit 10 and stem width 2. -/
def demoDoc : Doc :=
  { drawingUnit := 10, drawingDoubleUnit := 20, drawingStemWidth := 2,
    drawingBeamWidth := { normal := 6, cue := 4 },
    drawingBeamWhiteWidth := { normal := 3, cue := 2 },
    glyphWidthNoteheadHalf := { normal := 12, cue := 8 } }

/-- A staff at drawing position 0. -/
def demoStaff : Staff := { drawingY := 0 }

/-- A layer without a stem direction. -/
def demoLayer : Layer := { drawingStemDir := STEMDIRECTION_NONE }

/-- A configuration with no flag set. -/
def demoInterface : BeamDrawingInterface :=
  { m_drawingPlace := BEAMPLACE_NONE, m_crossStaff := false, m_hasMultipleStemDir := false,
    m_notesStemDir := STEMDIRECTION_NONE, m_cueSize := false, m_shortestDur := DUR_8,
    m_beamWidthBlack := 0, m_beamWidthWhite := 0, m_beamWidth := 0,
    m_stemXAbove := { normal := 0, cue := 0 }, m_stemXBelow := { normal := 0, cue := 0 },
    isRepeatedPattern := false }

/-- A segment after `Reset` and `InitCoordRefs` with the given members. -/
def demoSegment (coords : List BeamElementCoord) : BeamSegment :=
  BeamSegment.InitCoordRefs
    (BeamSegment.Reset
      { m_beamElementCoordRefs := [], m_startingX := 0, m_startingY := 0, m_beamSlope := 0,
        m_verticalCenter := 0, m_avgY := 0, m_nbNotesOrChords := 0,
        m_firstNoteOrChord := none, m_lastNoteOrChord := none })
    coords

/-- An eighth note at `(x, y)`, at an odd staff location, with an unclipped stem and
encoded stem direction `d`. -/
def demoEighth (x y : Int) (d : data_STEMDIRECTION) : BeamElementCoord :=
  demoCoord (.NOTE (demoNote 3 14)) x y DUR_8 (some (demoStem d))

/-- Three eighth notes at x = 0, 100, 200 and y = 0, 0, 1000 with up-stems. -/
def C1_segment : BeamSegment :=
  demoSegment
    [demoEighth 0 0 STEMDIRECTION_up, demoEighth 100 0 STEMDIRECTION_up,
      demoEighth 200 1000 STEMDIRECTION_up]

/-- A member as the stem loop leaves it: at `x` with beam point `yBeam`. -/
def demoPlaced (x yBeam : Int) : BeamElementCoord :=
  { demoEighth 0 0 STEMDIRECTION_up with m_x := x, m_yBeam := yBeam }

/-- Two notes with beam points 70 and 270 at x = 11 and 111, the references set. -/
def C1_witness_segment : BeamSegment :=
  { demoSegment [demoPlaced 11 70, demoPlaced 111 270] with
    m_nbNotesOrChords := 2, m_firstNoteOrChord := some 0, m_lastNoteOrChord := some 1 }

/-- Three eighth notes at x = 0, 5, 40 and y = 0, 0, 20. -/
def C2_segment : BeamSegment :=
  demoSegment
    [demoEighth 0 0 STEMDIRECTION_NONE, demoEighth 5 0 STEMDIRECTION_NONE,
      demoEighth 40 20 STEMDIRECTION_NONE]

/-- A rest at `(x, y)`, without a stem. -/
def demoRest (x y : Int) : BeamElementCoord :=
  demoCoord .REST x y DUR_8 none

/-- One note between two rests. -/
def C3_segment : BeamSegment :=
  demoSegment [demoRest 0 50, demoEighth 20 30 STEMDIRECTION_NONE, demoRest 40 50]

/-- A segment whose mean position 10 is below the centre 30. -/
def C7_segment : BeamSegment :=
  { demoSegment [] with m_avgY := 10, m_verticalCenter := 30 }

/-- A 16th note at an odd staff location with an unclipped stem. -/
def C9_coord : BeamElementCoord :=
  demoCoord (.NOTE (demoNote 3 14)) 0 0 DUR_16 (some (demoStem STEMDIRECTION_NONE))

/-- An eighth note at an odd staff location whose stem is clipped to 12 half-units. -/
def C10_coord : BeamElementCoord :=
  demoCoord (.NOTE (demoNote 11 12)) 0 0 DUR_8 (some (demoStem STEMDIRECTION_NONE))

/-- Three rests. -/
def C12_segment : BeamSegment :=
  demoSegment [demoRest 0 50, demoRest 20 30, demoRest 40 50]

/-- Two notes and a rest with the extents and references an initialisation leaves. -/
def C13_segment : BeamSegment :=
  { demoSegment
      [{ demoEighth 0 30 STEMDIRECTION_NONE with m_yTop := 30, m_yBottom := 30 },
        { demoRest 20 10 with m_yTop := 10, m_yBottom := 10 },
        { demoEighth 40 50 STEMDIRECTION_NONE with m_yTop := 50, m_yBottom := 50 }] with
    m_nbNotesOrChords := 2, m_firstNoteOrChord := some 0, m_lastNoteOrChord := some 2 }

/-- Two eighth notes with encoded stem direction down around a rest. -/
def C15_segment : BeamSegment :=
  demoSegment
    [demoEighth 0 0 STEMDIRECTION_down, demoRest 20 0, demoEighth 40 10 STEMDIRECTION_down]

/-- Scenario A: two eighth notes at x = 0 and 40, y = 100 and 80. -/
def C14_segment : BeamSegment :=
  demoSegment [demoEighth 0 100 STEMDIRECTION_NONE, demoEighth 40 80 STEMDIRECTION_NONE]

/-- Two eighth notes exactly six staff units apart: x = 0 and 60, y = 0 and 100. -/
def C17_segment : BeamSegment :=
  demoSegment [demoEighth 0 0 STEMDIRECTION_NONE, demoEighth 60 100 STEMDIRECTION_NONE]

/-- Three eighth notes at x = 0, 100, 200 and y = 0, 0, 1000. -/
def C19_segment : BeamSegment :=
  demoSegment
    [demoEighth 0 0 STEMDIRECTION_NONE, demoEighth 100 0 STEMDIRECTION_NONE,
      demoEighth 200 1000 STEMDIRECTION_NONE]

/-- Two notes with beam points 270 and 70 at x = 11 and 111, the references set. -/
def C18_witness_segment : BeamSegment :=
  { demoSegment [demoPlaced 11 270, demoPlaced 111 70] with
    m_nbNotesOrChords := 2, m_firstNoteOrChord := some 0, m_lastNoteOrChord := some 1 }

/-- A chord with extremes 41 and 20, a rest and a note at y = 10. -/
def C21_segment : BeamSegment :=
  demoSegment
    [demoCoord (.CHORD 41 20 (some (demoNote 3 14)) (some (demoNote 1 14))) 0 20 DUR_8
        (some (demoStem STEMDIRECTION_NONE)),
      demoRest 20 300, demoEighth 40 10 STEMDIRECTION_NONE]

/-- A rest, two eighth notes and a rest. -/
def C23_coords : List BeamElementCoord :=
  [demoRest 0 300, demoEighth 20 0 STEMDIRECTION_NONE, demoEighth 40 10 STEMDIRECTION_NONE,
    demoRest 60 300]

/-- Two eighth notes with encoded stem direction up and down. -/
def C26_segment : BeamSegment :=
  demoSegment [demoEighth 0 0 STEMDIRECTION_up, demoEighth 40 10 STEMDIRECTION_down]

/-- A chord whose top note sits at an odd and whose bottom note at an even staff location,
with a stem of encoded direction up. -/
def C27_coord : BeamElementCoord :=
  { demoCoord (.CHORD 40 20 (some (demoNote 3 14)) (some (demoNote 0 14))) 0 20 DUR_16
      (some (demoStem STEMDIRECTION_up)) with m_yTop := 40, m_yBottom := 20 }

/-- The string `a#b`. -/
def C31_string : List Char := ['a', '#', 'b']

/-- Two eighth notes at x = 0, 49 and y = -70, -69. -/
def C2_rounding_segment : BeamSegment :=
  demoSegment [demoEighth 0 (-70) STEMDIRECTION_NONE, demoEighth 49 (-69) STEMDIRECTION_NONE]

theorem map_set_of_eq {α β : Type} (f : α → β) (l : List α) (i : Nat) (a b : α)
    (h : l[i]? = some a) (hf : f b = f a) : (l.set i b).map f = l.map f := by
  induction l generalizing i with
  | nil => simp
  | cons x xs ih =>
    cases i with
    | zero =>
      simp at h
      simp [h, hf]
    | succ j =>
      simp at h
      simp [ih j h]

theorem refSet_isSome {r : Option Nat} {n : Nat} (h : refSet r n = true) :
    ∃ i, r = some i ∧ i < n := by
  cases r with
  | none => simp [refSet] at h
  | some i => exact ⟨i, rfl, by simpa [refSet] using h⟩

theorem loop_length (i : Nat) (l : List BeamElementCoord) (acc : InitAcc) :
    (BeamSegment.CalcBeamInit.loop i l acc).1.length = l.length := by
  induction l generalizing i acc with
  | nil => simp [BeamSegment.CalcBeamInit.loop]
  | cons c cs ih => simp [BeamSegment.CalcBeamInit.loop, ih]

theorem step_nb (i : Nat) (c : BeamElementCoord) (acc : InitAcc) :
    (BeamSegment.CalcBeamInit.step i c acc).2.m_nbNotesOrChords =
      acc.m_nbNotesOrChords + noteOrChordCount [c] := by
  unfold BeamSegment.CalcBeamInit.step noteOrChordCount
  rcases c with ⟨x, yt, yb, ybm, d, o, sh, st, ⟨cls, dx, dy, cs, se, nw⟩⟩
  cases cls <;> simp [LayerElement.isChord, LayerElement.isNote]

theorem noteOrChordCount_cons (c : BeamElementCoord) (cs : List BeamElementCoord) :
    noteOrChordCount (c :: cs) = noteOrChordCount [c] + noteOrChordCount cs := by
  unfold noteOrChordCount
  by_cases h : (c.m_element.isChord || c.m_element.isNote) = true
  · simp [List.filter_cons, h]; omega
  · simp [List.filter_cons, h]

theorem noteOrChordCount_nonneg (cs : List BeamElementCoord) : 0 ≤ noteOrChordCount cs := by
  unfold noteOrChordCount; omega

theorem loop_nb (i : Nat) (l : List BeamElementCoord) (acc : InitAcc) :
    (BeamSegment.CalcBeamInit.loop i l acc).2.m_nbNotesOrChords =
      acc.m_nbNotesOrChords + noteOrChordCount l := by
  induction l generalizing i acc with
  | nil => simp [BeamSegment.CalcBeamInit.loop, noteOrChordCount]
  | cons c cs ih =>
    rw [noteOrChordCount_cons]
    simp only [BeamSegment.CalcBeamInit.loop]
    rw [ih, step_nb]; omega

theorem step_first (i : Nat) (c : BeamElementCoord) (acc : InitAcc) (n : Nat) (hi : i < n)
    (h : refInRange acc.m_firstNoteOrChord n = true) :
    refInRange (BeamSegment.CalcBeamInit.step i c acc).2.m_firstNoteOrChord n = true ∧
    (acc.m_nbNotesOrChords < (BeamSegment.CalcBeamInit.step i c acc).2.m_nbNotesOrChords →
      refSet (BeamSegment.CalcBeamInit.step i c acc).2.m_firstNoteOrChord n = true ∧
      refSet (BeamSegment.CalcBeamInit.step i c acc).2.m_lastNoteOrChord n = true) ∧
    (refSet acc.m_firstNoteOrChord n = true →
      refSet (BeamSegment.CalcBeamInit.step i c acc).2.m_firstNoteOrChord n = true) ∧
    (refSet acc.m_lastNoteOrChord n = true →
      refSet (BeamSegment.CalcBeamInit.step i c acc).2.m_lastNoteOrChord n = true) := by
  unfold BeamSegment.CalcBeamInit.step
  rcases c with ⟨x, yt, yb, ybm, d, o, sh, st, ⟨cls, dx, dy, cs, se, nw⟩⟩
  rcases acc with ⟨a, nb, nr, fi, la⟩
  cases cls <;> cases fi <;> simp_all [LayerElement.isChord, LayerElement.isNote, refInRange, refSet]

theorem loop_refs (l : List BeamElementCoord) (i : Nat) (acc : InitAcc) (n : Nat)
    (hn : i + l.length ≤ n) (h : refInRange acc.m_firstNoteOrChord n = true) :
    refInRange (BeamSegment.CalcBeamInit.loop i l acc).2.m_firstNoteOrChord n = true ∧
    (acc.m_nbNotesOrChords < (BeamSegment.CalcBeamInit.loop i l acc).2.m_nbNotesOrChords →
      refSet (BeamSegment.CalcBeamInit.loop i l acc).2.m_firstNoteOrChord n = true ∧
      refSet (BeamSegment.CalcBeamInit.loop i l acc).2.m_lastNoteOrChord n = true) ∧
    (refSet acc.m_firstNoteOrChord n = true →
      refSet (BeamSegment.CalcBeamInit.loop i l acc).2.m_firstNoteOrChord n = true) ∧
    (refSet acc.m_lastNoteOrChord n = true →
      refSet (BeamSegment.CalcBeamInit.loop i l acc).2.m_lastNoteOrChord n = true) := by
  induction l generalizing i acc with
  | nil => simp [BeamSegment.CalcBeamInit.loop, h]
  | cons c cs ih =>
    have hlen : i + 1 + cs.length ≤ n := by simp at hn; omega
    have hi : i < n := by simp at hn; omega
    obtain ⟨s1, s2, s3, s4⟩ := step_first i c acc n hi h
    obtain ⟨r1, r2, r3, r4⟩ := ih (i + 1) (BeamSegment.CalcBeamInit.step i c acc).2 hlen s1
    have hnb1 := step_nb i c acc
    have hnb2 := loop_nb (i + 1) cs (BeamSegment.CalcBeamInit.step i c acc).2
    simp only [BeamSegment.CalcBeamInit.loop]
    refine ⟨r1, fun hlt => ?_, fun hf => r3 (s3 hf), fun hl => r4 (s4 hl)⟩
    by_cases hc : acc.m_nbNotesOrChords <
        (BeamSegment.CalcBeamInit.step i c acc).2.m_nbNotesOrChords
    · exact ⟨r3 (s2 hc).1, r4 (s2 hc).2⟩
    · exact r2 (by omega)

theorem noteOrChordCount_map_x (l : List BeamElementCoord) :
    noteOrChordCount (l.map (fun coord => { coord with m_x := coord.m_element.drawingX })) =
      noteOrChordCount l := by
  unfold noteOrChordCount
  rw [List.filter_map, List.length_map]
  rfl

theorem CalcBeamInit_eq (seg : BeamSegment) (staff : Staff) (doc : Doc)
    (beamInterface : BeamDrawingInterface) (hne : seg.m_beamElementCoordRefs ≠ []) :
    seg.CalcBeamInit staff doc beamInterface = some
      ({ m_beamElementCoordRefs := (BeamSegment.CalcBeamInit.extremes seg).1
         m_startingX := seg.m_startingX
         m_startingY := seg.m_startingY
         m_beamSlope := seg.m_beamSlope
         m_verticalCenter := staff.drawingY - doc.drawingDoubleUnit * 2
         m_avgY :=
           if (seg.m_beamElementCoordRefs.length : Int) ≠
               (BeamSegment.CalcBeamInit.extremes seg).2.nbRests then
             Int.tdiv (BeamSegment.CalcBeamInit.extremes seg).2.m_avgY
               ((seg.m_beamElementCoordRefs.length : Int) -
                 (BeamSegment.CalcBeamInit.extremes seg).2.nbRests)
           else (BeamSegment.CalcBeamInit.extremes seg).2.m_avgY
         m_nbNotesOrChords := (BeamSegment.CalcBeamInit.extremes seg).2.m_nbNotesOrChords
         m_firstNoteOrChord := (BeamSegment.CalcBeamInit.extremes seg).2.m_firstNoteOrChord
         m_lastNoteOrChord := (BeamSegment.CalcBeamInit.extremes seg).2.m_lastNoteOrChord },
       { beamInterface with
         m_beamWidthBlack := doc.drawingBeamWidth.get beamInterface.m_cueSize
         m_beamWidthWhite :=
           if beamInterface.m_shortestDur = DUR_64 then
             Int.tdiv (doc.drawingBeamWhiteWidth.get beamInterface.m_cueSize * 4) 3
           else doc.drawingBeamWhiteWidth.get beamInterface.m_cueSize
         m_beamWidth :=
           doc.drawingBeamWidth.get beamInterface.m_cueSize +
             (if beamInterface.m_shortestDur = DUR_64 then
               Int.tdiv (doc.drawingBeamWhiteWidth.get beamInterface.m_cueSize * 4) 3
             else doc.drawingBeamWhiteWidth.get beamInterface.m_cueSize)
         m_stemXAbove :=
           { normal := doc.glyphWidthNoteheadHalf.get false - Int.tdiv doc.drawingStemWidth 2
             cue := beamInterface.m_stemXAbove.cue }
         m_stemXBelow :=
           { normal := Int.tdiv doc.drawingStemWidth 2
             cue := Int.tdiv doc.drawingStemWidth 2 } }) := by
  have hpos : (seg.m_beamElementCoordRefs.length : Int) > 0 := by
    have := List.length_pos.mpr hne
    omega
  unfold BeamSegment.CalcBeamInit
  rw [if_neg (not_not.mpr hpos)]
  simp only [BeamSegment.CalcBeamInit.extremes]
  split_ifs <;> rfl

theorem clamp_length (coords : List BeamElementCoord) (fi la : Nat)
    (first last : BeamElementCoord) (place : data_BEAMPLACE) (slope : ℚ) (maxStep : Int) :
    (BeamSegment.CalcBeamSlope.clamp coords fi la first last place slope maxStep).length =
      coords.length := by
  unfold BeamSegment.CalcBeamSlope.clamp
  split_ifs <;> simp

theorem clamp_map {β : Type} (f : BeamElementCoord → β)
    (hf : ∀ (c : BeamElementCoord) (y : Int), f { c with m_yBeam := y } = f c)
    (coords : List BeamElementCoord) (fi la : Nat)
    (first last : BeamElementCoord) (hfirst : coords[fi]? = some first)
    (hlast : coords[la]? = some last) (place : data_BEAMPLACE) (slope : ℚ) (maxStep : Int) :
    (BeamSegment.CalcBeamSlope.clamp coords fi la first last place slope maxStep).map f =
      coords.map f := by
  unfold BeamSegment.CalcBeamSlope.clamp
  split_ifs
  · exact map_set_of_eq f coords fi first _ hfirst (hf _ _)
  · exact map_set_of_eq f coords la last _ hlast (hf _ _)
  · exact map_set_of_eq f coords la last _ hlast (hf _ _)
  · exact map_set_of_eq f coords fi first _ hfirst (hf _ _)
  · rfl

/-- What `CalcBeamSlope` returns: with fewer than two notes or chords the segment with
slope `0`; otherwise, with `first` and `last` the records of the two references, the
segment with the raw slope when that is `0` or the step is below `maxStep`, and the
segment with one end point rewritten and the slope computed again when not. -/
theorem CalcBeamSlope_cases (seg seg2 : BeamSegment) (doc : Doc)
    (beamInterface : BeamDrawingInterface)
    (h : seg.CalcBeamSlope doc beamInterface = some seg2) :
    (seg.m_nbNotesOrChords < 2 ∧ seg2 = { seg with m_beamSlope := 0 }) ∨
    ∃ fi la first last,
      ¬ seg.m_nbNotesOrChords < 2 ∧
      seg.m_firstNoteOrChord = some fi ∧ seg.m_lastNoteOrChord = some la ∧
      seg.m_beamElementCoordRefs[fi]? = some first ∧
      seg.m_beamElementCoordRefs[la]? = some last ∧
      (((CalcSlope (first.m_x, first.m_yBeam) (last.m_x, last.m_yBeam) = 0 ∨
          |first.m_yBeam - last.m_yBeam| <
            BeamSegment.CalcBeamSlope.maxStep doc.drawingUnit seg.m_nbNotesOrChords
              (last.m_x - first.m_x)) ∧
        seg2 = { seg with
          m_beamSlope := CalcSlope (first.m_x, first.m_yBeam) (last.m_x, last.m_yBeam) }) ∨
       (CalcSlope (first.m_x, first.m_yBeam) (last.m_x, last.m_yBeam) ≠ 0 ∧
        ¬ |first.m_yBeam - last.m_yBeam| <
            BeamSegment.CalcBeamSlope.maxStep doc.drawingUnit seg.m_nbNotesOrChords
              (last.m_x - first.m_x) ∧
        ∃ first2 last2,
          (BeamSegment.CalcBeamSlope.clamp seg.m_beamElementCoordRefs fi la first last
            beamInterface.m_drawingPlace
            (CalcSlope (first.m_x, first.m_yBeam) (last.m_x, last.m_yBeam))
            (BeamSegment.CalcBeamSlope.maxStep doc.drawingUnit seg.m_nbNotesOrChords
              (last.m_x - first.m_x)))[fi]? = some first2 ∧
          (BeamSegment.CalcBeamSlope.clamp seg.m_beamElementCoordRefs fi la first last
            beamInterface.m_drawingPlace
            (CalcSlope (first.m_x, first.m_yBeam) (last.m_x, last.m_yBeam))
            (BeamSegment.CalcBeamSlope.maxStep doc.drawingUnit seg.m_nbNotesOrChords
              (last.m_x - first.m_x)))[la]? = some last2 ∧
          seg2 = { seg with
            m_beamElementCoordRefs :=
              BeamSegment.CalcBeamSlope.clamp seg.m_beamElementCoordRefs fi la first last
                beamInterface.m_drawingPlace
                (CalcSlope (first.m_x, first.m_yBeam) (last.m_x, last.m_yBeam))
                (BeamSegment.CalcBeamSlope.maxStep doc.drawingUnit seg.m_nbNotesOrChords
                  (last.m_x - first.m_x))
            m_beamSlope :=
              CalcSlope (first2.m_x, first2.m_yBeam) (last2.m_x, last2.m_yBeam) })) := by
  unfold BeamSegment.CalcBeamSlope at h
  simp only [] at h
  split_ifs at h with hnb
  · left
    exact ⟨hnb, (Option.some.inj h).symm⟩
  · right
    split at h
    next fi la hfi hla =>
      split at h
      next first last hfirst hlast =>
        refine ⟨fi, la, first, last, hnb, hfi, hla, hfirst, hlast, ?_⟩
        split_ifs at h with hz hstep
        · left
          exact ⟨Or.inl hz, (Option.some.inj h).symm⟩
        · left
          exact ⟨Or.inr hstep, (Option.some.inj h).symm⟩
        · right
          refine ⟨hz, hstep, ?_⟩
          split at h
          next first2 last2 hf2 hl2 =>
            exact ⟨first2, last2, hf2, hl2, (Option.some.inj h).symm⟩
          next => exact absurd h (by simp)
      next => exact absurd h (by simp)
    next => exact absurd h (by simp)

theorem CalcBeamSlope_isSome (seg : BeamSegment) (doc : Doc)
    (beamInterface : BeamDrawingInterface)
    (h : seg.m_nbNotesOrChords < 2 ∨
      (refSet seg.m_firstNoteOrChord seg.m_beamElementCoordRefs.length = true ∧
        refSet seg.m_lastNoteOrChord seg.m_beamElementCoordRefs.length = true)) :
    ∃ seg2, seg.CalcBeamSlope doc beamInterface = some seg2 := by
  by_cases hnb : seg.m_nbNotesOrChords < 2
  · refine ⟨{ seg with m_beamSlope := 0 }, ?_⟩
    unfold BeamSegment.CalcBeamSlope
    simp only [hnb, if_true]
  · rcases h with h | ⟨h1, h2⟩
    · exact absurd h hnb
    · obtain ⟨fi, hfi, hfilt⟩ := refSet_isSome h1
      obtain ⟨la, hla, hlalt⟩ := refSet_isSome h2
      have hfirst : seg.m_beamElementCoordRefs[fi]? = some seg.m_beamElementCoordRefs[fi] :=
        List.getElem?_eq_getElem hfilt
      have hlast : seg.m_beamElementCoordRefs[la]? = some seg.m_beamElementCoordRefs[la] :=
        List.getElem?_eq_getElem hlalt
      unfold BeamSegment.CalcBeamSlope
      simp only [hnb, if_false, hfi, hla, hfirst, hlast]
      split_ifs
      · exact ⟨_, rfl⟩
      · exact ⟨_, rfl⟩
      · have e1 := List.getElem?_eq_getElem
          (l := BeamSegment.CalcBeamSlope.clamp seg.m_beamElementCoordRefs fi la
            seg.m_beamElementCoordRefs[fi] seg.m_beamElementCoordRefs[la]
            beamInterface.m_drawingPlace
            (CalcSlope (seg.m_beamElementCoordRefs[fi].m_x, seg.m_beamElementCoordRefs[fi].m_yBeam)
              (seg.m_beamElementCoordRefs[la].m_x, seg.m_beamElementCoordRefs[la].m_yBeam))
            (BeamSegment.CalcBeamSlope.maxStep doc.drawingUnit seg.m_nbNotesOrChords
              (seg.m_beamElementCoordRefs[la].m_x - seg.m_beamElementCoordRefs[fi].m_x)))
          (n := fi) (by rw [clamp_length]; exact hfilt)
        have e2 := List.getElem?_eq_getElem
          (l := BeamSegment.CalcBeamSlope.clamp seg.m_beamElementCoordRefs fi la
            seg.m_beamElementCoordRefs[fi] seg.m_beamElementCoordRefs[la]
            beamInterface.m_drawingPlace
            (CalcSlope (seg.m_beamElementCoordRefs[fi].m_x, seg.m_beamElementCoordRefs[fi].m_yBeam)
              (seg.m_beamElementCoordRefs[la].m_x, seg.m_beamElementCoordRefs[la].m_yBeam))
            (BeamSegment.CalcBeamSlope.maxStep doc.drawingUnit seg.m_nbNotesOrChords
              (seg.m_beamElementCoordRefs[la].m_x - seg.m_beamElementCoordRefs[fi].m_x)))
          (n := la) (by rw [clamp_length]; exact hlalt)
        rw [e1, e2]
        exact ⟨_, rfl⟩

theorem CalcBeamSlope_frame (seg seg2 : BeamSegment) (doc : Doc)
    (beamInterface : BeamDrawingInterface)
    (h : seg.CalcBeamSlope doc beamInterface = some seg2) :
    seg2.m_startingX = seg.m_startingX ∧ seg2.m_startingY = seg.m_startingY ∧
    seg2.m_verticalCenter = seg.m_verticalCenter ∧ seg2.m_avgY = seg.m_avgY ∧
    seg2.m_nbNotesOrChords = seg.m_nbNotesOrChords ∧
    seg2.m_firstNoteOrChord = seg.m_firstNoteOrChord ∧
    seg2.m_lastNoteOrChord = seg.m_lastNoteOrChord ∧
    seg2.m_beamElementCoordRefs.length = seg.m_beamElementCoordRefs.length := by
  rcases CalcBeamSlope_cases seg seg2 doc beamInterface h with
    ⟨_, rfl⟩ | ⟨fi, la, first, last, _, _, _, _, _, ⟨_, rfl⟩ | ⟨_, _, first2, last2, _, _, rfl⟩⟩
  · simp
  · simp
  · simp [clamp_length]

theorem CalcBeamSlope_map {β : Type} (f : BeamElementCoord → β)
    (hf : ∀ (c : BeamElementCoord) (y : Int), f { c with m_yBeam := y } = f c)
    (seg seg2 : BeamSegment) (doc : Doc) (beamInterface : BeamDrawingInterface)
    (h : seg.CalcBeamSlope doc beamInterface = some seg2) :
    seg2.m_beamElementCoordRefs.map f = seg.m_beamElementCoordRefs.map f := by
  rcases CalcBeamSlope_cases seg seg2 doc beamInterface h with
    ⟨_, rfl⟩ | ⟨fi, la, first, last, _, _, _, hfirst, hlast,
      ⟨_, rfl⟩ | ⟨_, _, first2, last2, _, _, rfl⟩⟩
  · rfl
  · rfl
  · exact clamp_map f hf _ fi la first last hfirst hlast _ _ _

theorem CalcBeamSlope_few (seg seg2 : BeamSegment) (doc : Doc)
    (beamInterface : BeamDrawingInterface)
    (h : seg.CalcBeamSlope doc beamInterface = some seg2) (hnb : seg.m_nbNotesOrChords < 2) :
    seg2.m_beamSlope = 0 := by
  rcases CalcBeamSlope_cases seg seg2 doc beamInterface h with
    ⟨_, rfl⟩ | ⟨fi, la, first, last, hnb2, _⟩
  · rfl
  · exact absurd hnb hnb2

theorem maxStep_nonneg (unit nb dist : Int) (hunit : 0 ≤ unit) :
    0 ≤ BeamSegment.CalcBeamSlope.maxStep unit nb dist := by
  unfold BeamSegment.CalcBeamSlope.maxStep
  split_ifs
  · exact Int.tdiv_nonneg hunit (by decide)
  · omega
  · omega

theorem abs_CalcSlope_le (x1 y1 x2 y2 : Int) (hx : x1 < x2) :
    |CalcSlope (x1, y1) (x2, y2)| ≤ ((|y1 - y2| : Int) : ℚ) / ((x2 - x1 : Int) : ℚ) := by
  have hdx : (0 : ℚ) < ((x2 - x1 : Int) : ℚ) := by
    have : (0 : Int) < x2 - x1 := by omega
    exact_mod_cast this
  unfold CalcSlope
  split_ifs with hdeg
  · rw [abs_zero]
    exact div_nonneg (by exact_mod_cast abs_nonneg (y1 - y2)) hdx.le
  · rw [abs_div, abs_of_pos hdx]
    have : |((y2 - y1 : Int) : ℚ)| = ((|y1 - y2| : Int) : ℚ) := by
      rw [abs_sub_comm y1 y2]
      push_cast
      rfl
    simp only [] at this ⊢
    rw [this]

theorem clamp_ends (coords : List BeamElementCoord) (fi la : Nat)
    (first last : BeamElementCoord) (hfirst : coords[fi]? = some first)
    (hlast : coords[la]? = some last) (hne : fi ≠ la) (place : data_BEAMPLACE) (slope : ℚ)
    (maxStep : Int) :
    (place = BEAMPLACE_above → 0 < slope →
      (BeamSegment.CalcBeamSlope.clamp coords fi la first last place slope maxStep)[fi]? =
          some { first with m_yBeam := last.m_yBeam - maxStep } ∧
      (BeamSegment.CalcBeamSlope.clamp coords fi la first last place slope maxStep)[la]? =
          some last) ∧
    (place = BEAMPLACE_above → ¬ 0 < slope →
      (BeamSegment.CalcBeamSlope.clamp coords fi la first last place slope maxStep)[fi]? =
          some first ∧
      (BeamSegment.CalcBeamSlope.clamp coords fi la first last place slope maxStep)[la]? =
          some { last with m_yBeam := first.m_yBeam - maxStep }) ∧
    (place = BEAMPLACE_below → 0 < slope →
      (BeamSegment.CalcBeamSlope.clamp coords fi la first last place slope maxStep)[fi]? =
          some first ∧
      (BeamSegment.CalcBeamSlope.clamp coords fi la first last place slope maxStep)[la]? =
          some { last with m_yBeam := first.m_yBeam + maxStep }) ∧
    (place = BEAMPLACE_below → ¬ 0 < slope →
      (BeamSegment.CalcBeamSlope.clamp coords fi la first last place slope maxStep)[fi]? =
          some { first with m_yBeam := last.m_yBeam + maxStep } ∧
      (BeamSegment.CalcBeamSlope.clamp coords fi la first last place slope maxStep)[la]? =
          some last) ∧
    (place ≠ BEAMPLACE_above → place ≠ BEAMPLACE_below →
      BeamSegment.CalcBeamSlope.clamp coords fi la first last place slope maxStep = coords) := by
  have hfilt : fi < coords.length := (List.getElem?_eq_some.mp hfirst).1
  have hlalt : la < coords.length := (List.getElem?_eq_some.mp hlast).1
  unfold BeamSegment.CalcBeamSlope.clamp
  refine ⟨fun hp hs => ?_, fun hp hs => ?_, fun hp hs => ?_, fun hp hs => ?_, fun h1 h2 => ?_⟩
  · simp only [hp, if_true, gt_iff_lt, hs]
    exact ⟨List.getElem?_set_self hfilt, by rw [List.getElem?_set_ne hne]; exact hlast⟩
  · simp only [hp, if_true, gt_iff_lt, hs, if_false]
    exact ⟨by rw [List.getElem?_set_ne (Ne.symm hne)]; exact hfirst, List.getElem?_set_self hlalt⟩
  · subst hp
    simp only [gt_iff_lt, hs, if_true]
    exact ⟨by simp [List.getElem?_set_ne (Ne.symm hne), hfirst], by simp [List.getElem?_set_self hlalt]⟩
  · subst hp
    simp only [gt_iff_lt, hs, if_false]
    exact ⟨by simp [List.getElem?_set_self hfilt], by simp [List.getElem?_set_ne hne, hlast]⟩
  · simp [h1, h2]

theorem CalcBeam_eq (S : Int) (seg : BeamSegment) (layer : Layer) (staff : Staff) (doc : Doc)
    (beamInterface : BeamDrawingInterface) (place : data_BEAMPLACE) (init : Bool) :
    seg.CalcBeam S layer staff doc beamInterface place init =
      if seg.m_beamElementCoordRefs = [] then none
      else
        (if init then seg.CalcBeamInit staff doc beamInterface
          else some (seg, beamInterface)).bind fun r1 =>
          (BeamSegment.CalcBeam.slopeStage S r1.1 layer doc r1.2 place).bind fun seg3 =>
            seg3.m_beamElementCoordRefs[0]?.bind fun coord0 =>
              some (BeamSegment.CalcBeam.finish seg3 coord0 doc
                  (r1.1.CalcBeamPlace layer r1.2 place),
                r1.1.CalcBeamPlace layer r1.2 place) := by
  unfold BeamSegment.CalcBeam
  simp only []
  by_cases hne : seg.m_beamElementCoordRefs = []
  · simp [hne]
  · have hpos : (seg.m_beamElementCoordRefs.length : Int) > 0 := by
      have := List.length_pos.mpr hne
      omega
    rw [if_neg (not_not.mpr hpos), if_neg hne]
    generalize (if init = true then seg.CalcBeamInit staff doc beamInterface
      else some (seg, beamInterface)) = o1
    cases o1 with
    | none => rfl
    | some r1 =>
      obtain ⟨seg1, iface1⟩ := r1
      simp only [Option.some_bind]
      have hstage : (if ¬ iface1.isRepeatedPattern = true then
          BeamSegment.CalcBeamSlope
            { m_beamElementCoordRefs := seg1.m_beamElementCoordRefs.map
                (BeamSegment.CalcBeam.setStemDir S doc (seg1.CalcBeamPlace layer iface1 place)),
              m_startingX := seg1.m_startingX, m_startingY := seg1.m_startingY, m_beamSlope := 0,
              m_verticalCenter := seg1.m_verticalCenter, m_avgY := seg1.m_avgY,
              m_nbNotesOrChords := seg1.m_nbNotesOrChords,
              m_firstNoteOrChord := seg1.m_firstNoteOrChord,
              m_lastNoteOrChord := seg1.m_lastNoteOrChord } doc
            (seg1.CalcBeamPlace layer iface1 place)
          else some
            { m_beamElementCoordRefs := seg1.m_beamElementCoordRefs.map
                (BeamSegment.CalcBeam.setStemDir S doc (seg1.CalcBeamPlace layer iface1 place)),
              m_startingX := seg1.m_startingX, m_startingY := seg1.m_startingY, m_beamSlope := 0,
              m_verticalCenter := seg1.m_verticalCenter, m_avgY := seg1.m_avgY,
              m_nbNotesOrChords := seg1.m_nbNotesOrChords,
              m_firstNoteOrChord := seg1.m_firstNoteOrChord,
              m_lastNoteOrChord := seg1.m_lastNoteOrChord }) =
          BeamSegment.CalcBeam.slopeStage S seg1 layer doc iface1 place := by
        unfold BeamSegment.CalcBeam.slopeStage BeamSegment.CalcBeam.afterStems
        by_cases hh : iface1.isRepeatedPattern = true <;> simp [hh]
      rw [hstage]
      generalize BeamSegment.CalcBeam.slopeStage S seg1 layer doc iface1 place = o3
      cases o3 with
      | none => rfl
      | some seg3 =>
        simp only [Option.some_bind]
        generalize seg3.m_beamElementCoordRefs[0]? = o0
        cases o0 with
        | none => rfl
        | some coord0 => rfl

theorem CalcBeam_cases (S : Int) (seg : BeamSegment) (layer : Layer) (staff : Staff) (doc : Doc)
    (beamInterface : BeamDrawingInterface) (place : data_BEAMPLACE) (init : Bool)
    (r : BeamSegment × BeamDrawingInterface)
    (h : seg.CalcBeam S layer staff doc beamInterface place init = some r) :
    ∃ seg1 iface1 seg3 coord0,
      seg.m_beamElementCoordRefs ≠ [] ∧
      (if init then seg.CalcBeamInit staff doc beamInterface else some (seg, beamInterface)) =
        some (seg1, iface1) ∧
      BeamSegment.CalcBeam.slopeStage S seg1 layer doc iface1 place = some seg3 ∧
      seg3.m_beamElementCoordRefs[0]? = some coord0 ∧
      r = (BeamSegment.CalcBeam.finish seg3 coord0 doc (seg1.CalcBeamPlace layer iface1 place),
           seg1.CalcBeamPlace layer iface1 place) := by
  rw [CalcBeam_eq] at h
  by_cases hne : seg.m_beamElementCoordRefs = []
  · simp [hne] at h
  · rw [if_neg hne] at h
    obtain ⟨⟨seg1, iface1⟩, h1, h⟩ := Option.bind_eq_some.mp h
    obtain ⟨seg3, h3, h⟩ := Option.bind_eq_some.mp h
    obtain ⟨coord0, h0, h⟩ := Option.bind_eq_some.mp h
    exact ⟨seg1, iface1, seg3, coord0, hne, h1, h3, h0, (Option.some.inj h).symm⟩

theorem CalcBeam_of_stages (S : Int) (seg : BeamSegment) (layer : Layer) (staff : Staff) (doc : Doc)
    (beamInterface : BeamDrawingInterface) (place : data_BEAMPLACE) (init : Bool)
    (seg1 : BeamSegment) (iface1 : BeamDrawingInterface) (seg3 : BeamSegment)
    (coord0 : BeamElementCoord)
    (hne : seg.m_beamElementCoordRefs ≠ [])
    (hinit : (if init then seg.CalcBeamInit staff doc beamInterface
      else some (seg, beamInterface)) = some (seg1, iface1))
    (hslope : BeamSegment.CalcBeam.slopeStage S seg1 layer doc iface1 place = some seg3)
    (h0 : seg3.m_beamElementCoordRefs[0]? = some coord0) :
    seg.CalcBeam S layer staff doc beamInterface place init =
      some (BeamSegment.CalcBeam.finish seg3 coord0 doc (seg1.CalcBeamPlace layer iface1 place),
           seg1.CalcBeamPlace layer iface1 place) := by
  rw [CalcBeam_eq, if_neg hne, hinit]
  simp only [Option.some_bind, hslope, h0]

theorem slopeStage_map {β : Type} (f : BeamElementCoord → β)
    (hf : ∀ (c : BeamElementCoord) (y : Int), f { c with m_yBeam := y } = f c)
    (S : Int) (seg seg3 : BeamSegment) (layer : Layer) (doc : Doc)
    (beamInterface : BeamDrawingInterface) (place : data_BEAMPLACE)
    (h : BeamSegment.CalcBeam.slopeStage S seg layer doc beamInterface place = some seg3) :
    seg3.m_beamElementCoordRefs.map f =
      (seg.m_beamElementCoordRefs.map
        (BeamSegment.CalcBeam.setStemDir S doc (seg.CalcBeamPlace layer beamInterface place))).map f := by
  unfold BeamSegment.CalcBeam.slopeStage at h
  split_ifs at h
  · rw [← Option.some.inj h]
    rfl
  · rw [CalcBeamSlope_map f hf _ _ _ _ h]
    rfl

theorem slopeStage_length (S : Int) (seg seg3 : BeamSegment) (layer : Layer) (doc : Doc)
    (beamInterface : BeamDrawingInterface) (place : data_BEAMPLACE)
    (h : BeamSegment.CalcBeam.slopeStage S seg layer doc beamInterface place = some seg3) :
    seg3.m_beamElementCoordRefs.length = seg.m_beamElementCoordRefs.length := by
  have := congrArg List.length
    (slopeStage_map (fun _ => ()) (fun _ _ => rfl) S seg seg3 layer doc beamInterface place h)
  simpa using this

theorem slopeStage_isSome (S : Int) (seg : BeamSegment) (layer : Layer) (doc : Doc)
    (beamInterface : BeamDrawingInterface) (place : data_BEAMPLACE)
    (h : beamInterface.isRepeatedPattern = true ∨ seg.m_nbNotesOrChords < 2 ∨
      (refSet seg.m_firstNoteOrChord seg.m_beamElementCoordRefs.length = true ∧
        refSet seg.m_lastNoteOrChord seg.m_beamElementCoordRefs.length = true)) :
    ∃ seg3, BeamSegment.CalcBeam.slopeStage S seg layer doc beamInterface place = some seg3 := by
  unfold BeamSegment.CalcBeam.slopeStage
  by_cases hh : beamInterface.isRepeatedPattern = true
  · rw [if_pos hh]
    exact ⟨_, rfl⟩
  · rw [if_neg hh]
    apply CalcBeamSlope_isSome
    rcases h with h | h | h
    · exact absurd h hh
    · exact Or.inl h
    · right
      simpa [BeamSegment.CalcBeam.afterStems] using h

theorem slopeStage_zero (S : Int) (seg seg3 : BeamSegment) (layer : Layer) (doc : Doc)
    (beamInterface : BeamDrawingInterface) (place : data_BEAMPLACE)
    (h : BeamSegment.CalcBeam.slopeStage S seg layer doc beamInterface place = some seg3)
    (hz : beamInterface.isRepeatedPattern = true ∨ seg.m_nbNotesOrChords < 2) :
    seg3.m_beamSlope = 0 := by
  unfold BeamSegment.CalcBeam.slopeStage at h
  split_ifs at h with hh
  · rw [← Option.some.inj h]
    rfl
  · rcases hz with hz | hz
    · exact absurd hz hh
    · exact CalcBeamSlope_few _ _ _ _ h hz

theorem extremes_refs (seg : BeamSegment)
    (hr : refInRange seg.m_firstNoteOrChord seg.m_beamElementCoordRefs.length = true)
    (hnb : 0 < (BeamSegment.CalcBeamInit.extremes seg).2.m_nbNotesOrChords) :
    refSet (BeamSegment.CalcBeamInit.extremes seg).2.m_firstNoteOrChord
        seg.m_beamElementCoordRefs.length = true ∧
      refSet (BeamSegment.CalcBeamInit.extremes seg).2.m_lastNoteOrChord
        seg.m_beamElementCoordRefs.length = true := by
  have hl := loop_refs (seg.m_beamElementCoordRefs.map
      (fun coord => { coord with m_x := coord.m_element.drawingX })) 0
    { m_avgY := 0, m_nbNotesOrChords := 0, nbRests := 0,
      m_firstNoteOrChord := seg.m_firstNoteOrChord,
      m_lastNoteOrChord := seg.m_lastNoteOrChord } seg.m_beamElementCoordRefs.length
    (by simp) hr
  exact hl.2.1 hnb

theorem extremes_nb (seg : BeamSegment) :
    (BeamSegment.CalcBeamInit.extremes seg).2.m_nbNotesOrChords =
      noteOrChordCount seg.m_beamElementCoordRefs := by
  unfold BeamSegment.CalcBeamInit.extremes
  rw [loop_nb, noteOrChordCount_map_x]
  simp

theorem extremes_length (seg : BeamSegment) :
    (BeamSegment.CalcBeamInit.extremes seg).1.length = seg.m_beamElementCoordRefs.length := by
  unfold BeamSegment.CalcBeamInit.extremes
  rw [loop_length, List.length_map]

/-- A pass of `CalcBeam` over a non-empty list in a ready state returns. -/
theorem CalcBeam_returns (S : Int) (seg : BeamSegment) (layer : Layer) (staff : Staff)
    (doc : Doc) (beamInterface : BeamDrawingInterface) (place : data_BEAMPLACE) (init : Bool)
    (hne : seg.m_beamElementCoordRefs ≠ []) (hready : seg.passReady init = true) :
    ∃ r, seg.CalcBeam S layer staff doc beamInterface place init = some r := by
  have key : ∀ (seg1 : BeamSegment) (iface1 : BeamDrawingInterface),
      (if init then seg.CalcBeamInit staff doc beamInterface
        else some (seg, beamInterface)) = some (seg1, iface1) →
      seg1.m_beamElementCoordRefs.length = seg.m_beamElementCoordRefs.length →
      (seg1.m_nbNotesOrChords < 2 ∨
        (refSet seg1.m_firstNoteOrChord seg1.m_beamElementCoordRefs.length = true ∧
          refSet seg1.m_lastNoteOrChord seg1.m_beamElementCoordRefs.length = true)) →
      ∃ r, seg.CalcBeam S layer staff doc beamInterface place init = some r := by
    intro seg1 iface1 h1 hlen hrefs
    obtain ⟨seg3, h3⟩ := slopeStage_isSome S seg1 layer doc iface1 place (Or.inr hrefs)
    have hlen3 := slopeStage_length S seg1 seg3 layer doc iface1 place h3
    have hpos : 0 < seg3.m_beamElementCoordRefs.length := by
      rw [hlen3, hlen]
      exact List.length_pos.mpr hne
    exact ⟨_, CalcBeam_of_stages S seg layer staff doc beamInterface place init seg1 iface1 seg3
      _ hne h1 h3 (List.getElem?_eq_getElem hpos)⟩
  cases init with
  | true =>
    have hinit := CalcBeamInit_eq seg staff doc beamInterface hne
    refine key _ _ (by simpa using hinit) (by simp [extremes_length]) ?_
    simp only [BeamSegment.passReady, if_true] at hready
    by_cases hnb : (BeamSegment.CalcBeamInit.extremes seg).2.m_nbNotesOrChords < 2
    · exact Or.inl hnb
    · right
      have := extremes_refs seg hready (by omega)
      simpa [extremes_length] using this
  | false =>
    refine key seg beamInterface (by simp) rfl ?_
    simpa [BeamSegment.passReady] using hready

theorem truncToInt_intCast (n : Int) : truncToInt (n : ℚ) = n := by
  unfold truncToInt
  split_ifs <;> simp

theorem setStemLen_x_yBeam (doc : Doc) (beamInterface : BeamDrawingInterface)
    (c : BeamElementCoord) :
    (BeamSegment.CalcBeam.setStemLen doc beamInterface c).m_x = c.m_x ∧
    (BeamSegment.CalcBeam.setStemLen doc beamInterface c).m_yBeam = c.m_yBeam := by
  unfold BeamSegment.CalcBeam.setStemLen
  cases hstem : c.m_stem <;>
    by_cases hn : (c.m_element.isNote || c.m_element.isChord) = true <;> simp [hstem, hn]

theorem SetDrawingStemDir_yBeam (S : Int) (c : BeamElementCoord) (stemDir : data_STEMDIRECTION)
    (doc : Doc) (beamInterface : BeamDrawingInterface) (stem : Stem) (note : Note)
    (hstem : c.m_stem = some stem) (hnote : c.refNote stemDir = some note) :
    (c.SetDrawingStemDir S stemDir doc beamInterface).m_yBeam =
      (if stemDir = STEMDIRECTION_up then c.m_yTop else c.m_yBottom) +
        Int.tdiv (c.chosenStemLen S stemDir note * doc.drawingUnit) 2 ∧
    (c.SetDrawingStemDir S stemDir doc beamInterface).m_onStaffLine = note.locFlag := by
  have hnote2 : ∀ (st : Option Stem) (o : Bool) (sh : Int),
      BeamElementCoord.refNote { c with m_stem := st, m_onStaffLine := o, m_shortenable := sh }
        stemDir = some note := fun _ _ _ => hnote
  unfold BeamElementCoord.SetDrawingStemDir BeamElementCoord.chosenStemLen
  simp only [hstem, hnote2]
  by_cases hd : stemDir = STEMDIRECTION_up
  · simp only [hd, if_true]
    split_ifs <;> exact ⟨rfl, rfl⟩
  · simp only [hd, if_false]
    split_ifs <;> exact ⟨rfl, rfl⟩

theorem abs_sign_mul (stemDir : data_STEMDIRECTION) (n : Int) :
    |(if stemDir = STEMDIRECTION_up then (1 : Int) else -1) * n| = |n| := by
  split_ifs <;> simp

theorem stemLen_neg (S : Int) (dur : Dur) (flag : Bool) (note : Note) :
    BeamElementCoord.stemLen S dur (-1) flag note = -BeamElementCoord.stemLen S dur 1 flag note := by
  unfold BeamElementCoord.stemLen
  cases dur <;> simp <;> split_ifs <;> simp

theorem setNoteColor_frame (el : LayerElement) (col : String) :
    (el.setNoteColor col).drawingX = el.drawingX ∧ (el.setNoteColor col).drawingY = el.drawingY ∧
    (el.setNoteColor col).isNote = el.isNote ∧ (el.setNoteColor col).isChord = el.isChord ∧
    (el.setNoteColor col).stemUpSE_y = el.stemUpSE_y ∧
    (el.setNoteColor col).stemDownNW_y = el.stemDownNW_y ∧
    (el.setNoteColor col).crossStaff = el.crossStaff := by
  unfold LayerElement.setNoteColor
  rcases el with ⟨cls, dx, dy, cs, se, nw⟩
  cases cls <;> simp [LayerElement.isNote, LayerElement.isChord]

/-- What `SetDrawingStemDir` returns for a member with a stem: the stem gets the drawing
direction, `m_x` the offset of the direction, and besides these only `m_yBeam`,
`m_onStaffLine`, `m_shortenable` and the colour of the note change. -/
theorem SetDrawingStemDir_shape (S : Int) (c : BeamElementCoord) (stemDir : data_STEMDIRECTION)
    (doc : Doc) (beamInterface : BeamDrawingInterface) (stem : Stem)
    (hstem : c.m_stem = some stem) :
    ∃ (y : Int) (o : Bool) (el : LayerElement),
      (el = c.m_element ∨ ∃ col, el = c.m_element.setNoteColor col) ∧
      c.SetDrawingStemDir S stemDir doc beamInterface =
        { c with
          m_stem := some { stem with drawingStemDir := stemDir }
          m_onStaffLine := o
          m_shortenable := 0
          m_yBeam := y
          m_x := c.m_x +
            (if stemDir = STEMDIRECTION_up then
              beamInterface.m_stemXAbove.get beamInterface.m_cueSize
            else beamInterface.m_stemXBelow.get beamInterface.m_cueSize)
          m_element := el } := by
  unfold BeamElementCoord.SetDrawingStemDir
  simp only [hstem]
  by_cases hd : stemDir = STEMDIRECTION_up
  · simp only [hd, if_true]
    split
    · exact ⟨_, _, _, Or.inl rfl, rfl⟩
    · split_ifs
      · exact ⟨_, _, _, Or.inr ⟨_, rfl⟩, rfl⟩
      · exact ⟨_, _, _, Or.inr ⟨_, rfl⟩, rfl⟩
  · simp only [hd, if_false]
    split
    · exact ⟨_, _, _, Or.inl rfl, rfl⟩
    · split_ifs
      · exact ⟨_, _, _, Or.inr ⟨_, rfl⟩, rfl⟩
      · exact ⟨_, _, _, Or.inr ⟨_, rfl⟩, rfl⟩

/-- The loop "Set drawing stem positions" leaves everything that does not depend on the
stem's drawing direction, `m_x`, `m_yBeam`, `m_onStaffLine`, `m_shortenable` and the
colour of the note. -/
theorem setStemDir_map {β : Type} (g : BeamElementCoord → β)
    (hg : ∀ (c : BeamElementCoord) (S : Int) (d : data_STEMDIRECTION) (doc : Doc)
      (beamInterface : BeamDrawingInterface),
      g (c.SetDrawingStemDir S d doc beamInterface) = g c)
    (S : Int) (doc : Doc) (beamInterface : BeamDrawingInterface) (c : BeamElementCoord) :
    g (BeamSegment.CalcBeam.setStemDir S doc beamInterface c) = g c := by
  unfold BeamSegment.CalcBeam.setStemDir
  cases hstem : c.m_stem with
  | none => rfl
  | some stem =>
    simp only []
    split_ifs
    · exact hg _ _ _ _ _
    · exact hg _ _ _ _ _
    · rfl
    · exact hg _ _ _ _ _

theorem SetDrawingStemDir_extents (S : Int) (c : BeamElementCoord) (stemDir : data_STEMDIRECTION)
    (doc : Doc) (beamInterface : BeamDrawingInterface) :
    (c.SetDrawingStemDir S stemDir doc beamInterface).m_yTop = c.m_yTop ∧
    (c.SetDrawingStemDir S stemDir doc beamInterface).m_yBottom = c.m_yBottom := by
  cases hstem : c.m_stem with
  | none => simp [BeamElementCoord.SetDrawingStemDir, hstem]
  | some stem =>
    obtain ⟨y, o, el, _, he⟩ := SetDrawingStemDir_shape S c stemDir doc beamInterface stem hstem
    rw [he]
    exact ⟨rfl, rfl⟩

/-- What `setStemLen` returns: the member itself, or the member with the three stem
values written. -/
theorem setStemLen_shape (doc : Doc) (beamInterface : BeamDrawingInterface)
    (c : BeamElementCoord) :
    (BeamSegment.CalcBeam.setStemLen doc beamInterface c = c ∧
      ((c.m_element.isNote || c.m_element.isChord) = false ∨ c.m_stem = none)) ∨
    ∃ stem, (c.m_element.isNote || c.m_element.isChord) = true ∧ c.m_stem = some stem ∧
      BeamSegment.CalcBeam.setStemLen doc beamInterface c =
        { c with
          m_stem := some
            { stem with
              drawingXRel := c.m_x - c.m_element.drawingX
              drawingYRel :=
                (if beamInterface.m_drawingPlace = BEAMPLACE_above then
                  c.m_yBottom + c.m_element.stemUpSE_y.get beamInterface.m_cueSize
                else c.m_yTop + c.m_element.stemDownNW_y.get beamInterface.m_cueSize) -
                  c.m_element.drawingY
              drawingStemLen :=
                (if beamInterface.m_drawingPlace = BEAMPLACE_above then
                  c.m_yBottom + c.m_element.stemUpSE_y.get beamInterface.m_cueSize
                else c.m_yTop + c.m_element.stemDownNW_y.get beamInterface.m_cueSize) -
                (if beamInterface.m_drawingPlace = BEAMPLACE_above then
                  c.m_yBeam - doc.drawingStemWidth
                else c.m_yBeam + doc.drawingStemWidth) } } := by
  unfold BeamSegment.CalcBeam.setStemLen
  by_cases hn : (c.m_element.isNote || c.m_element.isChord) = true
  · cases hstem : c.m_stem with
    | none => left; simp [hn]
    | some stem =>
      right
      refine ⟨stem, hn, rfl, ?_⟩
      simp only [hn, if_true]
  · left
    simp only [hn]
    exact ⟨rfl, Or.inl (by simp at hn; simp [hn])⟩

/-- The anchor and the two last loops of `CalcBeam` leave everything that does not
depend on `m_yBeam` and the three stem values. -/
theorem finish_map {β : Type} (g : BeamElementCoord → β)
    (hy : ∀ (c : BeamElementCoord) (y : Int), g { c with m_yBeam := y } = g c)
    (hl : ∀ (doc : Doc) (beamInterface : BeamDrawingInterface) (c : BeamElementCoord),
      g (BeamSegment.CalcBeam.setStemLen doc beamInterface c) = g c)
    (seg : BeamSegment) (coord0 : BeamElementCoord) (doc : Doc)
    (beamInterface : BeamDrawingInterface) :
    (BeamSegment.CalcBeam.finish seg coord0 doc beamInterface).m_beamElementCoordRefs.map g =
      seg.m_beamElementCoordRefs.map g := by
  simp only [BeamSegment.CalcBeam.finish, List.map_map]
  apply List.map_congr_left
  intro c _
  simp only [Function.comp]
  rw [hl]
  exact hy _ _

theorem step_shape (i : Nat) (c : BeamElementCoord) (acc : InitAcc) :
    ∃ t b, (BeamSegment.CalcBeamInit.step i c acc).1 =
      { c with m_yBeam := 0, m_yTop := t, m_yBottom := b } := by
  unfold BeamSegment.CalcBeamInit.step
  simp only []
  split <;> exact ⟨_, _, rfl⟩

/-- The second loop of `CalcBeamInit` leaves everything that does not depend on
`m_yBeam`, `m_yTop` and `m_yBottom`. -/
theorem loop_map {β : Type} (g : BeamElementCoord → β)
    (hg : ∀ (c : BeamElementCoord) (y t b : Int),
      g { c with m_yBeam := y, m_yTop := t, m_yBottom := b } = g c)
    (l : List BeamElementCoord) (i : Nat) (acc : InitAcc) :
    (BeamSegment.CalcBeamInit.loop i l acc).1.map g = l.map g := by
  induction l generalizing i acc with
  | nil => rfl
  | cons c cs ih =>
    simp only [BeamSegment.CalcBeamInit.loop, List.map_cons, ih]
    obtain ⟨t, b, hs⟩ := step_shape i c acc
    rw [hs, hg]

theorem extremes_map {β : Type} (g : BeamElementCoord → β)
    (hg : ∀ (c : BeamElementCoord) (y t b : Int),
      g { c with m_yBeam := y, m_yTop := t, m_yBottom := b } = g c)
    (seg : BeamSegment) :
    (BeamSegment.CalcBeamInit.extremes seg).1.map g =
      seg.m_beamElementCoordRefs.map
        (fun c => g { c with m_x := c.m_element.drawingX }) := by
  unfold BeamSegment.CalcBeamInit.extremes
  rw [loop_map g hg, List.map_map]
  rfl

/-- The members at the end of a pass of `CalcBeam`, seen through a function that does
not depend on `m_yBeam` and the three stem values, are the members after the stem
loop. -/
theorem CalcBeam_map {β : Type} (g : BeamElementCoord → β)
    (hy : ∀ (c : BeamElementCoord) (y : Int), g { c with m_yBeam := y } = g c)
    (hl : ∀ (doc : Doc) (beamInterface : BeamDrawingInterface) (c : BeamElementCoord),
      g (BeamSegment.CalcBeam.setStemLen doc beamInterface c) = g c)
    (S : Int) (seg : BeamSegment) (layer : Layer) (staff : Staff) (doc : Doc)
    (beamInterface : BeamDrawingInterface) (place : data_BEAMPLACE) (init : Bool)
    (r : BeamSegment × BeamDrawingInterface)
    (h : seg.CalcBeam S layer staff doc beamInterface place init = some r) :
    ∃ seg1 iface1,
      (if init then seg.CalcBeamInit staff doc beamInterface else some (seg, beamInterface)) =
        some (seg1, iface1) ∧
      r.2 = seg1.CalcBeamPlace layer iface1 place ∧
      r.1.m_beamElementCoordRefs.map g =
        (seg1.m_beamElementCoordRefs.map (BeamSegment.CalcBeam.setStemDir S doc r.2)).map g := by
  obtain ⟨seg1, iface1, seg3, coord0, _, h1, h3, _, rfl⟩ :=
    CalcBeam_cases S seg layer staff doc beamInterface place init r h
  refine ⟨seg1, iface1, h1, rfl, ?_⟩
  simp only []
  rw [finish_map g hy hl, slopeStage_map g hy S seg1 seg3 layer doc iface1 place h3]

theorem step_avgY_rests (i : Nat) (c : BeamElementCoord) (acc : InitAcc) :
    (BeamSegment.CalcBeamInit.step i c acc).2.m_avgY = acc.m_avgY + noteOrChordYSum [c] ∧
    (BeamSegment.CalcBeamInit.step i c acc).2.nbRests =
      acc.nbRests + (1 - noteOrChordCount [c]) := by
  unfold BeamSegment.CalcBeamInit.step noteOrChordYSum noteOrChordCount
  rcases c with ⟨x, yt, yb, ybm, d, o, sh, st, ⟨cls, dx, dy, cs, se, nw⟩⟩
  cases cls <;> simp [LayerElement.isChord, LayerElement.isNote, noteOrChordYSum]

theorem noteOrChordYSum_cons (c : BeamElementCoord) (cs : List BeamElementCoord) :
    noteOrChordYSum (c :: cs) = noteOrChordYSum [c] + noteOrChordYSum cs := by
  simp [noteOrChordYSum]

/-- The second loop of `CalcBeamInit` adds to `m_avgY` the positions of the notes and
chords and to `nbRests` the number of the other members. -/
theorem loop_avgY_rests (l : List BeamElementCoord) (i : Nat) (acc : InitAcc) :
    (BeamSegment.CalcBeamInit.loop i l acc).2.m_avgY = acc.m_avgY + noteOrChordYSum l ∧
    (BeamSegment.CalcBeamInit.loop i l acc).2.nbRests =
      acc.nbRests + ((l.length : Int) - noteOrChordCount l) := by
  induction l generalizing i acc with
  | nil => simp [BeamSegment.CalcBeamInit.loop, noteOrChordYSum, noteOrChordCount]
  | cons c cs ih =>
    obtain ⟨h1, h2⟩ := ih (i + 1) (BeamSegment.CalcBeamInit.step i c acc).2
    obtain ⟨s1, s2⟩ := step_avgY_rests i c acc
    rw [noteOrChordYSum_cons, noteOrChordCount_cons]
    simp only [BeamSegment.CalcBeamInit.loop, List.length_cons]
    rw [h1, h2, s1, s2]
    constructor
    · ring
    · push_cast
      ring

theorem noteOrChordYSum_map_x (l : List BeamElementCoord) :
    noteOrChordYSum (l.map (fun coord => { coord with m_x := coord.m_element.drawingX })) =
      noteOrChordYSum l := by
  induction l with
  | nil => rfl
  | cons c cs ih => simp only [List.map_cons, noteOrChordYSum, ih]

theorem extremes_avgY_rests (seg : BeamSegment) :
    (BeamSegment.CalcBeamInit.extremes seg).2.m_avgY =
      noteOrChordYSum seg.m_beamElementCoordRefs ∧
    (BeamSegment.CalcBeamInit.extremes seg).2.nbRests =
      (seg.m_beamElementCoordRefs.length : Int) - noteOrChordCount seg.m_beamElementCoordRefs := by
  unfold BeamSegment.CalcBeamInit.extremes
  obtain ⟨h1, h2⟩ := loop_avgY_rests
    (seg.m_beamElementCoordRefs.map (fun coord => { coord with m_x := coord.m_element.drawingX }))
    0 { m_avgY := 0, m_nbNotesOrChords := 0, nbRests := 0,
        m_firstNoteOrChord := seg.m_firstNoteOrChord,
        m_lastNoteOrChord := seg.m_lastNoteOrChord }
  rw [h1, h2, noteOrChordYSum_map_x, noteOrChordCount_map_x]
  simp

theorem noteOrChordYSum_zero (l : List BeamElementCoord) (h : noteOrChordCount l = 0) :
    noteOrChordYSum l = 0 := by
  induction l with
  | nil => rfl
  | cons c cs ih =>
    rw [noteOrChordCount_cons] at h
    have h1 := noteOrChordCount_nonneg [c]
    have h2 := noteOrChordCount_nonneg cs
    have hc : noteOrChordCount [c] = 0 := by omega
    rw [noteOrChordYSum_cons, ih (by omega)]
    rcases c with ⟨x, yt, yb, ybm, d, o, sh, st, ⟨cls, dx, dy, cs2, se, nw⟩⟩
    cases cls <;>
      simp_all [noteOrChordYSum, noteOrChordCount, LayerElement.isChord, LayerElement.isNote]

theorem slopeStage_avgY (S : Int) (seg seg3 : BeamSegment) (layer : Layer) (doc : Doc)
    (beamInterface : BeamDrawingInterface) (place : data_BEAMPLACE)
    (h : BeamSegment.CalcBeam.slopeStage S seg layer doc beamInterface place = some seg3) :
    seg3.m_avgY = seg.m_avgY := by
  unfold BeamSegment.CalcBeam.slopeStage at h
  split_ifs at h
  · rw [← Option.some.inj h]
    rfl
  · rw [(CalcBeamSlope_frame _ _ _ _ h).2.2.2.1]
    rfl

/-- The segment `CalcBeamInit` leaves, field by field. -/
theorem CalcBeamInit_fields (seg : BeamSegment) (staff : Staff) (doc : Doc)
    (beamInterface : BeamDrawingInterface) (hne : seg.m_beamElementCoordRefs ≠ []) :
    ∃ seg1 iface1, seg.CalcBeamInit staff doc beamInterface = some (seg1, iface1) ∧
      seg1.m_beamElementCoordRefs = (BeamSegment.CalcBeamInit.extremes seg).1 ∧
      seg1.m_nbNotesOrChords = noteOrChordCount seg.m_beamElementCoordRefs ∧
      seg1.m_avgY =
        (if (seg.m_beamElementCoordRefs.length : Int) ≠
            (BeamSegment.CalcBeamInit.extremes seg).2.nbRests then
          Int.tdiv (BeamSegment.CalcBeamInit.extremes seg).2.m_avgY
            ((seg.m_beamElementCoordRefs.length : Int) -
              (BeamSegment.CalcBeamInit.extremes seg).2.nbRests)
        else (BeamSegment.CalcBeamInit.extremes seg).2.m_avgY) ∧
      seg1.m_firstNoteOrChord = (BeamSegment.CalcBeamInit.extremes seg).2.m_firstNoteOrChord ∧
      seg1.m_lastNoteOrChord = (BeamSegment.CalcBeamInit.extremes seg).2.m_lastNoteOrChord ∧
      iface1.isRepeatedPattern = beamInterface.isRepeatedPattern ∧
      iface1.m_cueSize = beamInterface.m_cueSize ∧
      iface1.m_crossStaff = beamInterface.m_crossStaff ∧
      iface1.m_stemXAbove =
        { normal := doc.glyphWidthNoteheadHalf.get false - Int.tdiv doc.drawingStemWidth 2
          cue := beamInterface.m_stemXAbove.cue } ∧
      iface1.m_stemXBelow =
        { normal := Int.tdiv doc.drawingStemWidth 2
          cue := Int.tdiv doc.drawingStemWidth 2 } :=
  ⟨_, _, CalcBeamInit_eq seg staff doc beamInterface hne, rfl, extremes_nb seg, rfl, rfl, rfl,
    rfl, rfl, rfl, rfl, rfl⟩

/-- A pass of `CalcBeam` with initialisation over a non-empty list with fewer than two
notes or chords returns with slope `0`, and `m_avgY` is as `CalcBeamInit` leaves it. -/
theorem CalcBeam_init_few (S : Int) (seg : BeamSegment) (layer : Layer) (staff : Staff)
    (doc : Doc) (beamInterface : BeamDrawingInterface) (place : data_BEAMPLACE)
    (hne : seg.m_beamElementCoordRefs ≠ [])
    (hfew : noteOrChordCount seg.m_beamElementCoordRefs < 2) :
    ∃ r1 r, seg.CalcBeamInit staff doc beamInterface = some r1 ∧
      seg.CalcBeam S layer staff doc beamInterface place true = some r ∧
      r.1.m_beamSlope = 0 ∧ r.1.m_avgY = r1.1.m_avgY := by
  obtain ⟨seg1, iface1, hinit, hcoords, hnb, _⟩ :=
    CalcBeamInit_fields seg staff doc beamInterface hne
  have hfew1 : seg1.m_nbNotesOrChords < 2 := by rw [hnb]; exact hfew
  obtain ⟨seg3, h3⟩ := slopeStage_isSome S seg1 layer doc iface1 place (Or.inr (Or.inl hfew1))
  have hlen3 := slopeStage_length S seg1 seg3 layer doc iface1 place h3
  have hpos : 0 < seg3.m_beamElementCoordRefs.length := by
    rw [hlen3, hcoords, extremes_length]
    exact List.length_pos.mpr hne
  refine ⟨_, _, hinit, CalcBeam_of_stages S seg layer staff doc beamInterface place true seg1
      iface1 seg3 _ hne (by simpa using hinit) h3 (List.getElem?_eq_getElem hpos), ?_, ?_⟩
  · exact slopeStage_zero S seg1 seg3 layer doc iface1 place h3 (Or.inr hfew1)
  · simp only [BeamSegment.CalcBeam.finish]
    exact slopeStage_avgY S seg1 seg3 layer doc iface1 place h3

/-- What `SetDrawingStemDir` leaves of a member: everything seen through a function
that does not depend on the stem's drawing direction, `m_x`, `m_yBeam`, `m_onStaffLine`,
`m_shortenable` and the colour of the note. -/
theorem SetDrawingStemDir_map {β : Type} (g : BeamElementCoord → β)
    (hg : ∀ (c : BeamElementCoord) (stem : Stem) (d : data_STEMDIRECTION) (o : Bool)
      (sh y x : Int) (el : LayerElement), c.m_stem = some stem →
      (el = c.m_element ∨ ∃ col, el = c.m_element.setNoteColor col) →
      g { c with
          m_stem := some { stem with drawingStemDir := d }
          m_onStaffLine := o
          m_shortenable := sh
          m_yBeam := y
          m_x := x
          m_element := el } = g c)
    (c : BeamElementCoord) (S : Int) (d : data_STEMDIRECTION) (doc : Doc)
    (beamInterface : BeamDrawingInterface) :
    g (c.SetDrawingStemDir S d doc beamInterface) = g c := by
  cases hstem : c.m_stem with
  | none => simp [BeamElementCoord.SetDrawingStemDir, hstem]
  | some stem =>
    obtain ⟨y, o, el, hel, he⟩ := SetDrawingStemDir_shape S c d doc beamInterface stem hstem
    rw [he]
    exact hg c stem d o 0 y _ el hstem hel

/-- The members of a pass of `CalcBeam` without initialisation, seen through a function
that depends on none of the values the pass writes, are the members it started from. -/
theorem CalcBeam_noinit_map {β : Type} (g : BeamElementCoord → β)
    (hy : ∀ (c : BeamElementCoord) (y : Int), g { c with m_yBeam := y } = g c)
    (hl : ∀ (doc : Doc) (beamInterface : BeamDrawingInterface) (c : BeamElementCoord),
      g (BeamSegment.CalcBeam.setStemLen doc beamInterface c) = g c)
    (hs : ∀ (c : BeamElementCoord) (S : Int) (d : data_STEMDIRECTION) (doc : Doc)
      (beamInterface : BeamDrawingInterface),
      g (c.SetDrawingStemDir S d doc beamInterface) = g c)
    (S : Int) (seg : BeamSegment) (layer : Layer) (staff : Staff) (doc : Doc)
    (beamInterface : BeamDrawingInterface) (place : data_BEAMPLACE)
    (r : BeamSegment × BeamDrawingInterface)
    (h : seg.CalcBeam S layer staff doc beamInterface place false = some r) :
    r.1.m_beamElementCoordRefs.map g = seg.m_beamElementCoordRefs.map g := by
  obtain ⟨seg1, iface1, h1, _, hmap⟩ :=
    CalcBeam_map g hy hl S seg layer staff doc beamInterface place false r h
  simp only [Bool.false_eq_true, if_false, Option.some.injEq, Prod.mk.injEq] at h1
  obtain ⟨rfl, rfl⟩ := h1
  rw [hmap, List.map_map]
  apply List.map_congr_left
  intro c _
  exact setStemDir_map g hs S doc r.2 c

theorem CalcBeamPlace_frame (seg : BeamSegment) (layer : Layer)
    (beamInterface : BeamDrawingInterface) (place : data_BEAMPLACE) :
    (seg.CalcBeamPlace layer beamInterface place).m_crossStaff = beamInterface.m_crossStaff ∧
    (seg.CalcBeamPlace layer beamInterface place).m_cueSize = beamInterface.m_cueSize ∧
    (seg.CalcBeamPlace layer beamInterface place).m_stemXAbove = beamInterface.m_stemXAbove ∧
    (seg.CalcBeamPlace layer beamInterface place).m_stemXBelow = beamInterface.m_stemXBelow := by
  unfold BeamSegment.CalcBeamPlace
  simp only []
  split_ifs <;> exact ⟨rfl, rfl, rfl, rfl⟩

/-- The members at the end of a pass of `CalcBeam`, seen through a function that depends
on none of the values `CalcBeamInit` and the pass write, are the members it started
from. -/
theorem CalcBeam_full_map {β : Type} (g : BeamElementCoord → β)
    (hi : ∀ (c : BeamElementCoord) (y t b x : Int),
      g { c with m_yBeam := y, m_yTop := t, m_yBottom := b, m_x := x } = g c)
    (hl : ∀ (doc : Doc) (beamInterface : BeamDrawingInterface) (c : BeamElementCoord),
      g (BeamSegment.CalcBeam.setStemLen doc beamInterface c) = g c)
    (hs : ∀ (c : BeamElementCoord) (S : Int) (d : data_STEMDIRECTION) (doc : Doc)
      (beamInterface : BeamDrawingInterface),
      g (c.SetDrawingStemDir S d doc beamInterface) = g c)
    (S : Int) (seg : BeamSegment) (layer : Layer) (staff : Staff) (doc : Doc)
    (beamInterface : BeamDrawingInterface) (place : data_BEAMPLACE) (init : Bool)
    (r : BeamSegment × BeamDrawingInterface)
    (h : seg.CalcBeam S layer staff doc beamInterface place init = some r) :
    r.1.m_beamElementCoordRefs.map g = seg.m_beamElementCoordRefs.map g := by
  have hy : ∀ (c : BeamElementCoord) (y : Int), g { c with m_yBeam := y } = g c :=
    fun c y => hi c y c.m_yTop c.m_yBottom c.m_x
  cases init with
  | false => exact CalcBeam_noinit_map g hy hl hs S seg layer staff doc beamInterface place r h
  | true =>
    obtain ⟨seg1, iface1, h1, _, hmap⟩ :=
      CalcBeam_map g hy hl S seg layer staff doc beamInterface place true r h
    have hne : seg.m_beamElementCoordRefs ≠ [] := by
      obtain ⟨_, _, _, _, hne, _⟩ :=
        CalcBeam_cases S seg layer staff doc beamInterface place true r h
      exact hne
    obtain ⟨seg1b, iface1b, hinit, hcoords, _⟩ :=
      CalcBeamInit_fields seg staff doc beamInterface hne
    simp only [if_true] at h1
    rw [hinit] at h1
    simp only [Option.some.injEq, Prod.mk.injEq] at h1
    obtain ⟨rfl, rfl⟩ := h1
    rw [hmap, List.map_map, hcoords]
    have hstep : List.map (g ∘ BeamSegment.CalcBeam.setStemDir S doc r.2)
        (BeamSegment.CalcBeamInit.extremes seg).1 =
        List.map g (BeamSegment.CalcBeamInit.extremes seg).1 := by
      apply List.map_congr_left
      intro c _
      exact setStemDir_map g hs S doc r.2 c
    rw [hstep, extremes_map g (fun c y t b => hi c y t b c.m_x)]
    apply List.map_congr_left
    intro c _
    exact hi c c.m_yBeam c.m_yTop c.m_yBottom _

/-- What `CalcBeamSlope` does to the members when both references are set and at least
two members are notes or chords: nothing when the raw slope is `0` or the step is below
`maxStep`, the assignment of `clamp` otherwise. -/
theorem CalcBeamSlope_coords (seg : BeamSegment) (doc : Doc)
    (beamInterface : BeamDrawingInterface) (fi la : Nat) (first last : BeamElementCoord)
    (hnb : 2 ≤ seg.m_nbNotesOrChords)
    (hfi : seg.m_firstNoteOrChord = some fi) (hla : seg.m_lastNoteOrChord = some la)
    (hfirst : seg.m_beamElementCoordRefs[fi]? = some first)
    (hlast : seg.m_beamElementCoordRefs[la]? = some last) :
    ∃ seg2, seg.CalcBeamSlope doc beamInterface = some seg2 ∧
      seg2.m_beamElementCoordRefs =
        if CalcSlope (first.m_x, first.m_yBeam) (last.m_x, last.m_yBeam) = 0 ∨
            |first.m_yBeam - last.m_yBeam| <
              BeamSegment.CalcBeamSlope.maxStep doc.drawingUnit seg.m_nbNotesOrChords
                (last.m_x - first.m_x) then
          seg.m_beamElementCoordRefs
        else
          BeamSegment.CalcBeamSlope.clamp seg.m_beamElementCoordRefs fi la first last
            beamInterface.m_drawingPlace
            (CalcSlope (first.m_x, first.m_yBeam) (last.m_x, last.m_yBeam))
            (BeamSegment.CalcBeamSlope.maxStep doc.drawingUnit seg.m_nbNotesOrChords
              (last.m_x - first.m_x)) := by
  have hfilt : fi < seg.m_beamElementCoordRefs.length := (List.getElem?_eq_some.mp hfirst).1
  have hlalt : la < seg.m_beamElementCoordRefs.length := (List.getElem?_eq_some.mp hlast).1
  obtain ⟨seg2, h⟩ := CalcBeamSlope_isSome seg doc beamInterface
    (Or.inr ⟨by simp [refSet, hfi, hfilt], by simp [refSet, hla, hlalt]⟩)
  refine ⟨seg2, h, ?_⟩
  rcases CalcBeamSlope_cases seg seg2 doc beamInterface h with
    ⟨hlt, _⟩ | ⟨fi2, la2, first2, last2, _, hfi2, hla2, hfirst2, hlast2, hrest⟩
  · omega
  · have e_fi : fi = fi2 := by rw [hfi] at hfi2; exact Option.some.inj hfi2
    subst e_fi
    have e_la : la = la2 := by rw [hla] at hla2; exact Option.some.inj hla2
    subst e_la
    have e_first : first = first2 := by rw [hfirst] at hfirst2; exact Option.some.inj hfirst2
    subst e_first
    have e_last : last = last2 := by rw [hlast] at hlast2; exact Option.some.inj hlast2
    subst e_last
    rcases hrest with ⟨hkeep, rfl⟩ | ⟨hz, hstep, f2, l2, _, _, rfl⟩
    · rw [if_pos hkeep]
    · rw [if_neg (by
        rintro (h0 | h0)
        · exact hz h0
        · exact hstep h0)]

theorem CalcSlope_ne_zero_index (l : List BeamElementCoord) (fi la : Nat)
    (first last : BeamElementCoord) (hfirst : l[fi]? = some first) (hlast : l[la]? = some last)
    (hz : CalcSlope (first.m_x, first.m_yBeam) (last.m_x, last.m_yBeam) ≠ 0) : fi ≠ la := by
  rintro rfl
  rw [hfirst] at hlast
  have e : first = last := Option.some.inj hlast
  subst e
  exact hz (by simp [CalcSlope])

theorem step_refs_eq (i : Nat) (c : BeamElementCoord) (acc : InitAcc) :
    (BeamSegment.CalcBeamInit.step i c acc).2.m_firstNoteOrChord =
      (if (c.m_element.isChord || c.m_element.isNote) = true then
        (if acc.m_firstNoteOrChord.isNone then some i else acc.m_firstNoteOrChord)
      else acc.m_firstNoteOrChord) ∧
    (BeamSegment.CalcBeamInit.step i c acc).2.m_lastNoteOrChord =
      (if (c.m_element.isChord || c.m_element.isNote) = true then some i
      else acc.m_lastNoteOrChord) := by
  unfold BeamSegment.CalcBeamInit.step
  rcases c with ⟨x, yt, yb, ybm, d, o, sh, st, ⟨cls, dx, dy, cs, se, nw⟩⟩
  cases cls <;> simp [LayerElement.isChord, LayerElement.isNote]

/-- The two references after the second loop of `CalcBeamInit`: the first one is kept
when it was set, the last one is overwritten by every note or chord. -/
theorem loop_first_last (l : List BeamElementCoord) (i : Nat) (acc : InitAcc) :
    (BeamSegment.CalcBeamInit.loop i l acc).2.m_firstNoteOrChord =
      (if acc.m_firstNoteOrChord.isNone then firstNoteOrChordFrom i l
      else acc.m_firstNoteOrChord) ∧
    (BeamSegment.CalcBeamInit.loop i l acc).2.m_lastNoteOrChord =
      (match lastNoteOrChordFrom i l with
      | some j => some j
      | none => acc.m_lastNoteOrChord) := by
  induction l generalizing i acc with
  | nil =>
    simp only [BeamSegment.CalcBeamInit.loop, firstNoteOrChordFrom, lastNoteOrChordFrom]
    cases acc.m_firstNoteOrChord <;> simp
  | cons c cs ih =>
    obtain ⟨s1, s2⟩ := step_refs_eq i c acc
    obtain ⟨r1, r2⟩ := ih (i + 1) (BeamSegment.CalcBeamInit.step i c acc).2
    simp only [BeamSegment.CalcBeamInit.loop, firstNoteOrChordFrom, lastNoteOrChordFrom]
    rw [r1, r2, s1, s2]
    by_cases hc : (c.m_element.isChord || c.m_element.isNote) = true
    · simp only [hc, if_true]
      constructor
      · cases acc.m_firstNoteOrChord <;> simp
      · cases lastNoteOrChordFrom (i + 1) cs <;> simp
    · simp only [hc, if_false]
      constructor
      · rfl
      · cases lastNoteOrChordFrom (i + 1) cs <;> simp

theorem firstNoteOrChordFrom_map_x (l : List BeamElementCoord) (i : Nat) :
    firstNoteOrChordFrom i
        (l.map (fun coord => { coord with m_x := coord.m_element.drawingX })) =
      firstNoteOrChordFrom i l := by
  induction l generalizing i with
  | nil => rfl
  | cons c cs ih => simp only [List.map_cons, firstNoteOrChordFrom, ih]

theorem lastNoteOrChordFrom_map_x (l : List BeamElementCoord) (i : Nat) :
    lastNoteOrChordFrom i
        (l.map (fun coord => { coord with m_x := coord.m_element.drawingX })) =
      lastNoteOrChordFrom i l := by
  induction l generalizing i with
  | nil => rfl
  | cons c cs ih => simp only [List.map_cons, lastNoteOrChordFrom, ih]

theorem noteOrChordCount_eq_zero (l : List BeamElementCoord) :
    noteOrChordCount l = 0 ↔ ∀ c ∈ l, (c.m_element.isChord || c.m_element.isNote) = false := by
  unfold noteOrChordCount
  rw [Int.natCast_eq_zero, List.length_eq_zero, List.filter_eq_nil_iff]
  simp

theorem firstNoteOrChordFrom_none (l : List BeamElementCoord) (i : Nat) :
    firstNoteOrChordFrom i l = none ↔
      ∀ c ∈ l, (c.m_element.isChord || c.m_element.isNote) = false := by
  induction l generalizing i with
  | nil => simp [firstNoteOrChordFrom]
  | cons c cs ih =>
    simp only [firstNoteOrChordFrom, List.mem_cons, forall_eq_or_imp]
    by_cases hc : (c.m_element.isChord || c.m_element.isNote) = true
    · simp [hc]
    · rw [if_neg hc, ih]
      simp only [Bool.not_eq_true] at hc
      simp [hc]

theorem lastNoteOrChordFrom_none (l : List BeamElementCoord) (i : Nat) :
    lastNoteOrChordFrom i l = none ↔
      ∀ c ∈ l, (c.m_element.isChord || c.m_element.isNote) = false := by
  induction l generalizing i with
  | nil => simp [lastNoteOrChordFrom]
  | cons c cs ih =>
    simp only [lastNoteOrChordFrom, List.mem_cons, forall_eq_or_imp]
    rw [← ih (i + 1)]
    cases lastNoteOrChordFrom (i + 1) cs with
    | some j => simp
    | none =>
      by_cases hc : (c.m_element.isChord || c.m_element.isNote) = true
      · simp [hc]
      · simp only [Bool.not_eq_true] at hc
        simp [hc]

/-- The first note or chord from index `i` on is at `i + m` exactly when the member at
`m` is a note or a chord and none of the `m` members before it is. -/
theorem firstNoteOrChordFrom_some (l : List BeamElementCoord) (i k : Nat) :
    firstNoteOrChordFrom i l = some k ↔
      ∃ m c, k = i + m ∧ l[m]? = some c ∧
        (c.m_element.isChord || c.m_element.isNote) = true ∧
        ∀ d ∈ l.take m, (d.m_element.isChord || d.m_element.isNote) = false := by
  induction l generalizing i with
  | nil => simp [firstNoteOrChordFrom]
  | cons c cs ih =>
    simp only [firstNoteOrChordFrom]
    by_cases hc : (c.m_element.isChord || c.m_element.isNote) = true
    · rw [if_pos hc]
      constructor
      · intro h
        exact ⟨0, c, by simpa using (Option.some.inj h).symm, List.getElem?_cons_zero, hc, by simp⟩
      · rintro ⟨m, c2, hk, hm, _, hall⟩
        cases m with
        | zero => simp [hk]
        | succ m =>
          have := hall c (by simp)
          rw [hc] at this
          cases this
    · rw [if_neg hc, ih]
      simp only [Bool.not_eq_true] at hc
      constructor
      · rintro ⟨m, c2, hk, hm, h2, hall⟩
        refine ⟨m + 1, c2, by omega, by simpa using hm, h2, ?_⟩
        intro d hd
        simp only [List.take_succ_cons, List.mem_cons] at hd
        rcases hd with rfl | hd
        · exact hc
        · exact hall d hd
      · rintro ⟨m, c2, hk, hm, h2, hall⟩
        cases m with
        | zero =>
          simp only [List.getElem?_cons_zero, Option.some.injEq] at hm
          subst hm
          rw [hc] at h2
          cases h2
        | succ m =>
          refine ⟨m, c2, by omega, by simpa using hm, h2, ?_⟩
          intro d hd
          exact hall d (by simp [hd])

/-- The last note or chord from index `i` on is at `i + m` exactly when the member at
`m` is a note or a chord and none of the members after it is. -/
theorem lastNoteOrChordFrom_some (l : List BeamElementCoord) (i k : Nat) :
    lastNoteOrChordFrom i l = some k ↔
      ∃ m c, k = i + m ∧ l[m]? = some c ∧
        (c.m_element.isChord || c.m_element.isNote) = true ∧
        ∀ d ∈ l.drop (m + 1), (d.m_element.isChord || d.m_element.isNote) = false := by
  induction l generalizing i k with
  | nil => simp [lastNoteOrChordFrom]
  | cons c cs ih =>
    simp only [lastNoteOrChordFrom]
    cases hl : lastNoteOrChordFrom (i + 1) cs with
    | some j =>
      obtain ⟨m, c2, hj, hm, h2, hall⟩ := (ih (i + 1) j).mp hl
      simp only []
      constructor
      · intro h
        have e : j = k := Option.some.inj h
        subst e
        exact ⟨m + 1, c2, by omega, by simpa using hm, h2, by simpa using hall⟩
      · rintro ⟨m2, c3, hk, hm2, h3, hall2⟩
        cases m2 with
        | zero =>
          have := hall2 c2 (by
            simp only [zero_add, List.drop_succ_cons, List.drop_zero]
            exact List.getElem?_mem hm)
          rw [h2] at this
          cases this
        | succ m2 =>
          have h4 : lastNoteOrChordFrom (i + 1) cs = some (i + 1 + m2) :=
            (ih (i + 1) (i + 1 + m2)).mpr
              ⟨m2, c3, rfl, by simpa using hm2, h3, by simpa using hall2⟩
          rw [hl] at h4
          rw [Option.some.inj h4, hk]
          congr 1
          omega
    | none =>
      have hnone := (lastNoteOrChordFrom_none cs (i + 1)).mp hl
      simp only []
      by_cases hc : (c.m_element.isChord || c.m_element.isNote) = true
      · rw [if_pos hc]
        constructor
        · intro h
          exact ⟨0, c, by simpa using (Option.some.inj h).symm, List.getElem?_cons_zero, hc, by simpa using hnone⟩
        · rintro ⟨m, c2, hk, hm, h2, _⟩
          cases m with
          | zero => simp [hk]
          | succ m =>
            have := hnone c2 (List.getElem?_mem (by simpa using hm))
            rw [h2] at this
            cases this
      · rw [if_neg hc]
        constructor
        · intro h
          cases h
        · rintro ⟨m, c2, hk, hm, h2, _⟩
          cases m with
          | zero =>
            simp only [List.getElem?_cons_zero, Option.some.injEq] at hm
            subst hm
            exact absurd h2 hc
          | succ m =>
            have := hnone c2 (List.getElem?_mem (by simpa using hm))
            rw [h2] at this
            cases this

/-- The two references after the second loop of `CalcBeamInit` on a segment whose
references were unset. -/
theorem extremes_first_last (seg : BeamSegment) (hf : seg.m_firstNoteOrChord = none)
    (hl : seg.m_lastNoteOrChord = none) :
    (BeamSegment.CalcBeamInit.extremes seg).2.m_firstNoteOrChord =
      firstNoteOrChordFrom 0 seg.m_beamElementCoordRefs ∧
    (BeamSegment.CalcBeamInit.extremes seg).2.m_lastNoteOrChord =
      lastNoteOrChordFrom 0 seg.m_beamElementCoordRefs := by
  unfold BeamSegment.CalcBeamInit.extremes
  obtain ⟨h1, h2⟩ := loop_first_last
    (seg.m_beamElementCoordRefs.map (fun coord => { coord with m_x := coord.m_element.drawingX }))
    0
    { m_avgY := 0, m_nbNotesOrChords := 0, nbRests := 0,
      m_firstNoteOrChord := seg.m_firstNoteOrChord,
      m_lastNoteOrChord := seg.m_lastNoteOrChord }
  rw [h1, h2, firstNoteOrChordFrom_map_x, lastNoteOrChordFrom_map_x]
  refine ⟨by simp [hf], ?_⟩
  simp only [hl]
  cases lastNoteOrChordFrom 0 seg.m_beamElementCoordRefs <;> rfl

/-- The assignment of `clamp` leaves every member other than the two end points as it
is. -/
theorem clamp_other (coords : List BeamElementCoord) (fi la : Nat)
    (first last : BeamElementCoord) (place : data_BEAMPLACE) (slope : ℚ) (maxStep : Int)
    (i : Nat) (h1 : i ≠ fi) (h2 : i ≠ la) :
    (BeamSegment.CalcBeamSlope.clamp coords fi la first last place slope maxStep)[i]? =
      coords[i]? := by
  unfold BeamSegment.CalcBeamSlope.clamp
  split_ifs
  · exact List.getElem?_set_ne (Ne.symm h1)
  · exact List.getElem?_set_ne (Ne.symm h2)
  · exact List.getElem?_set_ne (Ne.symm h2)
  · exact List.getElem?_set_ne (Ne.symm h1)
  · rfl

/-- What `CalcBeamSlope` returns when the step is too large: the members after the
assignment of `clamp`, and the slope between the two end points read again. -/
theorem CalcBeamSlope_clamped (seg : BeamSegment) (doc : Doc)
    (beamInterface : BeamDrawingInterface) (fi la : Nat) (first last : BeamElementCoord)
    (hnb : 2 ≤ seg.m_nbNotesOrChords)
    (hfi : seg.m_firstNoteOrChord = some fi) (hla : seg.m_lastNoteOrChord = some la)
    (hfirst : seg.m_beamElementCoordRefs[fi]? = some first)
    (hlast : seg.m_beamElementCoordRefs[la]? = some last)
    (hz : CalcSlope (first.m_x, first.m_yBeam) (last.m_x, last.m_yBeam) ≠ 0)
    (hstep : BeamSegment.CalcBeamSlope.maxStep doc.drawingUnit seg.m_nbNotesOrChords
      (last.m_x - first.m_x) ≤ |first.m_yBeam - last.m_yBeam|) :
    ∃ seg2 first2 last2, seg.CalcBeamSlope doc beamInterface = some seg2 ∧
      seg2.m_beamElementCoordRefs =
        BeamSegment.CalcBeamSlope.clamp seg.m_beamElementCoordRefs fi la first last
          beamInterface.m_drawingPlace
          (CalcSlope (first.m_x, first.m_yBeam) (last.m_x, last.m_yBeam))
          (BeamSegment.CalcBeamSlope.maxStep doc.drawingUnit seg.m_nbNotesOrChords
            (last.m_x - first.m_x)) ∧
      seg2.m_beamElementCoordRefs[fi]? = some first2 ∧
      seg2.m_beamElementCoordRefs[la]? = some last2 ∧
      seg2.m_beamSlope = CalcSlope (first2.m_x, first2.m_yBeam) (last2.m_x, last2.m_yBeam) := by
  have hfilt : fi < seg.m_beamElementCoordRefs.length := (List.getElem?_eq_some.mp hfirst).1
  have hlalt : la < seg.m_beamElementCoordRefs.length := (List.getElem?_eq_some.mp hlast).1
  obtain ⟨seg2, h⟩ := CalcBeamSlope_isSome seg doc beamInterface
    (Or.inr ⟨by simp [refSet, hfi, hfilt], by simp [refSet, hla, hlalt]⟩)
  rcases CalcBeamSlope_cases seg seg2 doc beamInterface h with
    ⟨hlt, _⟩ | ⟨fi2, la2, first2, last2, _, hfi2, hla2, hfirst2, hlast2, hrest⟩
  · omega
  · have e_fi : fi = fi2 := by rw [hfi] at hfi2; exact Option.some.inj hfi2
    subst e_fi
    have e_la : la = la2 := by rw [hla] at hla2; exact Option.some.inj hla2
    subst e_la
    have e_first : first = first2 := by rw [hfirst] at hfirst2; exact Option.some.inj hfirst2
    subst e_first
    have e_last : last = last2 := by rw [hlast] at hlast2; exact Option.some.inj hlast2
    subst e_last
    rcases hrest with ⟨hkeep, _⟩ | ⟨_, _, f2, l2, hf2, hl2, rfl⟩
    · rcases hkeep with h0 | h0
      · exact absurd h0 hz
      · omega
    · exact ⟨_, f2, l2, h, rfl, hf2, hl2, rfl⟩

/-- The slope between two points at different `x` and `y`. -/
theorem CalcSlope_of_ne (x1 y1 x2 y2 : Int) (hx : x1 ≠ x2) (hy : y1 ≠ y2) :
    CalcSlope (x1, y1) (x2, y2) = ((y2 - y1 : Int) : ℚ) / ((x2 - x1 : Int) : ℚ) := by
  unfold CalcSlope
  simp only []
  rw [if_neg (by
    rintro (h | h)
    · exact hy h
    · exact hx h)]

/-- The sign of the slope between two points with the first one on the left. -/
theorem CalcSlope_pos_iff (x1 y1 x2 y2 : Int) (hx : x1 < x2) :
    (0 < CalcSlope (x1, y1) (x2, y2) ↔ y1 < y2) ∧
    (CalcSlope (x1, y1) (x2, y2) < 0 ↔ y2 < y1) := by
  have hdx : (0 : ℚ) < ((x2 - x1 : Int) : ℚ) := by
    have : (0 : Int) < x2 - x1 := by omega
    exact_mod_cast this
  by_cases hy : y1 = y2
  · subst hy
    simp [CalcSlope]
  · rw [CalcSlope_of_ne x1 y1 x2 y2 (by omega) hy]
    constructor
    · rw [div_pos_iff_of_pos_right hdx]
      constructor
      · intro h
        have : (0 : Int) < y2 - y1 := by exact_mod_cast h
        omega
      · intro h
        have : (0 : Int) < y2 - y1 := by omega
        exact_mod_cast this
    · rw [div_neg_iff]
      constructor
      · rintro (⟨_, h⟩ | ⟨h, _⟩)
        · exact absurd hdx (not_lt.mpr h.le)
        · have : y2 - y1 < (0 : Int) := by exact_mod_cast h
          omega
      · intro h
        right
        refine ⟨?_, hdx⟩
        have : y2 - y1 < (0 : Int) := by omega
        exact_mod_cast this

/-- The slope between two points, the first one on the left, whose `y` differ by a
positive `M` or by `-M`. -/
theorem CalcSlope_of_diff (x1 y1 x2 y2 M : Int) (hx : x1 < x2) (hM : 0 < M) :
    (y2 - y1 = M →
      CalcSlope (x1, y1) (x2, y2) = (M : ℚ) / ((x2 - x1 : Int) : ℚ) ∧
      0 < CalcSlope (x1, y1) (x2, y2)) ∧
    (y2 - y1 = -M →
      CalcSlope (x1, y1) (x2, y2) = -((M : ℚ) / ((x2 - x1 : Int) : ℚ)) ∧
      CalcSlope (x1, y1) (x2, y2) < 0) := by
  refine ⟨fun h => ⟨?_, ?_⟩, fun h => ⟨?_, ?_⟩⟩
  · rw [CalcSlope_of_ne x1 y1 x2 y2 (by omega) (by omega), h]
  · exact (CalcSlope_pos_iff x1 y1 x2 y2 hx).1.mpr (by omega)
  · rw [CalcSlope_of_ne x1 y1 x2 y2 (by omega) (by omega), h]
    push_cast
    ring
  · exact (CalcSlope_pos_iff x1 y1 x2 y2 hx).2.mpr (by omega)

/-- The stem values the last loop of `CalcBeam` leaves in a note or chord that has a
stem, written with the fields of the member at the end of the pass. -/
theorem finish_stem_values (seg3 : BeamSegment) (coord0 : BeamElementCoord) (doc : Doc)
    (beamInterface : BeamDrawingInterface) (c : BeamElementCoord)
    (hc : c ∈ (BeamSegment.CalcBeam.finish seg3 coord0 doc beamInterface).m_beamElementCoordRefs)
    (hn : (c.m_element.isNote || c.m_element.isChord) = true) (stem : Stem)
    (hs : c.m_stem = some stem) :
    stem.drawingXRel = c.m_x - c.m_element.drawingX ∧
    stem.drawingYRel =
      (if beamInterface.m_drawingPlace = BEAMPLACE_above then
        c.m_yBottom + c.m_element.stemUpSE_y.get beamInterface.m_cueSize
      else c.m_yTop + c.m_element.stemDownNW_y.get beamInterface.m_cueSize) -
        c.m_element.drawingY ∧
    stem.drawingStemLen =
      (if beamInterface.m_drawingPlace = BEAMPLACE_above then
        c.m_yBottom + c.m_element.stemUpSE_y.get beamInterface.m_cueSize
      else c.m_yTop + c.m_element.stemDownNW_y.get beamInterface.m_cueSize) -
      (if beamInterface.m_drawingPlace = BEAMPLACE_above then c.m_yBeam - doc.drawingStemWidth
      else c.m_yBeam + doc.drawingStemWidth) := by
  simp only [BeamSegment.CalcBeam.finish, List.mem_map] at hc
  obtain ⟨c2, ⟨c3, _, rfl⟩, rfl⟩ := hc
  rcases setStemLen_shape doc beamInterface
    (BeamSegment.CalcBeam.setYBeam coord0.m_x coord0.m_yBeam seg3.m_beamSlope c3) with
    ⟨he, hno⟩ | ⟨stem2, _, _, he⟩
  · rw [he] at hn hs
    rcases hno with hno | hno
    · rw [hno] at hn
      cases hn
    · rw [hno] at hs
      cases hs
  · rw [he] at hs ⊢
    simp only [Option.some.injEq] at hs
    subst hs
    exact ⟨rfl, rfl, rfl⟩

/-- Two lists with equal images have members with equal images at every index. -/
theorem getElem?_of_map_eq {α β γ : Type} (l1 : List α) (l2 : List β) (f : α → γ)
    (g : β → γ) (h : l1.map f = l2.map g) (i : Nat) (b : β) (hb : l2[i]? = some b) :
    ∃ a, l1[i]? = some a ∧ f a = g b := by
  have hi := congrArg (fun l => l[i]?) h
  simp only [List.getElem?_map, hb, Option.map_some'] at hi
  cases ha : l1[i]? with
  | none => rw [ha] at hi; cases hi
  | some a =>
    rw [ha] at hi
    exact ⟨a, rfl, Option.some.inj hi⟩

theorem find_last_of_go_none (chars : List Char) (s : List Char) (i : Nat) :
    find_last_of.go chars i s = none ↔ ∀ d ∈ s, d ∉ chars := by
  induction s generalizing i with
  | nil => simp [find_last_of.go]
  | cons c cs ih =>
    simp only [find_last_of.go, List.mem_cons, forall_eq_or_imp]
    rw [← ih (i + 1)]
    cases find_last_of.go chars (i + 1) cs with
    | some j => simp
    | none =>
      by_cases hc : c ∈ chars
      · simp [hc]
      · simp [hc]

/-- The search finds the last occurrence: for a string `pre ++ c :: suf` with `c` in
`chars` and no character of `suf` in `chars` the result is the index of `c`. -/
theorem find_last_of_go_append (chars : List Char) (pre suf : List Char) (c : Char) (i : Nat)
    (hc : c ∈ chars) (hsuf : ∀ d ∈ suf, d ∉ chars) :
    find_last_of.go chars i (pre ++ c :: suf) = some (i + pre.length) := by
  induction pre generalizing i with
  | nil =>
    simp only [List.nil_append, find_last_of.go, List.length_nil, Nat.add_zero]
    rw [(find_last_of_go_none chars suf (i + 1)).mpr hsuf]
    simp [hc]
  | cons p ps ih =>
    show find_last_of.go chars i (p :: (ps ++ c :: suf)) = _
    rw [find_last_of.go, ih (i + 1)]
    simp only [List.length_cons, Option.some.injEq]
    omega

/-- A string with a character of `chars` splits at the last one. -/
theorem exists_last_split (chars : List Char) (s : List Char) (h : ¬ ∀ d ∈ s, d ∉ chars) :
    ∃ pre c suf, s = pre ++ c :: suf ∧ c ∈ chars ∧ ∀ d ∈ suf, d ∉ chars := by
  induction s with
  | nil => simp at h
  | cons a as ih =>
    by_cases has : ∀ d ∈ as, d ∉ chars
    · have ha : a ∈ chars := by
        by_contra hna
        apply h
        intro d hd
        rcases List.mem_cons.mp hd with rfl | hd
        · exact hna
        · exact has d hd
      exact ⟨[], a, as, rfl, ha, has⟩
    · obtain ⟨pre, c, suf, hs, hc, hsuf⟩ := ih has
      exact ⟨a :: pre, c, suf, by rw [hs]; rfl, hc, hsuf⟩

theorem ExtractUuidFragment_no_hash (s : List Char) (h : '#' ∉ s) :
    TimeSpanningInterface.ExtractUuidFragment s = some s := by
  have hn : find_last_of.go ['#'] 0 s = none := by
    rw [find_last_of_go_none]
    intro d hd hmem
    rw [List.mem_singleton] at hmem
    subst hmem
    exact h hd
  unfold TimeSpanningInterface.ExtractUuidFragment find_last_of
  simp only [hn]
  rw [if_neg (by
    rintro ⟨h1, _⟩
    exact h1 rfl)]

theorem ExtractUuidFragment_split (pre suf : List Char) (hsuf : '#' ∉ suf)
    (hlen : (pre ++ '#' :: suf).length < 2 ^ 64) :
    TimeSpanningInterface.ExtractUuidFragment (pre ++ '#' :: suf) =
      if suf = [] then some (pre ++ '#' :: suf) else some suf := by
  have hgo : find_last_of.go ['#'] 0 (pre ++ '#' :: suf) = some (0 + pre.length) :=
    find_last_of_go_append ['#'] pre suf '#' 0 (by simp) (by
      intro d hd hmem
      rw [List.mem_singleton] at hmem
      subst hmem
      exact hsuf hd)
  have hl : (pre ++ '#' :: suf).length = pre.length + suf.length + 1 := by
    simp only [List.length_append, List.length_cons]
    omega
  rw [hl] at hlen
  unfold TimeSpanningInterface.ExtractUuidFragment find_last_of
  simp only [hgo, hl, npos, Nat.zero_add]
  norm_num at hlen ⊢
  by_cases hs : suf = []
  · subst hs
    simp only [List.length_nil, Nat.add_zero, if_true]
    rw [if_neg (by omega)]
  · have hpos : 0 < suf.length := List.length_pos.mpr hs
    rw [if_neg hs, if_pos (by omega)]
    have e : (pre.length + 1) % 18446744073709551616 = pre.length + 1 :=
      Nat.mod_eq_of_lt (by omega)
    rw [e]
    unfold substr
    rw [if_neg (by simp)]
    simp

/-- A pass of `CalcBeam` over a non-empty list in a ready state returns, and at its
end the stem of every note or chord that has one holds, with `y1 = m_yBeam - stemWidth`
and `y2 = m_yBottom + stemUpSE.y` under above placement and `y1 = m_yBeam + stemWidth`
and `y2 = m_yTop + stemDownNW.y` otherwise: length `y2 - y1`, `y` offset `y2` minus the
drawing `y` of the element, `x` offset `m_x` minus the drawing `x` of the element. A
member that is neither note nor chord keeps the three values of its stem, and a member
without a stem stays without one. -/
theorem CalcBeam_stem_values_members (S : Int) (seg : BeamSegment) (layer : Layer)
    (staff : Staff) (doc : Doc) (beamInterface : BeamDrawingInterface) (place : data_BEAMPLACE)
    (init : Bool) (hne : seg.m_beamElementCoordRefs ≠ []) (hready : seg.passReady init = true) :
    ∃ r, seg.CalcBeam S layer staff doc beamInterface place init = some r ∧
      (∀ c ∈ r.1.m_beamElementCoordRefs, (c.m_element.isNote || c.m_element.isChord) = true →
        ∀ stem, c.m_stem = some stem →
          (r.2.m_drawingPlace = BEAMPLACE_above →
            stem.drawingStemLen =
              (c.m_yBottom + c.m_element.stemUpSE_y.get r.2.m_cueSize) -
                (c.m_yBeam - doc.drawingStemWidth) ∧
            stem.drawingYRel =
              (c.m_yBottom + c.m_element.stemUpSE_y.get r.2.m_cueSize) -
                c.m_element.drawingY) ∧
          (r.2.m_drawingPlace ≠ BEAMPLACE_above →
            stem.drawingStemLen =
              (c.m_yTop + c.m_element.stemDownNW_y.get r.2.m_cueSize) -
                (c.m_yBeam + doc.drawingStemWidth) ∧
            stem.drawingYRel =
              (c.m_yTop + c.m_element.stemDownNW_y.get r.2.m_cueSize) -
                c.m_element.drawingY) ∧
          stem.drawingXRel = c.m_x - c.m_element.drawingX) ∧
      (∀ (i : Nat) (c0 c : BeamElementCoord), seg.m_beamElementCoordRefs[i]? = some c0 →
        r.1.m_beamElementCoordRefs[i]? = some c →
        (c0.m_stem = none → c.m_stem = none) ∧
        ((c0.m_element.isNote || c0.m_element.isChord) = false →
          c.storedStemValues = c0.storedStemValues)) := by
  obtain ⟨r, hr⟩ := CalcBeam_returns S seg layer staff doc beamInterface place init hne hready
  refine ⟨r, hr, ?_, ?_⟩
  · obtain ⟨seg1, iface1, seg3, coord0, _, _, _, _, rfl⟩ :=
      CalcBeam_cases S seg layer staff doc beamInterface place init r hr
    intro c hc hn stem hs
    simp only [BeamSegment.CalcBeam.finish, List.mem_map] at hc
    obtain ⟨c2, ⟨c3, _, rfl⟩, rfl⟩ := hc
    rcases setStemLen_shape doc (seg1.CalcBeamPlace layer iface1 place)
      (BeamSegment.CalcBeam.setYBeam coord0.m_x coord0.m_yBeam seg3.m_beamSlope c3) with
      ⟨he, hno⟩ | ⟨stem2, _, _, he⟩
    · rw [he] at hn hs
      rcases hno with hno | hno
      · rw [hno] at hn
        cases hn
      · rw [hno] at hs
        cases hs
    · rw [he] at hs ⊢
      simp only [Option.some.injEq] at hs
      subst hs
      refine ⟨fun hp => ?_, fun hp => ?_, rfl⟩
      · simp only [if_pos hp]
        exact ⟨trivial, trivial⟩
      · simp only [if_neg hp]
        exact ⟨trivial, trivial⟩
  · have hg_l : ∀ (doc : Doc) (beamInterface : BeamDrawingInterface) (c : BeamElementCoord),
        BeamElementCoord.keptValues (BeamSegment.CalcBeam.setStemLen doc beamInterface c) =
          BeamElementCoord.keptValues c := by
      intro doc2 iface2 c
      rcases setStemLen_shape doc2 iface2 c with ⟨he, _⟩ | ⟨stem, hn, hs, he⟩
      · rw [he]
      · rw [he]
        simp only [BeamElementCoord.keptValues, hn, hs, if_true, Option.isSome_some]
    have hg_s : ∀ (c : BeamElementCoord) (S : Int) (d : data_STEMDIRECTION) (doc : Doc)
        (beamInterface : BeamDrawingInterface),
        BeamElementCoord.keptValues (c.SetDrawingStemDir S d doc beamInterface) =
          BeamElementCoord.keptValues c := by
      apply SetDrawingStemDir_map BeamElementCoord.keptValues
      intro c stem d o sh y x el hs hel
      have hel2 : el.isNote = c.m_element.isNote ∧ el.isChord = c.m_element.isChord := by
        rcases hel with rfl | ⟨col, rfl⟩
        · exact ⟨rfl, rfl⟩
        · exact ⟨(setNoteColor_frame c.m_element col).2.2.1,
            (setNoteColor_frame c.m_element col).2.2.2.1⟩
      simp only [BeamElementCoord.keptValues, hel2.1, hel2.2, hs, Option.isSome_some,
        BeamElementCoord.storedStemValues, Option.map_some']
    have hmap := CalcBeam_full_map
      BeamElementCoord.keptValues (fun _ _ _ _ _ => rfl) hg_l hg_s
      S seg layer staff doc beamInterface place init r hr
    intro i c0 c h0 hc
    have hi := congrArg (fun l => l[i]?) hmap
    simp only [List.getElem?_map, h0, hc, Option.map_some', Option.some.injEq,
      BeamElementCoord.keptValues, Prod.mk.injEq] at hi
    obtain ⟨h1, h2, h3⟩ := hi
    constructor
    · intro hnone
      rw [hnone] at h1
      cases hcs : c.m_stem with
      | none => rfl
      | some s => rw [hcs] at h1; simp at h1
    · intro hn0
      rw [hn0] at h2 h3
      rw [h2] at h3
      simpa using h3

/-- A pass of `CalcBeam` over a non-empty list in a ready state returns, and if the
placement it resolved is not above, in particular if it is mixed, the stem of every note
or chord that has one holds the values of the down-stem formula, `y1 = m_yBeam +
stemWidth` and `y2 = m_yTop + stemDownNW.y`, whatever the drawing direction of the stem
is; the values of the up-stem formula are stored under above placement. -/
theorem CalcBeam_down_formula_members (S : Int) (seg : BeamSegment) (layer : Layer)
    (staff : Staff) (doc : Doc) (beamInterface : BeamDrawingInterface) (place : data_BEAMPLACE)
    (init : Bool) (hne : seg.m_beamElementCoordRefs ≠ []) (hready : seg.passReady init = true) :
    ∃ r, seg.CalcBeam S layer staff doc beamInterface place init = some r ∧
      (place = BEAMPLACE_mixed → r.2.m_drawingPlace = BEAMPLACE_mixed) ∧
      (r.2.m_drawingPlace ≠ BEAMPLACE_above →
        ∀ c ∈ r.1.m_beamElementCoordRefs, (c.m_element.isNote || c.m_element.isChord) = true →
          ∀ stem, c.m_stem = some stem →
            stem.drawingStemLen =
              (c.m_yTop + c.m_element.stemDownNW_y.get r.2.m_cueSize) -
                (c.m_yBeam + doc.drawingStemWidth) ∧
            stem.drawingYRel =
              (c.m_yTop + c.m_element.stemDownNW_y.get r.2.m_cueSize) - c.m_element.drawingY) ∧
      (r.2.m_drawingPlace = BEAMPLACE_above →
        ∀ c ∈ r.1.m_beamElementCoordRefs, (c.m_element.isNote || c.m_element.isChord) = true →
          ∀ stem, c.m_stem = some stem →
            stem.drawingStemLen =
              (c.m_yBottom + c.m_element.stemUpSE_y.get r.2.m_cueSize) -
                (c.m_yBeam - doc.drawingStemWidth) ∧
            stem.drawingYRel =
              (c.m_yBottom + c.m_element.stemUpSE_y.get r.2.m_cueSize) -
                c.m_element.drawingY) := by
  obtain ⟨r, hr⟩ := CalcBeam_returns S seg layer staff doc beamInterface place init hne hready
  refine ⟨r, hr, ?_⟩
  obtain ⟨seg1, iface1, seg3, coord0, _, _, _, _, rfl⟩ :=
    CalcBeam_cases S seg layer staff doc beamInterface place init r hr
  refine ⟨fun hp => ?_, fun hp c hc hn stem hs => ?_, fun hp c hc hn stem hs => ?_⟩
  · subst hp
    simp [BeamSegment.CalcBeamPlace]
  · obtain ⟨_, h2, h3⟩ := finish_stem_values seg3 coord0 doc _ c hc hn stem hs
    simp only [] at hp
    rw [if_neg hp] at h2 h3
    rw [if_neg hp] at h3
    exact ⟨h3, h2⟩
  · obtain ⟨_, h2, h3⟩ := finish_stem_values seg3 coord0 doc _ c hc hn stem hs
    simp only [] at hp
    rw [if_pos hp] at h2 h3
    rw [if_pos hp] at h3
    exact ⟨h3, h2⟩

theorem toDouble_zero : toDouble 0 = 0 := by
  simp [toDouble]

theorem log2Aux_le (fuel n j : Nat) (h : n < 2 ^ (j + 1)) : log2Aux fuel n ≤ j := by
  induction fuel generalizing n j with
  | zero => simp [log2Aux]
  | succ f ih =>
    simp only [log2Aux]
    split_ifs with h2
    · omega
    · cases j with
      | zero => omega
      | succ j =>
        have : n / 2 < 2 ^ (j + 1) := by
          rw [Nat.div_lt_iff_lt_mul (by norm_num)]
          calc n < 2 ^ (j + 1 + 1) := h
            _ = 2 ^ (j + 1) * 2 := by ring
        have := ih (n / 2) j this
        omega

theorem roundHalfEven_one (n : Nat) : roundHalfEven n 1 = n := by
  simp [roundHalfEven, Nat.mod_one]

theorem toDouble_scaled (a : Nat) (e : Int) (he : e ≤ 52) :
    mkRat (roundHalfEven (a * 2 ^ (-(e - 52)).toNat) (2 ^ (e - 52).toNat) *
      2 ^ (e - 52).toNat : Nat) (2 ^ (-(e - 52)).toNat) = (a : ℚ) := by
  have h1 : (e - 52).toNat = 0 := Int.toNat_eq_zero.mpr (by omega)
  rw [h1]
  simp only [pow_zero, roundHalfEven_one, mul_one]
  rw [Rat.mkRat_eq_div]
  push_cast
  field_simp

/-- An integer below `2 ^ 53` in absolute value is a `double`. -/
theorem toDouble_intCast (n : Int) (h : |n| < 2 ^ 53) : toDouble (n : ℚ) = n := by
  by_cases h0 : n = 0
  · subst h0
    simp [toDouble]
  have hq : (n : ℚ) ≠ 0 := by exact_mod_cast h0
  have ha : n.natAbs < 2 ^ 53 := by
    have : (n.natAbs : Int) < 2 ^ 53 := by rw [Int.natCast_natAbs]; exact h
    exact_mod_cast this
  have hl : log2Aux n.natAbs n.natAbs ≤ 52 := log2Aux_le _ _ 52 ha
  have hd : log2Aux 1 1 = 0 := by simp [log2Aux]
  have hnegc : (n : ℚ) < 0 → -((n.natAbs : Nat) : ℚ) = (n : ℚ) := by
    intro hneg
    have h2 : n < 0 := by exact_mod_cast hneg
    have h3 : ((n.natAbs : Nat) : Int) = -n := by omega
    have h4 : ((n.natAbs : Nat) : ℚ) = ((-n : Int) : ℚ) := by rw [← h3]; rfl
    rw [h4]
    push_cast
    ring
  have hposc : ¬ (n : ℚ) < 0 → ((n.natAbs : Nat) : ℚ) = (n : ℚ) := by
    intro hneg
    have h2 : 0 ≤ n := by
      have := not_lt.mp hneg
      exact_mod_cast this
    have h3 : ((n.natAbs : Nat) : Int) = n := by omega
    have h4 : ((n.natAbs : Nat) : ℚ) = ((n : Int) : ℚ) := by rw [← h3]; rfl
    exact h4
  unfold toDouble
  rw [if_neg hq]
  simp only [Rat.num_intCast, Rat.den_intCast, hd, Nat.cast_zero, sub_zero, one_mul]
  generalize log2Aux n.natAbs n.natAbs = L at hl
  split_ifs with h1 h2 h3
  · rw [toDouble_scaled _ _ (by omega)]
    exact hnegc h1
  · rw [toDouble_scaled _ _ (by omega)]
    exact hnegc h1
  · rw [toDouble_scaled _ _ (by omega)]
    exact hposc h1
  · rw [toDouble_scaled _ _ (by omega)]
    exact hposc h1

/-- A pass of `CalcBeam` keeps the number of members, and the member at every index
keeps what identifies it; in particular it has a stem exactly when it had one. -/
theorem CalcBeam_origin_at (S : Int) (seg : BeamSegment) (layer : Layer) (staff : Staff)
    (doc : Doc) (beamInterface : BeamDrawingInterface) (place : data_BEAMPLACE) (init : Bool)
    (r : BeamSegment × BeamDrawingInterface)
    (h : seg.CalcBeam S layer staff doc beamInterface place init = some r) :
    r.1.m_beamElementCoordRefs.length = seg.m_beamElementCoordRefs.length ∧
    ∀ (i : Nat) (c0 : BeamElementCoord), seg.m_beamElementCoordRefs[i]? = some c0 →
      ∃ c, r.1.m_beamElementCoordRefs[i]? = some c ∧ c ∈ r.1.m_beamElementCoordRefs ∧
        c.origin = c0.origin ∧ c.m_stem.isSome = c0.m_stem.isSome := by
  have hl : ∀ (doc : Doc) (beamInterface : BeamDrawingInterface) (c : BeamElementCoord),
      BeamElementCoord.origin (BeamSegment.CalcBeam.setStemLen doc beamInterface c) =
        BeamElementCoord.origin c := by
    intro doc2 iface2 c
    rcases setStemLen_shape doc2 iface2 c with ⟨he, _⟩ | ⟨stem, _, hs, he⟩
    · rw [he]
    · rw [he]
      simp only [BeamElementCoord.origin, hs, Option.map_some']
  have hs : ∀ (c : BeamElementCoord) (S : Int) (d : data_STEMDIRECTION) (doc : Doc)
      (beamInterface : BeamDrawingInterface),
      BeamElementCoord.origin (c.SetDrawingStemDir S d doc beamInterface) =
        BeamElementCoord.origin c := by
    apply SetDrawingStemDir_map BeamElementCoord.origin
    intro c stem d o sh y x el hs hel
    have hel2 : el.drawingX = c.m_element.drawingX ∧ el.drawingY = c.m_element.drawingY ∧
        el.isNote = c.m_element.isNote ∧ el.isChord = c.m_element.isChord := by
      rcases hel with rfl | ⟨col, rfl⟩
      · exact ⟨rfl, rfl, rfl, rfl⟩
      · exact ⟨(setNoteColor_frame c.m_element col).1, (setNoteColor_frame c.m_element col).2.1,
          (setNoteColor_frame c.m_element col).2.2.1,
          (setNoteColor_frame c.m_element col).2.2.2.1⟩
    simp only [BeamElementCoord.origin, hel2.1, hel2.2.1, hel2.2.2.1, hel2.2.2.2, hs,
      Option.map_some']
  have hmap := CalcBeam_full_map BeamElementCoord.origin (fun _ _ _ _ _ => rfl) hl hs
    S seg layer staff doc beamInterface place init r h
  constructor
  · have := congrArg List.length hmap
    simpa using this
  · intro i c0 h0
    obtain ⟨c, hc, ho⟩ := getElem?_of_map_eq _ _ _ _ hmap i c0 h0
    refine ⟨c, hc, List.getElem?_mem hc, ho, ?_⟩
    have h6 : c.m_stem.map Stem.stemDir = c0.m_stem.map Stem.stemDir := by
      simp only [BeamElementCoord.origin, Prod.mk.injEq] at ho
      exact ho.2.2.2.2.2
    have := congrArg Option.isSome h6
    simpa using this

/-- A pass of `CalcBeam` over a non-empty list in a ready state returns; the anchor
`m_startingX` is the first member's `m_x`, the first member's `m_yBeam` is `m_startingY`
when that is below `2 ^ 53` in absolute value, and every member's `m_yBeam` is the value
of `m_startingY + m_beamSlope * (m_x - m_startingX)` in `double` arithmetic, truncated
toward zero to an integer. -/
theorem CalcBeam_yBeam_members (S : Int) (seg : BeamSegment) (layer : Layer)
    (staff : Staff) (doc : Doc) (beamInterface : BeamDrawingInterface) (place : data_BEAMPLACE)
    (init : Bool) (hne : seg.m_beamElementCoordRefs ≠ []) (hready : seg.passReady init = true) :
    ∃ r, seg.CalcBeam S layer staff doc beamInterface place init = some r ∧
      (∃ c0, r.1.m_beamElementCoordRefs[0]? = some c0 ∧ c0.m_x = r.1.m_startingX ∧
        (|r.1.m_startingY| < 2 ^ 53 → c0.m_yBeam = r.1.m_startingY)) ∧
      ∀ c ∈ r.1.m_beamElementCoordRefs,
        c.m_yBeam = truncToInt (toDouble ((r.1.m_startingY : ℚ) +
          toDouble (toDouble r.1.m_beamSlope * ((c.m_x - r.1.m_startingX : Int) : ℚ)))) := by
  obtain ⟨r, hr⟩ := CalcBeam_returns S seg layer staff doc beamInterface place init hne hready
  refine ⟨r, hr, ?_⟩
  obtain ⟨seg1, iface1, seg3, coord0, _, _, _, h0, rfl⟩ :=
    CalcBeam_cases S seg layer staff doc beamInterface place init r hr
  have hmem : ∀ c ∈ (BeamSegment.CalcBeam.finish seg3 coord0 doc
      (seg1.CalcBeamPlace layer iface1 place)).m_beamElementCoordRefs,
      c.m_yBeam = truncToInt (toDouble ((coord0.m_yBeam : ℚ) +
        toDouble (toDouble seg3.m_beamSlope * ((c.m_x - coord0.m_x : Int) : ℚ)))) := by
    intro c hc
    simp only [BeamSegment.CalcBeam.finish, List.mem_map] at hc
    obtain ⟨c2, ⟨c3, _, rfl⟩, rfl⟩ := hc
    rw [(setStemLen_x_yBeam _ _ _).1, (setStemLen_x_yBeam _ _ _).2]
    rfl
  refine ⟨?_, hmem⟩
  have hfirst : (BeamSegment.CalcBeam.finish seg3 coord0 doc
      (seg1.CalcBeamPlace layer iface1 place)).m_beamElementCoordRefs[0]? =
      some (BeamSegment.CalcBeam.setStemLen doc (seg1.CalcBeamPlace layer iface1 place)
        (BeamSegment.CalcBeam.setYBeam coord0.m_x coord0.m_yBeam seg3.m_beamSlope coord0)) := by
    simp [BeamSegment.CalcBeam.finish, List.getElem?_map, h0]
  refine ⟨_, hfirst, ?_, fun hsmall => ?_⟩
  · rw [(setStemLen_x_yBeam _ _ _).1]
    rfl
  · rw [(setStemLen_x_yBeam _ _ _).2]
    have hsmall2 : |coord0.m_yBeam| < 2 ^ 53 := hsmall
    simp only [BeamSegment.CalcBeam.setYBeam, BeamSegment.CalcBeam.finish, sub_self,
      Int.cast_zero, mul_zero, toDouble_zero, add_zero]
    rw [toDouble_intCast _ hsmall2, truncToInt_intCast]

/-- C1 (counterexample): three eighth notes at x = 0, 100, 200 and y = 0, 0, 1000 with
up-stems, staff unit 10 and mixed placement requested. The pass returns with mixed
placement, three notes, the members at x = 11, 111, 211 and slope 5, while the maximum
step is 40 and 40 / 200 is smaller than 5. -/
theorem C1_counterexample_mixed_not_clamped :
    (C1_segment.CalcBeam 7 demoLayer demoStaff demoDoc demoInterface BEAMPLACE_mixed true).map
        (fun r => (r.2.m_drawingPlace, r.1.m_nbNotesOrChords)) = some (BEAMPLACE_mixed, 3) ∧
    (C1_segment.CalcBeam 7 demoLayer demoStaff demoDoc demoInterface BEAMPLACE_mixed true).map
        (fun r => (r.1.m_firstNoteOrChord, r.1.m_lastNoteOrChord)) = some (some 0, some 2) ∧
    (C1_segment.CalcBeam 7 demoLayer demoStaff demoDoc demoInterface BEAMPLACE_mixed true).map
        (fun r => r.1.m_beamElementCoordRefs.map (fun c => c.m_x)) = some [11, 111, 211] ∧
    (C1_segment.CalcBeam 7 demoLayer demoStaff demoDoc demoInterface BEAMPLACE_mixed true).map
        (fun r => r.1.m_beamSlope) = some 5 ∧
    BeamSegment.CalcBeamSlope.maxStep demoDoc.drawingUnit 3 (211 - 11) = 40 ∧
    ¬ (|(5 : ℚ)| ≤ ((40 : Int) : ℚ) / ((211 - 11 : Int) : ℚ)) := by
  refine ⟨by decide!, by decide!, by decide!, by decide!, by decide!, ?_⟩
  norm_num

/-- C1 (amended): under above or below placement, with the first reference left of the
last one and a non-negative staff unit, `CalcBeamSlope` returns and the absolute value
of the final slope is at most `maxStep / (last.x - first.x)`. -/
theorem C1_slope_bounded_above_below (seg : BeamSegment) (doc : Doc)
    (beamInterface : BeamDrawingInterface) (fi la : Nat) (first last : BeamElementCoord)
    (hfi : seg.m_firstNoteOrChord = some fi) (hla : seg.m_lastNoteOrChord = some la)
    (hfirst : seg.m_beamElementCoordRefs[fi]? = some first)
    (hlast : seg.m_beamElementCoordRefs[la]? = some last)
    (hplace : beamInterface.m_drawingPlace = BEAMPLACE_above ∨
      beamInterface.m_drawingPlace = BEAMPLACE_below)
    (hx : first.m_x < last.m_x) (hunit : 0 ≤ doc.drawingUnit) :
    ∃ seg2, seg.CalcBeamSlope doc beamInterface = some seg2 ∧
      |seg2.m_beamSlope| ≤
        ((BeamSegment.CalcBeamSlope.maxStep doc.drawingUnit seg.m_nbNotesOrChords
            (last.m_x - first.m_x) : Int) : ℚ) / ((last.m_x - first.m_x : Int) : ℚ) := by
  have hfilt : fi < seg.m_beamElementCoordRefs.length := (List.getElem?_eq_some.mp hfirst).1
  have hlalt : la < seg.m_beamElementCoordRefs.length := (List.getElem?_eq_some.mp hlast).1
  have hne : fi ≠ la := by
    rintro rfl
    rw [hfirst] at hlast
    rw [Option.some.inj hlast] at hx
    exact lt_irrefl _ hx
  have hM := maxStep_nonneg doc.drawingUnit seg.m_nbNotesOrChords (last.m_x - first.m_x) hunit
  have hdx : (0 : ℚ) < ((last.m_x - first.m_x : Int) : ℚ) := by
    have : (0 : Int) < last.m_x - first.m_x := by omega
    exact_mod_cast this
  have hbound0 : (0 : ℚ) ≤
      ((BeamSegment.CalcBeamSlope.maxStep doc.drawingUnit seg.m_nbNotesOrChords
        (last.m_x - first.m_x) : Int) : ℚ) / ((last.m_x - first.m_x : Int) : ℚ) :=
    div_nonneg (by exact_mod_cast hM) hdx.le
  obtain ⟨seg2, h⟩ := CalcBeamSlope_isSome seg doc beamInterface
    (Or.inr ⟨by simp [refSet, hfi, hfilt], by simp [refSet, hla, hlalt]⟩)
  refine ⟨seg2, h, ?_⟩
  rcases CalcBeamSlope_cases seg seg2 doc beamInterface h with
    ⟨_, rfl⟩ | ⟨fi2, la2, first2, last2, _, hfi2, hla2, hfirst2, hlast2, hrest⟩
  · simpa using hbound0
  · have e_fi : fi = fi2 := by rw [hfi] at hfi2; exact Option.some.inj hfi2
    subst e_fi
    have e_la : la = la2 := by rw [hla] at hla2; exact Option.some.inj hla2
    subst e_la
    have e_first : first = first2 := by rw [hfirst] at hfirst2; exact Option.some.inj hfirst2
    subst e_first
    have e_last : last = last2 := by rw [hlast] at hlast2; exact Option.some.inj hlast2
    subst e_last
    rcases hrest with ⟨hkeep, rfl⟩ | ⟨hz, hstep, f2, l2, hf2, hl2, rfl⟩
    · rcases hkeep with hz | hlt
      · simp only [hz, abs_zero]
        exact hbound0
      · refine le_trans (abs_CalcSlope_le _ _ _ _ hx) ?_
        apply div_le_div_of_nonneg_right _ hdx.le
        exact_mod_cast hlt.le
    · have hends := clamp_ends seg.m_beamElementCoordRefs fi la first last hfirst hlast hne
        beamInterface.m_drawingPlace
        (CalcSlope (first.m_x, first.m_yBeam) (last.m_x, last.m_yBeam))
        (BeamSegment.CalcBeamSlope.maxStep doc.drawingUnit seg.m_nbNotesOrChords
          (last.m_x - first.m_x))
      have hgoal : ∀ (a b : BeamElementCoord), a.m_x = first.m_x → b.m_x = last.m_x →
          |a.m_yBeam - b.m_yBeam| = BeamSegment.CalcBeamSlope.maxStep doc.drawingUnit
            seg.m_nbNotesOrChords (last.m_x - first.m_x) →
          |CalcSlope (a.m_x, a.m_yBeam) (b.m_x, b.m_yBeam)| ≤
            ((BeamSegment.CalcBeamSlope.maxStep doc.drawingUnit seg.m_nbNotesOrChords
              (last.m_x - first.m_x) : Int) : ℚ) / ((last.m_x - first.m_x : Int) : ℚ) := by
        intro a b ha hb hab
        have := abs_CalcSlope_le a.m_x a.m_yBeam b.m_x b.m_yBeam (by rw [ha, hb]; exact hx)
        rw [hab] at this
        rw [ha, hb] at this ⊢
        exact this
      simp only []
      by_cases hs : 0 < CalcSlope (first.m_x, first.m_yBeam) (last.m_x, last.m_yBeam)
      · rcases hplace with hp | hp
        · obtain ⟨e1, e2⟩ := hends.1 hp hs
          rw [e1] at hf2; rw [e2] at hl2
          rw [← Option.some.inj hf2, ← Option.some.inj hl2]
          refine hgoal _ _ rfl rfl ?_
          simp only []
          rw [show last.m_yBeam - BeamSegment.CalcBeamSlope.maxStep doc.drawingUnit
            seg.m_nbNotesOrChords (last.m_x - first.m_x) - last.m_yBeam =
            -BeamSegment.CalcBeamSlope.maxStep doc.drawingUnit
            seg.m_nbNotesOrChords (last.m_x - first.m_x) by ring, abs_neg, abs_of_nonneg hM]
        · obtain ⟨e1, e2⟩ := hends.2.2.1 hp hs
          rw [e1] at hf2; rw [e2] at hl2
          rw [← Option.some.inj hf2, ← Option.some.inj hl2]
          refine hgoal _ _ rfl rfl ?_
          simp only []
          rw [show first.m_yBeam - (first.m_yBeam + BeamSegment.CalcBeamSlope.maxStep
            doc.drawingUnit seg.m_nbNotesOrChords (last.m_x - first.m_x)) =
            -BeamSegment.CalcBeamSlope.maxStep doc.drawingUnit
            seg.m_nbNotesOrChords (last.m_x - first.m_x) by ring, abs_neg, abs_of_nonneg hM]
      · rcases hplace with hp | hp
        · obtain ⟨e1, e2⟩ := hends.2.1 hp hs
          rw [e1] at hf2; rw [e2] at hl2
          rw [← Option.some.inj hf2, ← Option.some.inj hl2]
          refine hgoal _ _ rfl rfl ?_
          simp only []
          rw [show first.m_yBeam - (first.m_yBeam - BeamSegment.CalcBeamSlope.maxStep
            doc.drawingUnit seg.m_nbNotesOrChords (last.m_x - first.m_x)) =
            BeamSegment.CalcBeamSlope.maxStep doc.drawingUnit
            seg.m_nbNotesOrChords (last.m_x - first.m_x) by ring, abs_of_nonneg hM]
        · obtain ⟨e1, e2⟩ := hends.2.2.2.1 hp hs
          rw [e1] at hf2; rw [e2] at hl2
          rw [← Option.some.inj hf2, ← Option.some.inj hl2]
          refine hgoal _ _ rfl rfl ?_
          simp only []
          rw [show last.m_yBeam + BeamSegment.CalcBeamSlope.maxStep doc.drawingUnit
            seg.m_nbNotesOrChords (last.m_x - first.m_x) - last.m_yBeam =
            BeamSegment.CalcBeamSlope.maxStep doc.drawingUnit
            seg.m_nbNotesOrChords (last.m_x - first.m_x) by ring, abs_of_nonneg hM]

/-- C1 (witness): two notes under above placement, beam points 70 and 270 at x = 11 and 111. -/
theorem C1_witness_above :
    ∃ seg2, C1_witness_segment.CalcBeamSlope demoDoc
        { demoInterface with m_drawingPlace := BEAMPLACE_above } = some seg2 ∧
      |seg2.m_beamSlope| ≤
        ((BeamSegment.CalcBeamSlope.maxStep demoDoc.drawingUnit 2 (111 - 11) : Int) : ℚ) /
          ((111 - 11 : Int) : ℚ) :=
  C1_slope_bounded_above_below C1_witness_segment demoDoc
    { demoInterface with m_drawingPlace := BEAMPLACE_above } 0 1 (demoPlaced 11 70)
    (demoPlaced 111 270) rfl rfl rfl rfl (Or.inl rfl) (by decide) (by decide)

/-- C2 (counterexample): three eighth notes at x = 0, 5, 40 and y = 0, 0, 20, staff unit
10, above placement requested. The pass returns with anchor (11, 70) and slope 1/2; the
second member is at x = 16 with `yBeam` 72, and 70 + 1/2 * (16 - 11) is 72.5. A second
input, two eighth notes at x = 0, 49 and y = -70, -69: the pass returns with anchor
(11, 0) and slope 1/49; the second member is at x = 60 with `yBeam` 0, and
0 + 1/49 * (60 - 11) is 1: the `double` nearest to 1/49 times 49 is below 1. -/
theorem C2_counterexample_truncated :
    (C2_segment.CalcBeam 7 demoLayer demoStaff demoDoc demoInterface BEAMPLACE_above true).map
        (fun r => (r.1.m_startingX, r.1.m_startingY)) = some (11, 70) ∧
    (C2_segment.CalcBeam 7 demoLayer demoStaff demoDoc demoInterface BEAMPLACE_above true).map
        (fun r => r.1.m_beamSlope) = some (1 / 2) ∧
    (C2_segment.CalcBeam 7 demoLayer demoStaff demoDoc demoInterface BEAMPLACE_above true).map
        (fun r => r.1.m_beamElementCoordRefs.map (fun c => (c.m_x, c.m_yBeam))) =
      some [(11, 70), (16, 72), (51, 90)] ∧
    ((72 : Int) : ℚ) ≠ ((70 : Int) : ℚ) + (1 / 2) * ((16 - 11 : Int) : ℚ) ∧
    (C2_rounding_segment.CalcBeam 7 demoLayer demoStaff demoDoc demoInterface BEAMPLACE_above
        true).map (fun r => (r.1.m_startingX, r.1.m_startingY)) = some (11, 0) ∧
    (C2_rounding_segment.CalcBeam 7 demoLayer demoStaff demoDoc demoInterface BEAMPLACE_above
        true).map (fun r => r.1.m_beamSlope) = some (1 / 49) ∧
    (C2_rounding_segment.CalcBeam 7 demoLayer demoStaff demoDoc demoInterface BEAMPLACE_above
        true).map (fun r => r.1.m_beamElementCoordRefs.map (fun c => (c.m_x, c.m_yBeam))) =
      some [(11, 0), (60, 0)] ∧
    ((0 : Int) : ℚ) ≠ ((0 : Int) : ℚ) + (1 / 49) * ((60 - 11 : Int) : ℚ) ∧
    toDouble (toDouble (1 / 49) * ((60 - 11 : Int) : ℚ)) = 1 - 1 / 2 ^ 53 := by
  refine ⟨by decide!, by decide!, by decide!, ?_, by decide!, by decide!, by decide!, ?_,
    by decide!⟩
  · norm_num
  · norm_num

/-- C2 (amended): a pass of `CalcBeam` over a non-empty list in a ready state returns and
keeps the members: the result has as many members, and the member at every index keeps
what identifies it. The anchor `m_startingX` is the first member's `m_x`, the first
member's `m_yBeam` is `m_startingY` (for `|m_startingY| < 2 ^ 53`, where the `int` is a
`double`), and every member's `m_yBeam` is the value of
`m_startingY + m_beamSlope * (m_x - m_startingX)` computed in `double` arithmetic (the
slope, the product and the sum rounded to binary64) and truncated toward zero to an
integer. -/
theorem C2_yBeam_truncated_interpolation (S : Int) (seg : BeamSegment) (layer : Layer)
    (staff : Staff) (doc : Doc) (beamInterface : BeamDrawingInterface) (place : data_BEAMPLACE)
    (init : Bool) (hne : seg.m_beamElementCoordRefs ≠ []) (hready : seg.passReady init = true) :
    ∃ r, seg.CalcBeam S layer staff doc beamInterface place init = some r ∧
      r.1.m_beamElementCoordRefs.length = seg.m_beamElementCoordRefs.length ∧
      (∃ c, r.1.m_beamElementCoordRefs[0]? = some c ∧ c.m_x = r.1.m_startingX ∧
        (|r.1.m_startingY| < 2 ^ 53 → c.m_yBeam = r.1.m_startingY)) ∧
      ∀ (i : Nat) (c0 : BeamElementCoord), seg.m_beamElementCoordRefs[i]? = some c0 →
        ∃ c, r.1.m_beamElementCoordRefs[i]? = some c ∧ c.origin = c0.origin ∧
          c.m_stem.isSome = c0.m_stem.isSome ∧
          c.m_yBeam = truncToInt (toDouble ((r.1.m_startingY : ℚ) +
            toDouble (toDouble r.1.m_beamSlope * ((c.m_x - r.1.m_startingX : Int) : ℚ)))) := by
  obtain ⟨r, hr, hfirst, hmem⟩ :=
    CalcBeam_yBeam_members S seg layer staff doc beamInterface place init hne hready
  obtain ⟨hlen, hat⟩ := CalcBeam_origin_at S seg layer staff doc beamInterface place init r hr
  refine ⟨r, hr, hlen, hfirst, fun i c0 h0 => ?_⟩
  obtain ⟨c, hc, hin, ho, hst⟩ := hat i c0 h0
  exact ⟨c, hc, ho, hst, hmem c hin⟩

/-- C2 (witness): the three notes of the counterexample, where the pass returns. -/
theorem C2_witness :
    C2_segment.m_beamElementCoordRefs ≠ [] ∧ C2_segment.passReady true = true ∧
    ∃ r, C2_segment.CalcBeam 7 demoLayer demoStaff demoDoc demoInterface BEAMPLACE_above true = some r ∧
      r.1.m_beamElementCoordRefs.length = C2_segment.m_beamElementCoordRefs.length ∧
      (∃ c, r.1.m_beamElementCoordRefs[0]? = some c ∧ c.m_x = r.1.m_startingX ∧
        (|r.1.m_startingY| < 2 ^ 53 → c.m_yBeam = r.1.m_startingY)) ∧
      ∀ (i : Nat) (c0 : BeamElementCoord), C2_segment.m_beamElementCoordRefs[i]? = some c0 →
        ∃ c, r.1.m_beamElementCoordRefs[i]? = some c ∧ c.origin = c0.origin ∧
          c.m_stem.isSome = c0.m_stem.isSome ∧
          c.m_yBeam = truncToInt (toDouble ((r.1.m_startingY : ℚ) +
            toDouble (toDouble r.1.m_beamSlope * ((c.m_x - r.1.m_startingX : Int) : ℚ)))) :=
  ⟨by decide, by decide,
    C2_yBeam_truncated_interpolation 7 C2_segment demoLayer demoStaff demoDoc demoInterface
      BEAMPLACE_above true (by decide) (by decide)⟩

/-- C3: a pass of `CalcBeam` over a non-empty list returns with slope exactly `0` when the
beam is a repeated pattern or fewer than two members are a note or a chord (for a pass
without initialisation the counter `m_nbNotesOrChords` is the one an initialisation
left, the number of notes and chords). -/
theorem C3_slope_zero_repeated_or_few (S : Int) (seg : BeamSegment) (layer : Layer)
    (staff : Staff) (doc : Doc) (beamInterface : BeamDrawingInterface) (place : data_BEAMPLACE)
    (init : Bool) (hne : seg.m_beamElementCoordRefs ≠ [])
    (hsync : init = false →
      seg.m_nbNotesOrChords = noteOrChordCount seg.m_beamElementCoordRefs)
    (hcase : beamInterface.isRepeatedPattern = true ∨
      noteOrChordCount seg.m_beamElementCoordRefs < 2) :
    ∃ r, seg.CalcBeam S layer staff doc beamInterface place init = some r ∧
      r.1.m_beamSlope = 0 := by
  have key : ∀ (seg1 : BeamSegment) (iface1 : BeamDrawingInterface),
      (if init then seg.CalcBeamInit staff doc beamInterface
        else some (seg, beamInterface)) = some (seg1, iface1) →
      seg1.m_beamElementCoordRefs.length = seg.m_beamElementCoordRefs.length →
      (iface1.isRepeatedPattern = true ∨ seg1.m_nbNotesOrChords < 2) →
      ∃ r, seg.CalcBeam S layer staff doc beamInterface place init = some r ∧
        r.1.m_beamSlope = 0 := by
    intro seg1 iface1 h1 hlen hz
    obtain ⟨seg3, h3⟩ := slopeStage_isSome S seg1 layer doc iface1 place
      (hz.elim Or.inl (fun h => Or.inr (Or.inl h)))
    have hlen3 := slopeStage_length S seg1 seg3 layer doc iface1 place h3
    have hpos : 0 < seg3.m_beamElementCoordRefs.length := by
      rw [hlen3, hlen]
      exact List.length_pos.mpr hne
    refine ⟨_, CalcBeam_of_stages S seg layer staff doc beamInterface place init seg1 iface1 seg3
      _ hne h1 h3 (List.getElem?_eq_getElem hpos), ?_⟩
    exact slopeStage_zero S seg1 seg3 layer doc iface1 place h3 hz
  cases init with
  | true =>
    have hinit := CalcBeamInit_eq seg staff doc beamInterface hne
    refine key _ _ (by simpa using hinit) (by simp [extremes_length]) ?_
    rcases hcase with h | h
    · exact Or.inl h
    · right
      simpa [extremes_nb] using h
  | false =>
    refine key seg beamInterface (by simp) rfl ?_
    rcases hcase with h | h
    · exact Or.inl h
    · right
      rw [hsync rfl]
      exact h

/-- C3 (witness): one note between two rests. -/
theorem C3_witness :
    C3_segment.m_beamElementCoordRefs ≠ [] ∧
    noteOrChordCount C3_segment.m_beamElementCoordRefs < 2 ∧
    ∃ r, C3_segment.CalcBeam 7 demoLayer demoStaff demoDoc demoInterface BEAMPLACE_NONE true =
        some r ∧ r.1.m_beamSlope = 0 :=
  ⟨by decide, by decide,
    C3_slope_zero_repeated_or_few 7 C3_segment demoLayer demoStaff demoDoc demoInterface
      BEAMPLACE_NONE true (by decide) (by intro h; cases h) (Or.inr (by decide))⟩

/-- C4: a requested placement other than NONE becomes the drawing placement, whatever
the flags, the stem directions, the layer and the positions are. -/
theorem C4_requested_place_honored (seg : BeamSegment) (layer : Layer)
    (beamInterface : BeamDrawingInterface) (place : data_BEAMPLACE)
    (hplace : place ≠ BEAMPLACE_NONE) :
    (seg.CalcBeamPlace layer beamInterface place).m_drawingPlace = place := by
  simp [BeamSegment.CalcBeamPlace, hplace]

/-- C4 (witness): mixed requested on a configuration whose notes have up-stems. -/
theorem C4_witness :
    BEAMPLACE_mixed ≠ BEAMPLACE_NONE ∧
    (C7_segment.CalcBeamPlace demoLayer
      { demoInterface with m_notesStemDir := STEMDIRECTION_up } BEAMPLACE_mixed).m_drawingPlace =
      BEAMPLACE_mixed :=
  ⟨by decide, C4_requested_place_honored C7_segment demoLayer
    { demoInterface with m_notesStemDir := STEMDIRECTION_up } BEAMPLACE_mixed (by decide)⟩

/-- C5: with no placement requested, a set cross-staff flag or a set
multiple-stem-direction flag gives mixed, whatever the notes' stem direction, the layer
and the positions are. -/
theorem C5_flags_give_mixed (seg : BeamSegment) (layer : Layer)
    (beamInterface : BeamDrawingInterface)
    (hflag : beamInterface.m_crossStaff = true ∨ beamInterface.m_hasMultipleStemDir = true) :
    (seg.CalcBeamPlace layer beamInterface BEAMPLACE_NONE).m_drawingPlace = BEAMPLACE_mixed := by
  unfold BeamSegment.CalcBeamPlace
  rcases hflag with h | h
  · simp [h]
  · by_cases hc : beamInterface.m_crossStaff = true <;> simp [h, hc]

/-- C5 (witness): the multiple-stem-direction flag on notes with up-stems. -/
theorem C5_witness :
    (C7_segment.CalcBeamPlace { drawingStemDir := STEMDIRECTION_down }
      { demoInterface with m_hasMultipleStemDir := true, m_notesStemDir := STEMDIRECTION_up }
      BEAMPLACE_NONE).m_drawingPlace = BEAMPLACE_mixed :=
  C5_flags_give_mixed C7_segment { drawingStemDir := STEMDIRECTION_down }
    { demoInterface with m_hasMultipleStemDir := true, m_notesStemDir := STEMDIRECTION_up }
    (Or.inr rfl)

/-- C6: with no placement requested and no flag set, the notes' stem direction decides
(up gives above, down gives below) whatever the layer and the positions are; when the
notes carry none, the layer's direction decides (up gives above, down gives below)
whatever the positions are. -/
theorem C6_notes_then_layer (seg : BeamSegment) (layer : Layer)
    (beamInterface : BeamDrawingInterface)
    (hcross : beamInterface.m_crossStaff = false)
    (hmulti : beamInterface.m_hasMultipleStemDir = false) :
    (beamInterface.m_notesStemDir = STEMDIRECTION_up →
      (seg.CalcBeamPlace layer beamInterface BEAMPLACE_NONE).m_drawingPlace = BEAMPLACE_above) ∧
    (beamInterface.m_notesStemDir = STEMDIRECTION_down →
      (seg.CalcBeamPlace layer beamInterface BEAMPLACE_NONE).m_drawingPlace = BEAMPLACE_below) ∧
    (beamInterface.m_notesStemDir = STEMDIRECTION_NONE →
      layer.drawingStemDir = STEMDIRECTION_up →
      (seg.CalcBeamPlace layer beamInterface BEAMPLACE_NONE).m_drawingPlace = BEAMPLACE_above) ∧
    (beamInterface.m_notesStemDir = STEMDIRECTION_NONE →
      layer.drawingStemDir = STEMDIRECTION_down →
      (seg.CalcBeamPlace layer beamInterface BEAMPLACE_NONE).m_drawingPlace = BEAMPLACE_below) := by
  refine ⟨fun h => ?_, fun h => ?_, fun h hl => ?_, fun h hl => ?_⟩
  · simp [BeamSegment.CalcBeamPlace, hcross, hmulti, h]
  · simp [BeamSegment.CalcBeamPlace, hcross, hmulti, h]
  · simp [BeamSegment.CalcBeamPlace, hcross, hmulti, h, hl]
  · simp [BeamSegment.CalcBeamPlace, hcross, hmulti, h, hl]

/-- C6 (witness): notes with down-stems in a layer with direction up, mean position
below the centre: the notes decide. -/
theorem C6_witness :
    (C7_segment.CalcBeamPlace { drawingStemDir := STEMDIRECTION_up }
      { demoInterface with m_notesStemDir := STEMDIRECTION_down }
      BEAMPLACE_NONE).m_drawingPlace = BEAMPLACE_below :=
  (C6_notes_then_layer C7_segment { drawingStemDir := STEMDIRECTION_up }
    { demoInterface with m_notesStemDir := STEMDIRECTION_down } rfl rfl).2.1 rfl

/-- C7: with no placement requested, no flag set, no stem direction on the notes and
none from the layer, the placement is above when `m_avgY < m_verticalCenter` and below
otherwise; equal values give below. -/
theorem C7_average_against_center (seg : BeamSegment) (layer : Layer)
    (beamInterface : BeamDrawingInterface)
    (hcross : beamInterface.m_crossStaff = false)
    (hmulti : beamInterface.m_hasMultipleStemDir = false)
    (hnotes : beamInterface.m_notesStemDir = STEMDIRECTION_NONE)
    (hlayer : layer.drawingStemDir = STEMDIRECTION_NONE) :
    (seg.m_avgY < seg.m_verticalCenter →
      (seg.CalcBeamPlace layer beamInterface BEAMPLACE_NONE).m_drawingPlace = BEAMPLACE_above) ∧
    (¬ seg.m_avgY < seg.m_verticalCenter →
      (seg.CalcBeamPlace layer beamInterface BEAMPLACE_NONE).m_drawingPlace = BEAMPLACE_below) ∧
    (seg.m_avgY = seg.m_verticalCenter →
      (seg.CalcBeamPlace layer beamInterface BEAMPLACE_NONE).m_drawingPlace = BEAMPLACE_below) := by
  refine ⟨fun h => ?_, fun h => ?_, fun h => ?_⟩ <;>
    simp [BeamSegment.CalcBeamPlace, hcross, hmulti, hnotes, hlayer, h]

/-- C7 (witness): mean position 10 below the centre 30 gives above. -/
theorem C7_witness :
    C7_segment.m_avgY < C7_segment.m_verticalCenter ∧
    (C7_segment.CalcBeamPlace demoLayer demoInterface BEAMPLACE_NONE).m_drawingPlace =
      BEAMPLACE_above :=
  ⟨by decide,
    (C7_average_against_center C7_segment demoLayer demoInterface rfl rfl rfl rfl).1 (by decide)⟩

/-- C9: for a member with a stem whose measured note is `note`, `SetDrawingStemDir`
leaves `m_yBeam` at the anchor plus `stemLen * unit / 2`, and the magnitude of `stemLen`
is 14/13, 18/16, 22/20, 26/24, 30/28, 34/32, 38/36 (extended / not extended) for a 16th,
32nd, 64th, 128th, 256th, 512th and 1024th, extended exactly when the flag
`m_onStaffLine` holds and `CalcStemLenInHalfUnits` equals `2 * STANDARD_STEMLENGTH`; for
a duration outside 8th to 1024th the magnitude is 14. -/
theorem C9_stem_length_table (S : Int) (c : BeamElementCoord) (stemDir : data_STEMDIRECTION)
    (doc : Doc) (beamInterface : BeamDrawingInterface) (stem : Stem) (note : Note)
    (hstem : c.m_stem = some stem) (hnote : c.refNote stemDir = some note) :
    (c.SetDrawingStemDir S stemDir doc beamInterface).m_yBeam =
      (if stemDir = STEMDIRECTION_up then c.m_yTop else c.m_yBottom) +
        Int.tdiv (c.chosenStemLen S stemDir note * doc.drawingUnit) 2 ∧
    (c.SetDrawingStemDir S stemDir doc beamInterface).m_onStaffLine = note.locFlag ∧
    (note.extended S = true ↔
      (note.locFlag = true ∧ note.stemLenInHalfUnits = S * 2)) ∧
    (c.m_dur = DUR_16 →
      |c.chosenStemLen S stemDir note| = if note.extended S then 14 else 13) ∧
    (c.m_dur = DUR_32 →
      |c.chosenStemLen S stemDir note| = if note.extended S then 18 else 16) ∧
    (c.m_dur = DUR_64 →
      |c.chosenStemLen S stemDir note| = if note.extended S then 22 else 20) ∧
    (c.m_dur = DUR_128 →
      |c.chosenStemLen S stemDir note| = if note.extended S then 26 else 24) ∧
    (c.m_dur = DUR_256 →
      |c.chosenStemLen S stemDir note| = if note.extended S then 30 else 28) ∧
    (c.m_dur = DUR_512 →
      |c.chosenStemLen S stemDir note| = if note.extended S then 34 else 32) ∧
    (c.m_dur = DUR_1024 →
      |c.chosenStemLen S stemDir note| = if note.extended S then 38 else 36) ∧
    (c.m_dur ∉ [DUR_8, DUR_16, DUR_32, DUR_64, DUR_128, DUR_256, DUR_512, DUR_1024] →
      |c.chosenStemLen S stemDir note| = 14) := by
  have hy := SetDrawingStemDir_yBeam S c stemDir doc beamInterface stem note hstem hnote
  have hext : ∀ (a b : Int), (if (if note.stemLenInHalfUnits ≠ S * 2 then false
        else note.locFlag) = true then a else b) = if note.extended S = true then a else b := by
    intro a b
    unfold Note.extended
    by_cases h1 : note.stemLenInHalfUnits = S * 2 <;> cases h2 : note.locFlag <;> simp [h1]
  refine ⟨hy.1, hy.2, by simp [Note.extended], ?_, ?_, ?_, ?_, ?_, ?_, ?_, ?_⟩
  · intro hd
    simp only [BeamElementCoord.chosenStemLen, BeamElementCoord.stemLen, hd]
    rw [if_neg (by decide), abs_sign_mul, hext]
    split_ifs <;> rfl
  · intro hd
    simp only [BeamElementCoord.chosenStemLen, BeamElementCoord.stemLen, hd]
    rw [if_neg (by decide), abs_sign_mul, hext]
    split_ifs <;> rfl
  · intro hd
    simp only [BeamElementCoord.chosenStemLen, BeamElementCoord.stemLen, hd]
    rw [if_neg (by decide), abs_sign_mul, hext]
    split_ifs <;> rfl
  · intro hd
    simp only [BeamElementCoord.chosenStemLen, BeamElementCoord.stemLen, hd]
    rw [if_neg (by decide), abs_sign_mul, hext]
    split_ifs <;> rfl
  · intro hd
    simp only [BeamElementCoord.chosenStemLen, BeamElementCoord.stemLen, hd]
    rw [if_neg (by decide), abs_sign_mul, hext]
    split_ifs <;> rfl
  · intro hd
    simp only [BeamElementCoord.chosenStemLen, BeamElementCoord.stemLen, hd]
    rw [if_neg (by decide), abs_sign_mul, hext]
    split_ifs <;> rfl
  · intro hd
    simp only [BeamElementCoord.chosenStemLen, BeamElementCoord.stemLen, hd]
    rw [if_neg (by decide), abs_sign_mul, hext]
    split_ifs <;> rfl
  · intro hd
    simp only [List.mem_cons, List.mem_singleton, not_or, List.mem_nil_iff, or_false] at hd
    obtain ⟨h8, h16, h32, h64, h128, h256, h512, h1024⟩ := hd
    simp only [BeamElementCoord.chosenStemLen, BeamElementCoord.stemLen]
    rw [if_neg h8]
    cases hdur : c.m_dur <;>
      first
        | exact absurd hdur h8
        | exact absurd hdur h16
        | exact absurd hdur h32
        | exact absurd hdur h64
        | exact absurd hdur h128
        | exact absurd hdur h256
        | exact absurd hdur h512
        | exact absurd hdur h1024
        | (rw [abs_sign_mul]; rfl)

/-- C9 (witness): a 16th note at an odd staff location with an unclipped stem, direction
up, staff unit 10: the stem length is 14 half-units. -/
theorem C9_witness :
    C9_coord.m_stem = some (demoStem STEMDIRECTION_NONE) ∧
    C9_coord.refNote STEMDIRECTION_up = some (demoNote 3 14) ∧
    |C9_coord.chosenStemLen 7 STEMDIRECTION_up (demoNote 3 14)| =
      if (demoNote 3 14).extended 7 then 14 else 13 :=
  ⟨rfl, rfl,
    (C9_stem_length_table 7 C9_coord STEMDIRECTION_up demoDoc demoInterface
      (demoStem STEMDIRECTION_NONE) (demoNote 3 14) rfl rfl).2.2.2.1 rfl⟩

/-- C10 (counterexample): an eighth note whose flag `m_onStaffLine` holds (staff location
11) and whose stem is clipped to 12 half-units (`STANDARD_STEMLENGTH` 7): the stem length
is 12 half-units, not 14, and `m_yBeam` is 60 above the note at staff unit 10. -/
theorem C10_counterexample_clipped_on_line :
    C10_coord.m_dur = DUR_8 ∧
    (C10_coord.SetDrawingStemDir 7 STEMDIRECTION_up demoDoc demoInterface).m_onStaffLine = true ∧
    C10_coord.chosenStemLen 7 STEMDIRECTION_up (demoNote 11 12) = 12 ∧
    (C10_coord.SetDrawingStemDir 7 STEMDIRECTION_up demoDoc demoInterface).m_yBeam = 60 ∧
    |C10_coord.chosenStemLen 7 STEMDIRECTION_up (demoNote 11 12)| ≠ 14 := by
  decide

/-- C10 (amended): for an eighth-note member with a stem whose measured note is `note`,
`stemLen` is the value of `CalcStemLenInHalfUnits`, signed by the direction, when that
value differs from `2 * STANDARD_STEMLENGTH`, and otherwise has magnitude 14 if the flag
`m_onStaffLine` holds and 13 if not; hence an eighth note whose flag holds and whose
stem is not clipped gets 14 half-units. -/
theorem C10_eighth_note_stem_length (S : Int) (c : BeamElementCoord)
    (stemDir : data_STEMDIRECTION) (doc : Doc) (beamInterface : BeamDrawingInterface)
    (stem : Stem) (note : Note) (hstem : c.m_stem = some stem)
    (hnote : c.refNote stemDir = some note) (hdur : c.m_dur = DUR_8) :
    (c.SetDrawingStemDir S stemDir doc beamInterface).m_yBeam =
      (if stemDir = STEMDIRECTION_up then c.m_yTop else c.m_yBottom) +
        Int.tdiv (c.chosenStemLen S stemDir note * doc.drawingUnit) 2 ∧
    (c.SetDrawingStemDir S stemDir doc beamInterface).m_onStaffLine = note.locFlag ∧
    (note.stemLenInHalfUnits ≠ S * 2 →
      c.chosenStemLen S stemDir note =
        (if stemDir = STEMDIRECTION_up then 1 else -1) * note.stemLenInHalfUnits) ∧
    (note.stemLenInHalfUnits = S * 2 →
      |c.chosenStemLen S stemDir note| = if note.locFlag then 14 else 13) ∧
    (note.stemLenInHalfUnits = S * 2 → note.locFlag = true →
      |c.chosenStemLen S stemDir note| = 14) := by
  have hy := SetDrawingStemDir_yBeam S c stemDir doc beamInterface stem note hstem hnote
  refine ⟨hy.1, hy.2, fun hv => ?_, fun hv => ?_, fun hv hf => ?_⟩
  · simp only [BeamElementCoord.chosenStemLen, BeamElementCoord.stemLen, hdur]
    rw [if_pos trivial, if_pos hv]
  · simp only [BeamElementCoord.chosenStemLen, BeamElementCoord.stemLen, hdur]
    rw [if_pos trivial, if_neg (not_not.mpr hv), abs_sign_mul]
    split_ifs <;> rfl
  · simp only [BeamElementCoord.chosenStemLen, BeamElementCoord.stemLen, hdur]
    rw [if_pos trivial, if_neg (not_not.mpr hv), abs_sign_mul, if_pos hf]
    rfl

/-- C10 (witness): an eighth note at an odd staff location with an unclipped stem. -/
theorem C10_witness :
    (demoEighth 0 0 STEMDIRECTION_NONE).m_dur = DUR_8 ∧
    (demoNote 3 14).stemLenInHalfUnits = 7 * 2 ∧ (demoNote 3 14).locFlag = true ∧
    |(demoEighth 0 0 STEMDIRECTION_NONE).chosenStemLen 7 STEMDIRECTION_up (demoNote 3 14)| = 14 :=
  ⟨rfl, by decide, by decide,
    (C10_eighth_note_stem_length 7 (demoEighth 0 0 STEMDIRECTION_NONE) STEMDIRECTION_up demoDoc
      demoInterface (demoStem STEMDIRECTION_NONE) (demoNote 3 14) rfl rfl rfl).2.2.2.2
      (by decide) (by decide)⟩

/-- C11: for a member with a stem whose measured note is `note`, with `L` the half-unit
stem length of the duration switch and `u` the staff unit, `SetDrawingStemDir` leaves
`m_yBeam = m_yTop + (L * u) / 2` for direction up and `m_yBeam = m_yBottom - (L * u) / 2`
for direction down, with the truncating integer division; the two displacements are
negations of each other. -/
theorem C11_stem_tip_displacement (S : Int) (c : BeamElementCoord) (doc : Doc)
    (beamInterface : BeamDrawingInterface) (stem : Stem) (note : Note)
    (hstem : c.m_stem = some stem) :
    (c.refNote STEMDIRECTION_up = some note →
      (c.SetDrawingStemDir S STEMDIRECTION_up doc beamInterface).m_yBeam =
        c.m_yTop +
          Int.tdiv (BeamElementCoord.stemLen S c.m_dur 1 note.locFlag note * doc.drawingUnit) 2) ∧
    (c.refNote STEMDIRECTION_down = some note →
      (c.SetDrawingStemDir S STEMDIRECTION_down doc beamInterface).m_yBeam =
        c.m_yBottom -
          Int.tdiv (BeamElementCoord.stemLen S c.m_dur 1 note.locFlag note * doc.drawingUnit) 2) ∧
    Int.tdiv (BeamElementCoord.stemLen S c.m_dur (-1) note.locFlag note * doc.drawingUnit) 2 =
      -Int.tdiv (BeamElementCoord.stemLen S c.m_dur 1 note.locFlag note * doc.drawingUnit) 2 := by
  have hneg : Int.tdiv (BeamElementCoord.stemLen S c.m_dur (-1) note.locFlag note *
      doc.drawingUnit) 2 =
      -Int.tdiv (BeamElementCoord.stemLen S c.m_dur 1 note.locFlag note * doc.drawingUnit) 2 := by
    rw [stemLen_neg, Int.neg_mul, Int.neg_tdiv]
  refine ⟨fun hnote => ?_, fun hnote => ?_, hneg⟩
  · have hy := (SetDrawingStemDir_yBeam S c STEMDIRECTION_up doc beamInterface stem note
      hstem hnote).1
    rw [hy]
    simp [BeamElementCoord.chosenStemLen]
  · have hy := (SetDrawingStemDir_yBeam S c STEMDIRECTION_down doc beamInterface stem note
      hstem hnote).1
    rw [hy]
    simp only [BeamElementCoord.chosenStemLen]
    rw [if_neg (by decide), if_neg (by decide), hneg]
    ring

/-- C11 (witness): a 16th note at an odd staff location with an unclipped stem. -/
theorem C11_witness :
    C9_coord.m_stem = some (demoStem STEMDIRECTION_NONE) ∧
    C9_coord.refNote STEMDIRECTION_down = some (demoNote 3 14) ∧
    (C9_coord.SetDrawingStemDir 7 STEMDIRECTION_down demoDoc demoInterface).m_yBeam =
      C9_coord.m_yBottom -
        Int.tdiv (BeamElementCoord.stemLen 7 C9_coord.m_dur 1 (demoNote 3 14).locFlag
          (demoNote 3 14) * demoDoc.drawingUnit) 2 :=
  ⟨rfl, rfl,
    (C11_stem_tip_displacement 7 C9_coord demoDoc demoInterface (demoStem STEMDIRECTION_NONE)
      (demoNote 3 14) rfl).2.1 rfl⟩

/-- C12: for a non-empty beam without a note or chord, `CalcBeamInit` returns, the
number of rests it counted equals the number of members, so that the division is not
performed, and `m_avgY` is `0`; the pass of `CalcBeam` returns with slope `0` and
`m_avgY` still `0`. -/
theorem C12_all_rests (S : Int) (seg : BeamSegment) (layer : Layer) (staff : Staff)
    (doc : Doc) (beamInterface : BeamDrawingInterface) (place : data_BEAMPLACE)
    (hne : seg.m_beamElementCoordRefs ≠ [])
    (hrests : noteOrChordCount seg.m_beamElementCoordRefs = 0) :
    (seg.m_beamElementCoordRefs.length : Int) = (BeamSegment.CalcBeamInit.extremes seg).2.nbRests ∧
    ∃ r1 r, seg.CalcBeamInit staff doc beamInterface = some r1 ∧ r1.1.m_avgY = 0 ∧
      seg.CalcBeam S layer staff doc beamInterface place true = some r ∧
      r.1.m_beamSlope = 0 ∧ r.1.m_avgY = 0 := by
  obtain ⟨ha, hr⟩ := extremes_avgY_rests seg
  have hguard : (seg.m_beamElementCoordRefs.length : Int) =
      (BeamSegment.CalcBeamInit.extremes seg).2.nbRests := by
    rw [hr, hrests]
    ring
  refine ⟨hguard, ?_⟩
  obtain ⟨r1, r, h1, h2, h3, h4⟩ := CalcBeam_init_few S seg layer staff doc beamInterface place
    hne (by omega)
  have havg : r1.1.m_avgY = 0 := by
    obtain ⟨seg1, iface1, hinit, _, _, havg1, _⟩ :=
      CalcBeamInit_fields seg staff doc beamInterface hne
    rw [hinit] at h1
    rw [← Option.some.inj h1]
    simp only []
    rw [havg1, if_neg (not_not.mpr hguard), ha]
    exact noteOrChordYSum_zero _ hrests
  exact ⟨r1, r, h1, havg, h2, h3, by rw [h4, havg]⟩

/-- C12 (witness): three rests. -/
theorem C12_witness :
    C12_segment.m_beamElementCoordRefs ≠ [] ∧
    noteOrChordCount C12_segment.m_beamElementCoordRefs = 0 ∧
    (C12_segment.m_beamElementCoordRefs.length : Int) =
      (BeamSegment.CalcBeamInit.extremes C12_segment).2.nbRests ∧
    ∃ r1 r, C12_segment.CalcBeamInit demoStaff demoDoc demoInterface = some r1 ∧
      r1.1.m_avgY = 0 ∧
      C12_segment.CalcBeam 7 demoLayer demoStaff demoDoc demoInterface BEAMPLACE_NONE true =
        some r ∧
      r.1.m_beamSlope = 0 ∧ r.1.m_avgY = 0 :=
  ⟨by decide, by decide,
    C12_all_rests 7 C12_segment demoLayer demoStaff demoDoc demoInterface BEAMPLACE_NONE
      (by decide) (by decide)⟩

/-- C13: a pass of `CalcBeam` with `init = false` over a non-empty list in a ready state
returns, and `m_yTop` and `m_yBottom` of every member are what they were before, for
every requested placement. -/
theorem C13_extents_kept_without_init (S : Int) (seg : BeamSegment) (layer : Layer)
    (staff : Staff) (doc : Doc) (beamInterface : BeamDrawingInterface) (place : data_BEAMPLACE)
    (hne : seg.m_beamElementCoordRefs ≠ []) (hready : seg.passReady false = true) :
    ∃ r, seg.CalcBeam S layer staff doc beamInterface place false = some r ∧
      r.1.m_beamElementCoordRefs.map (fun c => (c.m_yTop, c.m_yBottom)) =
        seg.m_beamElementCoordRefs.map (fun c => (c.m_yTop, c.m_yBottom)) := by
  obtain ⟨r, hr⟩ := CalcBeam_returns S seg layer staff doc beamInterface place false hne hready
  refine ⟨r, hr, ?_⟩
  refine CalcBeam_noinit_map (fun c => (c.m_yTop, c.m_yBottom)) (fun _ _ => rfl) ?_ ?_
    S seg layer staff doc beamInterface place r hr
  · intro doc2 iface2 c
    rcases setStemLen_shape doc2 iface2 c with ⟨he, _⟩ | ⟨stem, _, _, he⟩ <;> rw [he]
  · intro c S2 d doc2 iface2
    obtain ⟨h1, h2⟩ := SetDrawingStemDir_extents S2 c d doc2 iface2
    simp only [h1, h2]

/-- C13 (witness): two notes and a rest after an initialisation, below requested. -/
theorem C13_witness :
    C13_segment.m_beamElementCoordRefs ≠ [] ∧ C13_segment.passReady false = true ∧
    ∃ r, C13_segment.CalcBeam 7 demoLayer demoStaff demoDoc demoInterface BEAMPLACE_below false =
        some r ∧
      r.1.m_beamElementCoordRefs.map (fun c => (c.m_yTop, c.m_yBottom)) =
        C13_segment.m_beamElementCoordRefs.map (fun c => (c.m_yTop, c.m_yBottom)) :=
  ⟨by decide, by decide,
    C13_extents_kept_without_init 7 C13_segment demoLayer demoStaff demoDoc demoInterface
      BEAMPLACE_below (by decide) (by decide)⟩

/-- C14 (counterexample): scenario A with staff unit 10 and above requested. Before the
slope computation the two members stand at (11, 170) and (51, 150); the maximum step
`CalcBeamSlope` uses is 5, not 20, and after it the members stand at (11, 170) and
(51, 165), a vertical distance of 5, not 20. -/
theorem C14_counterexample_half_unit_step :
    (BeamSegment.CalcBeam.beforeSlope 7 C14_segment demoLayer demoStaff demoDoc demoInterface
        BEAMPLACE_above).map (fun r => r.1.beamPoints) = some [(11, 170), (51, 150)] ∧
    ((BeamSegment.CalcBeam.beforeSlope 7 C14_segment demoLayer demoStaff demoDoc demoInterface
        BEAMPLACE_above).bind (fun r => r.1.CalcBeamSlope demoDoc r.2)).map
        (fun s => s.beamPoints) = some [(11, 170), (51, 165)] ∧
    BeamSegment.CalcBeamSlope.maxStep demoDoc.drawingUnit 2 (51 - 11) ≠ 20 ∧
    |(170 : Int) - 165| ≠ 20 := by
  refine ⟨by decide!, by decide!, by decide, by decide⟩

/-- C14 (amended): scenario A with staff unit 10 and above requested. The raw slope is
-1/2; the two notes are 40 apart, not more than 6 units, so the maximum step is half a
unit, 5; the step 20 is not below it, the last end point is set to 170 - 5 = 165, the
vertical distance of the end points is 5 and the final slope is -1/8. -/
theorem C14_scenario_A :
    (BeamSegment.CalcBeam.beforeSlope 7 C14_segment demoLayer demoStaff demoDoc demoInterface
        BEAMPLACE_above).map (fun r => (r.2.m_drawingPlace, r.1.m_nbNotesOrChords)) =
      some (BEAMPLACE_above, 2) ∧
    (BeamSegment.CalcBeam.beforeSlope 7 C14_segment demoLayer demoStaff demoDoc demoInterface
        BEAMPLACE_above).map (fun r => r.1.beamPoints) = some [(11, 170), (51, 150)] ∧
    CalcSlope (11, 170) (51, 150) = -1 / 2 ∧
    BeamSegment.CalcBeamSlope.maxStep demoDoc.drawingUnit 2 (51 - 11) = 5 ∧
    ¬ |(170 : Int) - 150| < 5 ∧
    ((BeamSegment.CalcBeam.beforeSlope 7 C14_segment demoLayer demoStaff demoDoc demoInterface
        BEAMPLACE_above).bind (fun r => r.1.CalcBeamSlope demoDoc r.2)).map
        (fun s => s.beamPoints) = some [(11, 170), (51, 165)] ∧
    ((BeamSegment.CalcBeam.beforeSlope 7 C14_segment demoLayer demoStaff demoDoc demoInterface
        BEAMPLACE_above).bind (fun r => r.1.CalcBeamSlope demoDoc r.2)).map
        (fun s => s.m_beamSlope) = some (-1 / 8) ∧
    |(170 : Int) - 165| = 5 ∧
    (C14_segment.CalcBeam 7 demoLayer demoStaff demoDoc demoInterface BEAMPLACE_above true).map
        (fun r => r.1.beamPoints) = some [(11, 170), (51, 165)] ∧
    (C14_segment.CalcBeam 7 demoLayer demoStaff demoDoc demoInterface BEAMPLACE_above true).map
        (fun r => r.1.m_beamSlope) = some (-1 / 8) := by
  refine ⟨by decide!, by decide!, by decide!, by decide, by decide, by decide!, by decide!,
    by decide, by decide!, by decide!⟩

/-- C16: a pass of `CalcBeam` over a non-empty list in a ready state returns and keeps
the members: the result has as many members, and the member at every index keeps what
identifies it and has a stem exactly when it had one. At the end of the pass the stem of
every note or chord that has one holds, with `y1 = m_yBeam - stemWidth` and
`y2 = m_yBottom + stemUpSE.y` under above placement and `y1 = m_yBeam + stemWidth` and
`y2 = m_yTop + stemDownNW.y` otherwise: length `y2 - y1`, `y` offset `y2` minus the
drawing `y` of the element, `x` offset `m_x` minus the drawing `x` of the element. A
member that is neither note nor chord keeps the three values of its stem, and a member
without a stem stays without one. -/
theorem C16_stem_values_stored (S : Int) (seg : BeamSegment) (layer : Layer)
    (staff : Staff) (doc : Doc) (beamInterface : BeamDrawingInterface) (place : data_BEAMPLACE)
    (init : Bool) (hne : seg.m_beamElementCoordRefs ≠ []) (hready : seg.passReady init = true) :
    ∃ r, seg.CalcBeam S layer staff doc beamInterface place init = some r ∧
      r.1.m_beamElementCoordRefs.length = seg.m_beamElementCoordRefs.length ∧
      ∀ (i : Nat) (c0 : BeamElementCoord), seg.m_beamElementCoordRefs[i]? = some c0 →
        ∃ c, r.1.m_beamElementCoordRefs[i]? = some c ∧ c.origin = c0.origin ∧
          c.m_stem.isSome = c0.m_stem.isSome ∧
          ((c.m_element.isNote || c.m_element.isChord) = true →
            ∀ stem, c.m_stem = some stem →
              (r.2.m_drawingPlace = BEAMPLACE_above →
                stem.drawingStemLen =
                  (c.m_yBottom + c.m_element.stemUpSE_y.get r.2.m_cueSize) -
                    (c.m_yBeam - doc.drawingStemWidth) ∧
                stem.drawingYRel =
                  (c.m_yBottom + c.m_element.stemUpSE_y.get r.2.m_cueSize) -
                    c.m_element.drawingY) ∧
              (r.2.m_drawingPlace ≠ BEAMPLACE_above →
                stem.drawingStemLen =
                  (c.m_yTop + c.m_element.stemDownNW_y.get r.2.m_cueSize) -
                    (c.m_yBeam + doc.drawingStemWidth) ∧
                stem.drawingYRel =
                  (c.m_yTop + c.m_element.stemDownNW_y.get r.2.m_cueSize) -
                    c.m_element.drawingY) ∧
              stem.drawingXRel = c.m_x - c.m_element.drawingX) ∧
          (c0.m_stem = none → c.m_stem = none) ∧
          ((c0.m_element.isNote || c0.m_element.isChord) = false →
            c.storedStemValues = c0.storedStemValues) := by
  obtain ⟨r, hr, hP, hQ⟩ :=
    CalcBeam_stem_values_members S seg layer staff doc beamInterface place init hne hready
  obtain ⟨hlen, hat⟩ := CalcBeam_origin_at S seg layer staff doc beamInterface place init r hr
  refine ⟨r, hr, hlen, fun i c0 h0 => ?_⟩
  obtain ⟨c, hc, hin, ho, hst⟩ := hat i c0 h0
  exact ⟨c, hc, ho, hst, hP c hin, (hQ i c0 c h0 hc).1, (hQ i c0 c h0 hc).2⟩

/-- C16 (witness): two notes around a rest, above requested. -/
theorem C16_witness :
    C15_segment.m_beamElementCoordRefs ≠ [] ∧ C15_segment.passReady true = true ∧
    ∃ r, C15_segment.CalcBeam 7 demoLayer demoStaff demoDoc demoInterface BEAMPLACE_above true = some r ∧
      r.1.m_beamElementCoordRefs.length = C15_segment.m_beamElementCoordRefs.length ∧
      ∀ (i : Nat) (c0 : BeamElementCoord), C15_segment.m_beamElementCoordRefs[i]? = some c0 →
        ∃ c, r.1.m_beamElementCoordRefs[i]? = some c ∧ c.origin = c0.origin ∧
          c.m_stem.isSome = c0.m_stem.isSome ∧
          ((c.m_element.isNote || c.m_element.isChord) = true →
            ∀ stem, c.m_stem = some stem →
              (r.2.m_drawingPlace = BEAMPLACE_above →
                stem.drawingStemLen =
                  (c.m_yBottom + c.m_element.stemUpSE_y.get r.2.m_cueSize) -
                    (c.m_yBeam - demoDoc.drawingStemWidth) ∧
                stem.drawingYRel =
                  (c.m_yBottom + c.m_element.stemUpSE_y.get r.2.m_cueSize) -
                    c.m_element.drawingY) ∧
              (r.2.m_drawingPlace ≠ BEAMPLACE_above →
                stem.drawingStemLen =
                  (c.m_yTop + c.m_element.stemDownNW_y.get r.2.m_cueSize) -
                    (c.m_yBeam + demoDoc.drawingStemWidth) ∧
                stem.drawingYRel =
                  (c.m_yTop + c.m_element.stemDownNW_y.get r.2.m_cueSize) -
                    c.m_element.drawingY) ∧
              stem.drawingXRel = c.m_x - c.m_element.drawingX) ∧
          (c0.m_stem = none → c.m_stem = none) ∧
          ((c0.m_element.isNote || c0.m_element.isChord) = false →
            c.storedStemValues = c0.storedStemValues) :=
  ⟨by decide, by decide,
    C16_stem_values_stored 7 C15_segment demoLayer demoStaff demoDoc demoInterface
      BEAMPLACE_above true (by decide) (by decide)⟩

/-- C17 (counterexample): two notes exactly 6 staff units apart (x = 0 and 60, staff unit
10), y = 0 and 100, above requested. Before the slope computation the members stand at
(11, 70) and (71, 170); the maximum step used is 5, not 2 units = 20: the first end point
is set to 170 - 5 = 165, not to 150. -/
theorem C17_counterexample_exactly_six_units :
    (BeamSegment.CalcBeam.beforeSlope 7 C17_segment demoLayer demoStaff demoDoc demoInterface
        BEAMPLACE_above).map (fun r => r.1.beamPoints) = some [(11, 70), (71, 170)] ∧
    (71 : Int) - 11 = 6 * demoDoc.drawingUnit ∧
    BeamSegment.CalcBeamSlope.maxStep demoDoc.drawingUnit 2 (71 - 11) = 5 ∧
    BeamSegment.CalcBeamSlope.maxStep demoDoc.drawingUnit 2 (71 - 11) ≠
      2 * demoDoc.drawingUnit ∧
    ((BeamSegment.CalcBeam.beforeSlope 7 C17_segment demoLayer demoStaff demoDoc demoInterface
        BEAMPLACE_above).bind (fun r => r.1.CalcBeamSlope demoDoc r.2)).map
        (fun s => s.beamPoints) = some [(11, 165), (71, 170)] := by
  refine ⟨by decide!, by decide, by decide, by decide, by decide!⟩

/-- C17 (amended): with both references set and at least two notes or chords,
`CalcBeamSlope` returns; when the raw slope is not `0` it leaves the members alone if the
step is below `M` and applies the assignment of the placement with `M` if not, where `M`
is `4 * unit` when the number of notes and chords is not 2 and, for exactly 2, `unit / 2`
when the distance `last.x - first.x` is at most `6 * unit` and `2 * unit` when it is
larger. -/
theorem C17_max_step_used (seg : BeamSegment) (doc : Doc)
    (beamInterface : BeamDrawingInterface) (fi la : Nat) (first last : BeamElementCoord)
    (hnb : 2 ≤ seg.m_nbNotesOrChords)
    (hfi : seg.m_firstNoteOrChord = some fi) (hla : seg.m_lastNoteOrChord = some la)
    (hfirst : seg.m_beamElementCoordRefs[fi]? = some first)
    (hlast : seg.m_beamElementCoordRefs[la]? = some last)
    (hz : CalcSlope (first.m_x, first.m_yBeam) (last.m_x, last.m_yBeam) ≠ 0) :
    ∃ seg2, seg.CalcBeamSlope doc beamInterface = some seg2 ∧
      seg2.m_beamElementCoordRefs =
        if |first.m_yBeam - last.m_yBeam| <
            (if seg.m_nbNotesOrChords ≠ 2 then 4 * doc.drawingUnit
              else if last.m_x - first.m_x ≤ 6 * doc.drawingUnit then Int.tdiv doc.drawingUnit 2
              else 2 * doc.drawingUnit) then
          seg.m_beamElementCoordRefs
        else
          BeamSegment.CalcBeamSlope.clamp seg.m_beamElementCoordRefs fi la first last
            beamInterface.m_drawingPlace
            (CalcSlope (first.m_x, first.m_yBeam) (last.m_x, last.m_yBeam))
            (if seg.m_nbNotesOrChords ≠ 2 then 4 * doc.drawingUnit
              else if last.m_x - first.m_x ≤ 6 * doc.drawingUnit then Int.tdiv doc.drawingUnit 2
              else 2 * doc.drawingUnit) := by
  obtain ⟨seg2, h, hc⟩ := CalcBeamSlope_coords seg doc beamInterface fi la first last hnb hfi hla
    hfirst hlast
  have hM : BeamSegment.CalcBeamSlope.maxStep doc.drawingUnit seg.m_nbNotesOrChords
      (last.m_x - first.m_x) =
      (if seg.m_nbNotesOrChords ≠ 2 then 4 * doc.drawingUnit
        else if last.m_x - first.m_x ≤ 6 * doc.drawingUnit then Int.tdiv doc.drawingUnit 2
        else 2 * doc.drawingUnit) := by
    unfold BeamSegment.CalcBeamSlope.maxStep
    by_cases h2 : seg.m_nbNotesOrChords = 2
    · by_cases hd : last.m_x - first.m_x ≤ doc.drawingUnit * 6
      · rw [if_pos h2, if_pos hd, if_neg (not_not.mpr h2), if_pos (by omega)]
      · rw [if_pos h2, if_neg hd, if_neg (not_not.mpr h2), if_neg (by omega)]
        ring
    · rw [if_neg h2, if_pos h2]
      ring
  refine ⟨seg2, h, ?_⟩
  rw [hc, hM]
  simp only [hz, false_or]

/-- C17 (witness): two notes 100 apart with beam points 270 and 70, staff unit 10. -/
theorem C17_witness :
    (2 : Int) ≤ C18_witness_segment.m_nbNotesOrChords ∧
    ∃ seg2, C18_witness_segment.CalcBeamSlope demoDoc
        { demoInterface with m_drawingPlace := BEAMPLACE_above } = some seg2 ∧
      seg2.m_beamElementCoordRefs =
        if |(demoPlaced 11 270).m_yBeam - (demoPlaced 111 70).m_yBeam| <
            (if C18_witness_segment.m_nbNotesOrChords ≠ 2 then 4 * demoDoc.drawingUnit
              else if (demoPlaced 111 70).m_x - (demoPlaced 11 270).m_x ≤ 6 * demoDoc.drawingUnit
                then Int.tdiv demoDoc.drawingUnit 2
              else 2 * demoDoc.drawingUnit) then
          C18_witness_segment.m_beamElementCoordRefs
        else
          BeamSegment.CalcBeamSlope.clamp C18_witness_segment.m_beamElementCoordRefs 0 1
            (demoPlaced 11 270) (demoPlaced 111 70) BEAMPLACE_above
            (CalcSlope ((demoPlaced 11 270).m_x, (demoPlaced 11 270).m_yBeam)
              ((demoPlaced 111 70).m_x, (demoPlaced 111 70).m_yBeam))
            (if C18_witness_segment.m_nbNotesOrChords ≠ 2 then 4 * demoDoc.drawingUnit
              else if (demoPlaced 111 70).m_x - (demoPlaced 11 270).m_x ≤ 6 * demoDoc.drawingUnit
                then Int.tdiv demoDoc.drawingUnit 2
              else 2 * demoDoc.drawingUnit) :=
  ⟨by decide,
    C17_max_step_used C18_witness_segment demoDoc
      { demoInterface with m_drawingPlace := BEAMPLACE_above } 0 1 (demoPlaced 11 270)
      (demoPlaced 111 70) (by decide) rfl rfl rfl rfl
      (by simp [CalcSlope, demoPlaced])⟩

/-- C18: under above placement, with both references set, at least two notes or chords,
a raw slope different from `0` and a step `|first.yBeam - last.yBeam|` not below
`maxStep`, `CalcBeamSlope` returns; if the raw slope is positive `m_yBeam` of the first
end point becomes `last.yBeam - maxStep` and the last end point is unchanged, if it is
negative `m_yBeam` of the last end point becomes `first.yBeam - maxStep` and the first
end point is unchanged. -/
theorem C18_clamp_above (seg : BeamSegment) (doc : Doc)
    (beamInterface : BeamDrawingInterface) (fi la : Nat) (first last : BeamElementCoord)
    (hnb : 2 ≤ seg.m_nbNotesOrChords)
    (hfi : seg.m_firstNoteOrChord = some fi) (hla : seg.m_lastNoteOrChord = some la)
    (hfirst : seg.m_beamElementCoordRefs[fi]? = some first)
    (hlast : seg.m_beamElementCoordRefs[la]? = some last)
    (hplace : beamInterface.m_drawingPlace = BEAMPLACE_above)
    (hz : CalcSlope (first.m_x, first.m_yBeam) (last.m_x, last.m_yBeam) ≠ 0)
    (hstep : BeamSegment.CalcBeamSlope.maxStep doc.drawingUnit seg.m_nbNotesOrChords
      (last.m_x - first.m_x) ≤ |first.m_yBeam - last.m_yBeam|) :
    ∃ seg2, seg.CalcBeamSlope doc beamInterface = some seg2 ∧
      (0 < CalcSlope (first.m_x, first.m_yBeam) (last.m_x, last.m_yBeam) →
        seg2.m_beamElementCoordRefs[fi]? =
          some { first with
            m_yBeam := last.m_yBeam -
              BeamSegment.CalcBeamSlope.maxStep doc.drawingUnit seg.m_nbNotesOrChords
                (last.m_x - first.m_x) } ∧
        seg2.m_beamElementCoordRefs[la]? = some last) ∧
      (CalcSlope (first.m_x, first.m_yBeam) (last.m_x, last.m_yBeam) < 0 →
        seg2.m_beamElementCoordRefs[la]? =
          some { last with
            m_yBeam := first.m_yBeam -
              BeamSegment.CalcBeamSlope.maxStep doc.drawingUnit seg.m_nbNotesOrChords
                (last.m_x - first.m_x) } ∧
        seg2.m_beamElementCoordRefs[fi]? = some first) := by
  obtain ⟨seg2, h, hc⟩ := CalcBeamSlope_coords seg doc beamInterface fi la first last hnb hfi hla
    hfirst hlast
  rw [if_neg (by
    rintro (h0 | h0)
    · exact hz h0
    · omega)] at hc
  have hne := CalcSlope_ne_zero_index _ fi la first last hfirst hlast hz
  have hends := clamp_ends seg.m_beamElementCoordRefs fi la first last hfirst hlast hne
    beamInterface.m_drawingPlace
    (CalcSlope (first.m_x, first.m_yBeam) (last.m_x, last.m_yBeam))
    (BeamSegment.CalcBeamSlope.maxStep doc.drawingUnit seg.m_nbNotesOrChords
      (last.m_x - first.m_x))
  refine ⟨seg2, h, fun hpos => ?_, fun hneg => ?_⟩
  · rw [hc]
    exact hends.1 hplace hpos
  · rw [hc]
    obtain ⟨e1, e2⟩ := hends.2.1 hplace (not_lt.mpr hneg.le)
    exact ⟨e2, e1⟩

/-- C18 (witness): two notes with beam points 270 and 70 at x = 11 and 111, staff unit
10: the slope is negative and the last end point is rewritten. -/
theorem C18_witness :
    (2 : Int) ≤ C18_witness_segment.m_nbNotesOrChords ∧
    BeamSegment.CalcBeamSlope.maxStep demoDoc.drawingUnit C18_witness_segment.m_nbNotesOrChords
      ((demoPlaced 111 70).m_x - (demoPlaced 11 270).m_x) ≤
        |(demoPlaced 11 270).m_yBeam - (demoPlaced 111 70).m_yBeam| ∧
    ∃ seg2, C18_witness_segment.CalcBeamSlope demoDoc
        { demoInterface with m_drawingPlace := BEAMPLACE_above } = some seg2 ∧
      (0 < CalcSlope ((demoPlaced 11 270).m_x, (demoPlaced 11 270).m_yBeam)
          ((demoPlaced 111 70).m_x, (demoPlaced 111 70).m_yBeam) →
        seg2.m_beamElementCoordRefs[0]? =
          some { demoPlaced 11 270 with
            m_yBeam := (demoPlaced 111 70).m_yBeam -
              BeamSegment.CalcBeamSlope.maxStep demoDoc.drawingUnit
                C18_witness_segment.m_nbNotesOrChords
                ((demoPlaced 111 70).m_x - (demoPlaced 11 270).m_x) } ∧
        seg2.m_beamElementCoordRefs[1]? = some (demoPlaced 111 70)) ∧
      (CalcSlope ((demoPlaced 11 270).m_x, (demoPlaced 11 270).m_yBeam)
          ((demoPlaced 111 70).m_x, (demoPlaced 111 70).m_yBeam) < 0 →
        seg2.m_beamElementCoordRefs[1]? =
          some { demoPlaced 111 70 with
            m_yBeam := (demoPlaced 11 270).m_yBeam -
              BeamSegment.CalcBeamSlope.maxStep demoDoc.drawingUnit
                C18_witness_segment.m_nbNotesOrChords
                ((demoPlaced 111 70).m_x - (demoPlaced 11 270).m_x) } ∧
        seg2.m_beamElementCoordRefs[0]? = some (demoPlaced 11 270)) :=
  ⟨by decide, by decide,
    C18_clamp_above C18_witness_segment demoDoc
      { demoInterface with m_drawingPlace := BEAMPLACE_above } 0 1 (demoPlaced 11 270)
      (demoPlaced 111 70) (by decide) rfl rfl rfl rfl rfl
      (by simp [CalcSlope, demoPlaced]) (by decide)⟩

/-- C19 (counterexample): three notes at x = 0, 100, 200 and y = 0, 0, 1000, staff unit
10, below requested. Before the slope computation the members stand at (1, -70),
(101, -70) and (201, 930), the raw slope is 5 and the maximum step 40; `CalcBeamSlope`
leaves the first end point at -70 and sets the last one to -70 + 40 = -30, where the claim
has the first one set to 930 + 40 = 970 and the last one left at 930. -/
theorem C19_counterexample_below_positive :
    (BeamSegment.CalcBeam.beforeSlope 7 C19_segment demoLayer demoStaff demoDoc demoInterface
        BEAMPLACE_below).map (fun r => (r.2.m_drawingPlace, r.1.beamPoints)) =
      some (BEAMPLACE_below, [(1, -70), (101, -70), (201, 930)]) ∧
    CalcSlope (1, -70) (201, 930) = 5 ∧
    BeamSegment.CalcBeamSlope.maxStep demoDoc.drawingUnit 3 (201 - 1) = 40 ∧
    ((BeamSegment.CalcBeam.beforeSlope 7 C19_segment demoLayer demoStaff demoDoc demoInterface
        BEAMPLACE_below).bind (fun r => r.1.CalcBeamSlope demoDoc r.2)).map
        (fun s => s.beamPoints) = some [(1, -70), (101, -70), (201, -30)] ∧
    (-70 : Int) ≠ 930 + 40 ∧ (-30 : Int) ≠ 930 := by
  refine ⟨by decide!, by decide!, by decide, by decide!, by decide, by decide⟩

/-- C19 (amended): under below placement, with both references set, at least two notes or
chords, a raw slope different from `0` and a step not below `maxStep`, `CalcBeamSlope`
returns; if the raw slope is positive `m_yBeam` of the last end point becomes
`first.yBeam + maxStep` and the first end point is unchanged, if it is negative `m_yBeam`
of the first end point becomes `last.yBeam + maxStep` and the last end point is
unchanged. -/
theorem C19_clamp_below (seg : BeamSegment) (doc : Doc)
    (beamInterface : BeamDrawingInterface) (fi la : Nat) (first last : BeamElementCoord)
    (hnb : 2 ≤ seg.m_nbNotesOrChords)
    (hfi : seg.m_firstNoteOrChord = some fi) (hla : seg.m_lastNoteOrChord = some la)
    (hfirst : seg.m_beamElementCoordRefs[fi]? = some first)
    (hlast : seg.m_beamElementCoordRefs[la]? = some last)
    (hplace : beamInterface.m_drawingPlace = BEAMPLACE_below)
    (hz : CalcSlope (first.m_x, first.m_yBeam) (last.m_x, last.m_yBeam) ≠ 0)
    (hstep : BeamSegment.CalcBeamSlope.maxStep doc.drawingUnit seg.m_nbNotesOrChords
      (last.m_x - first.m_x) ≤ |first.m_yBeam - last.m_yBeam|) :
    ∃ seg2, seg.CalcBeamSlope doc beamInterface = some seg2 ∧
      (0 < CalcSlope (first.m_x, first.m_yBeam) (last.m_x, last.m_yBeam) →
        seg2.m_beamElementCoordRefs[la]? =
          some { last with
            m_yBeam := first.m_yBeam +
              BeamSegment.CalcBeamSlope.maxStep doc.drawingUnit seg.m_nbNotesOrChords
                (last.m_x - first.m_x) } ∧
        seg2.m_beamElementCoordRefs[fi]? = some first) ∧
      (CalcSlope (first.m_x, first.m_yBeam) (last.m_x, last.m_yBeam) < 0 →
        seg2.m_beamElementCoordRefs[fi]? =
          some { first with
            m_yBeam := last.m_yBeam +
              BeamSegment.CalcBeamSlope.maxStep doc.drawingUnit seg.m_nbNotesOrChords
                (last.m_x - first.m_x) } ∧
        seg2.m_beamElementCoordRefs[la]? = some last) := by
  obtain ⟨seg2, h, hc⟩ := CalcBeamSlope_coords seg doc beamInterface fi la first last hnb hfi hla
    hfirst hlast
  rw [if_neg (by
    rintro (h0 | h0)
    · exact hz h0
    · omega)] at hc
  have hne := CalcSlope_ne_zero_index _ fi la first last hfirst hlast hz
  have hends := clamp_ends seg.m_beamElementCoordRefs fi la first last hfirst hlast hne
    beamInterface.m_drawingPlace
    (CalcSlope (first.m_x, first.m_yBeam) (last.m_x, last.m_yBeam))
    (BeamSegment.CalcBeamSlope.maxStep doc.drawingUnit seg.m_nbNotesOrChords
      (last.m_x - first.m_x))
  refine ⟨seg2, h, fun hpos => ?_, fun hneg => ?_⟩
  · rw [hc]
    obtain ⟨e1, e2⟩ := hends.2.2.1 hplace hpos
    exact ⟨e2, e1⟩
  · rw [hc]
    exact hends.2.2.2.1 hplace (not_lt.mpr hneg.le)

/-- C19 (witness): two notes with beam points 270 and 70 at x = 11 and 111, staff unit
10, below placement: the slope is negative and the first end point is rewritten. -/
theorem C19_witness :
    (2 : Int) ≤ C18_witness_segment.m_nbNotesOrChords ∧
    ∃ seg2, C18_witness_segment.CalcBeamSlope demoDoc
        { demoInterface with m_drawingPlace := BEAMPLACE_below } = some seg2 ∧
      (0 < CalcSlope ((demoPlaced 11 270).m_x, (demoPlaced 11 270).m_yBeam)
          ((demoPlaced 111 70).m_x, (demoPlaced 111 70).m_yBeam) →
        seg2.m_beamElementCoordRefs[1]? =
          some { demoPlaced 111 70 with
            m_yBeam := (demoPlaced 11 270).m_yBeam +
              BeamSegment.CalcBeamSlope.maxStep demoDoc.drawingUnit
                C18_witness_segment.m_nbNotesOrChords
                ((demoPlaced 111 70).m_x - (demoPlaced 11 270).m_x) } ∧
        seg2.m_beamElementCoordRefs[0]? = some (demoPlaced 11 270)) ∧
      (CalcSlope ((demoPlaced 11 270).m_x, (demoPlaced 11 270).m_yBeam)
          ((demoPlaced 111 70).m_x, (demoPlaced 111 70).m_yBeam) < 0 →
        seg2.m_beamElementCoordRefs[0]? =
          some { demoPlaced 11 270 with
            m_yBeam := (demoPlaced 111 70).m_yBeam +
              BeamSegment.CalcBeamSlope.maxStep demoDoc.drawingUnit
                C18_witness_segment.m_nbNotesOrChords
                ((demoPlaced 111 70).m_x - (demoPlaced 11 270).m_x) } ∧
        seg2.m_beamElementCoordRefs[1]? = some (demoPlaced 111 70)) :=
  ⟨by decide,
    C19_clamp_below C18_witness_segment demoDoc
      { demoInterface with m_drawingPlace := BEAMPLACE_below } 0 1 (demoPlaced 11 270)
      (demoPlaced 111 70) (by decide) rfl rfl rfl rfl rfl
      (by simp [CalcSlope, demoPlaced]) (by decide)⟩

/-- C20 (the code at the failing input): `CalcBeamInit` on three rests with a notehead
width of 12 (full size) and 8 (cue size), a stem width of 2 and a configuration whose
four offsets are 0. It leaves `m_stemXAbove[0] = 11`, `m_stemXBelow[0] = 1` and
`m_stemXBelow[1] = 1`, and `m_stemXAbove[1]` at 0, where the claim has 8 - 2 / 2 = 7. -/
theorem C20_cue_up_offset_not_assigned :
    (C12_segment.CalcBeamInit demoStaff demoDoc demoInterface).map
        (fun r => (r.2.m_stemXAbove.normal, r.2.m_stemXAbove.cue, r.2.m_stemXBelow.normal,
          r.2.m_stemXBelow.cue)) = some (11, 0, 1, 1) ∧
    demoInterface.m_stemXAbove.cue = 0 ∧
    demoDoc.glyphWidthNoteheadHalf.get true - Int.tdiv demoDoc.drawingStemWidth 2 = 7 := by
  refine ⟨by decide, by decide, by decide⟩

/-- C21: on a non-empty beam with at least one note or chord `CalcBeamInit` returns and
`m_avgY` is `S / n` with the truncating integer division, where `n` is the number of
notes and chords and `S` the sum of the drawing `y` of the single notes and of
`(yMax + yMin) / 2` of the chords; the other members are in neither. -/
theorem C21_average_of_notes_and_chords (seg : BeamSegment) (staff : Staff) (doc : Doc)
    (beamInterface : BeamDrawingInterface) (hne : seg.m_beamElementCoordRefs ≠ [])
    (hnote : 0 < noteOrChordCount seg.m_beamElementCoordRefs) :
    ∃ r, seg.CalcBeamInit staff doc beamInterface = some r ∧
      r.1.m_avgY =
        Int.tdiv (noteOrChordYSum seg.m_beamElementCoordRefs)
          (noteOrChordCount seg.m_beamElementCoordRefs) := by
  obtain ⟨seg1, iface1, hinit, _, _, havg, _⟩ :=
    CalcBeamInit_fields seg staff doc beamInterface hne
  obtain ⟨ha, hr⟩ := extremes_avgY_rests seg
  refine ⟨_, hinit, ?_⟩
  simp only []
  rw [havg, ha, hr, if_pos (by omega)]
  congr 1
  ring

/-- C21 (witness): a chord with extremes 41 and 20, a rest at y = 300 and a note at
y = 10. -/
theorem C21_witness :
    C21_segment.m_beamElementCoordRefs ≠ [] ∧
    0 < noteOrChordCount C21_segment.m_beamElementCoordRefs ∧
    ∃ r, C21_segment.CalcBeamInit demoStaff demoDoc demoInterface = some r ∧
      r.1.m_avgY =
        Int.tdiv (noteOrChordYSum C21_segment.m_beamElementCoordRefs)
          (noteOrChordCount C21_segment.m_beamElementCoordRefs) :=
  ⟨by decide, by decide,
    C21_average_of_notes_and_chords C21_segment demoStaff demoDoc demoInterface (by decide)
      (by decide)⟩

/-- C22: on a non-empty beam `CalcBeamInit` returns; the black width is the metric of the
cue size of the beam, the white gap is `(w * 4) / 3` with the truncating integer division
when the shortest duration is a 64th and `w` otherwise, where `w` is the white width of
the metrics, and the beam width is the black width plus the white gap. -/
theorem C22_beam_width (seg : BeamSegment) (staff : Staff) (doc : Doc)
    (beamInterface : BeamDrawingInterface) (hne : seg.m_beamElementCoordRefs ≠ []) :
    ∃ r, seg.CalcBeamInit staff doc beamInterface = some r ∧
      r.2.m_beamWidthBlack = doc.drawingBeamWidth.get beamInterface.m_cueSize ∧
      (beamInterface.m_shortestDur = DUR_64 →
        r.2.m_beamWidthWhite =
          Int.tdiv (doc.drawingBeamWhiteWidth.get beamInterface.m_cueSize * 4) 3) ∧
      (beamInterface.m_shortestDur ≠ DUR_64 →
        r.2.m_beamWidthWhite = doc.drawingBeamWhiteWidth.get beamInterface.m_cueSize) ∧
      r.2.m_beamWidth = r.2.m_beamWidthBlack + r.2.m_beamWidthWhite := by
  refine ⟨_, CalcBeamInit_eq seg staff doc beamInterface hne, rfl, fun h => ?_, fun h => ?_, rfl⟩
  · simp only [h, if_true]
  · simp only [h, if_false]

/-- C22 (witness): three rests in a beam whose shortest duration is a 64th, white width
3: the white gap is 4. -/
theorem C22_witness :
    C12_segment.m_beamElementCoordRefs ≠ [] ∧
    ∃ r, C12_segment.CalcBeamInit demoStaff demoDoc
        { demoInterface with m_shortestDur := DUR_64 } = some r ∧
      r.2.m_beamWidthBlack = demoDoc.drawingBeamWidth.get false ∧
      (DUR_64 = DUR_64 →
        r.2.m_beamWidthWhite = Int.tdiv (demoDoc.drawingBeamWhiteWidth.get false * 4) 3) ∧
      (DUR_64 ≠ DUR_64 →
        r.2.m_beamWidthWhite = demoDoc.drawingBeamWhiteWidth.get false) ∧
      r.2.m_beamWidth = r.2.m_beamWidthBlack + r.2.m_beamWidthWhite :=
  ⟨by decide,
    C22_beam_width C12_segment demoStaff demoDoc { demoInterface with m_shortestDur := DUR_64 }
      (by decide)⟩

/-- C23: `CalcBeamInit` on a segment that went through `Reset` and then received a
non-empty member list returns; the members keep their elements; `m_nbNotesOrChords` is
the number of members that are a note or a chord; `m_firstNoteOrChord` is the index `k`
exactly when the member at `k` is a note or a chord and no member before it is;
`m_lastNoteOrChord` is the index `k` exactly when the member at `k` is a note or a chord
and no member after it is; and each of the two references is unset exactly when no member
is a note or a chord. -/
theorem C23_first_last_note_or_chord (seg : BeamSegment) (staff : Staff) (doc : Doc)
    (beamInterface : BeamDrawingInterface) (coords : List BeamElementCoord)
    (hne : coords ≠ []) :
    ∃ r, ((seg.Reset).InitCoordRefs coords).CalcBeamInit staff doc beamInterface = some r ∧
      r.1.m_beamElementCoordRefs.map (fun c => c.m_element) =
        coords.map (fun c => c.m_element) ∧
      r.1.m_nbNotesOrChords = noteOrChordCount coords ∧
      (∀ k, r.1.m_firstNoteOrChord = some k ↔
        ∃ c, coords[k]? = some c ∧ (c.m_element.isChord || c.m_element.isNote) = true ∧
          ∀ d ∈ coords.take k, (d.m_element.isChord || d.m_element.isNote) = false) ∧
      (∀ k, r.1.m_lastNoteOrChord = some k ↔
        ∃ c, coords[k]? = some c ∧ (c.m_element.isChord || c.m_element.isNote) = true ∧
          ∀ d ∈ coords.drop (k + 1), (d.m_element.isChord || d.m_element.isNote) = false) ∧
      (r.1.m_firstNoteOrChord = none ↔ noteOrChordCount coords = 0) ∧
      (r.1.m_lastNoteOrChord = none ↔ noteOrChordCount coords = 0) := by
  obtain ⟨seg1, iface1, hinit, hcoords, hnb, _, hfirst, hlast, _⟩ :=
    CalcBeamInit_fields ((seg.Reset).InitCoordRefs coords) staff doc beamInterface hne
  obtain ⟨e1, e2⟩ := extremes_first_last ((seg.Reset).InitCoordRefs coords) rfl rfl
  rw [e1] at hfirst
  rw [e2] at hlast
  have hc : ((seg.Reset).InitCoordRefs coords).m_beamElementCoordRefs = coords := rfl
  rw [hc] at hfirst hlast hnb
  refine ⟨_, hinit, ?_, hnb, fun k => ?_, fun k => ?_, ?_, ?_⟩
  · simp only []
    rw [hcoords, extremes_map (fun c => c.m_element) (fun _ _ _ _ => rfl)]
    rfl
  · simp only []
    rw [hfirst, firstNoteOrChordFrom_some]
    constructor
    · rintro ⟨m, c, hk, h1, h2, h3⟩
      have e : k = m := by omega
      subst e
      exact ⟨c, h1, h2, h3⟩
    · rintro ⟨c, h1, h2, h3⟩
      exact ⟨k, c, by omega, h1, h2, h3⟩
  · simp only []
    rw [hlast, lastNoteOrChordFrom_some]
    constructor
    · rintro ⟨m, c, hk, h1, h2, h3⟩
      have e : k = m := by omega
      subst e
      exact ⟨c, h1, h2, h3⟩
    · rintro ⟨c, h1, h2, h3⟩
      exact ⟨k, c, by omega, h1, h2, h3⟩
  · simp only []
    rw [hfirst, firstNoteOrChordFrom_none, noteOrChordCount_eq_zero]
  · simp only []
    rw [hlast, lastNoteOrChordFrom_none, noteOrChordCount_eq_zero]

/-- C23 (witness): a rest, two eighth notes and a rest. -/
theorem C23_witness :
    C23_coords ≠ [] ∧
    ∃ r, (((demoSegment []).Reset).InitCoordRefs C23_coords).CalcBeamInit demoStaff demoDoc
        demoInterface = some r ∧
      r.1.m_beamElementCoordRefs.map (fun c => c.m_element) =
        C23_coords.map (fun c => c.m_element) ∧
      r.1.m_nbNotesOrChords = noteOrChordCount C23_coords ∧
      (∀ k, r.1.m_firstNoteOrChord = some k ↔
        ∃ c, C23_coords[k]? = some c ∧ (c.m_element.isChord || c.m_element.isNote) = true ∧
          ∀ d ∈ C23_coords.take k, (d.m_element.isChord || d.m_element.isNote) = false) ∧
      (∀ k, r.1.m_lastNoteOrChord = some k ↔
        ∃ c, C23_coords[k]? = some c ∧ (c.m_element.isChord || c.m_element.isNote) = true ∧
          ∀ d ∈ C23_coords.drop (k + 1), (d.m_element.isChord || d.m_element.isNote) = false) ∧
      (r.1.m_firstNoteOrChord = none ↔ noteOrChordCount C23_coords = 0) ∧
      (r.1.m_lastNoteOrChord = none ↔ noteOrChordCount C23_coords = 0) :=
  ⟨by decide,
    C23_first_last_note_or_chord (demoSegment []) demoStaff demoDoc demoInterface C23_coords
      (by decide)⟩

/-- C24: under above or below placement, with both references set, at least two notes or
chords, the first end point left of the last one, a positive `maxStep`, a raw slope
different from `0` and a step `|first.yBeam - last.yBeam|` not below `maxStep`,
`CalcBeamSlope` returns, and with `first2` and `last2` the end points after it: if the
raw slope is positive, so is the raw difference, `last2.yBeam - first2.yBeam` is
`maxStep`, and the final slope is `maxStep / (last.x - first.x)`, positive; if the raw
slope is negative, so is the raw difference, `last2.yBeam - first2.yBeam` is `-maxStep`,
and the final slope is `-(maxStep / (last.x - first.x))`, negative. -/
theorem C24_clamped_difference (seg : BeamSegment) (doc : Doc)
    (beamInterface : BeamDrawingInterface) (fi la : Nat) (first last : BeamElementCoord)
    (hnb : 2 ≤ seg.m_nbNotesOrChords)
    (hfi : seg.m_firstNoteOrChord = some fi) (hla : seg.m_lastNoteOrChord = some la)
    (hfirst : seg.m_beamElementCoordRefs[fi]? = some first)
    (hlast : seg.m_beamElementCoordRefs[la]? = some last)
    (hplace : beamInterface.m_drawingPlace = BEAMPLACE_above ∨
      beamInterface.m_drawingPlace = BEAMPLACE_below)
    (hx : first.m_x < last.m_x)
    (hM : 0 < BeamSegment.CalcBeamSlope.maxStep doc.drawingUnit seg.m_nbNotesOrChords
      (last.m_x - first.m_x))
    (hz : CalcSlope (first.m_x, first.m_yBeam) (last.m_x, last.m_yBeam) ≠ 0)
    (hstep : BeamSegment.CalcBeamSlope.maxStep doc.drawingUnit seg.m_nbNotesOrChords
      (last.m_x - first.m_x) ≤ |first.m_yBeam - last.m_yBeam|) :
    ∃ seg2 first2 last2, seg.CalcBeamSlope doc beamInterface = some seg2 ∧
      seg2.m_beamElementCoordRefs[fi]? = some first2 ∧
      seg2.m_beamElementCoordRefs[la]? = some last2 ∧
      (0 < CalcSlope (first.m_x, first.m_yBeam) (last.m_x, last.m_yBeam) →
        0 < last.m_yBeam - first.m_yBeam ∧
        last2.m_yBeam - first2.m_yBeam =
          BeamSegment.CalcBeamSlope.maxStep doc.drawingUnit seg.m_nbNotesOrChords
            (last.m_x - first.m_x) ∧
        seg2.m_beamSlope =
          ((BeamSegment.CalcBeamSlope.maxStep doc.drawingUnit seg.m_nbNotesOrChords
            (last.m_x - first.m_x) : Int) : ℚ) / ((last.m_x - first.m_x : Int) : ℚ) ∧
        0 < seg2.m_beamSlope) ∧
      (CalcSlope (first.m_x, first.m_yBeam) (last.m_x, last.m_yBeam) < 0 →
        last.m_yBeam - first.m_yBeam < 0 ∧
        last2.m_yBeam - first2.m_yBeam =
          -BeamSegment.CalcBeamSlope.maxStep doc.drawingUnit seg.m_nbNotesOrChords
            (last.m_x - first.m_x) ∧
        seg2.m_beamSlope =
          -(((BeamSegment.CalcBeamSlope.maxStep doc.drawingUnit seg.m_nbNotesOrChords
            (last.m_x - first.m_x) : Int) : ℚ) / ((last.m_x - first.m_x : Int) : ℚ)) ∧
        seg2.m_beamSlope < 0) := by
  obtain ⟨seg2, first2, last2, h, hc, hf2, hl2, hs⟩ :=
    CalcBeamSlope_clamped seg doc beamInterface fi la first last hnb hfi hla hfirst hlast hz hstep
  have hne := CalcSlope_ne_zero_index _ fi la first last hfirst hlast hz
  have hends := clamp_ends seg.m_beamElementCoordRefs fi la first last hfirst hlast hne
    beamInterface.m_drawingPlace
    (CalcSlope (first.m_x, first.m_yBeam) (last.m_x, last.m_yBeam))
    (BeamSegment.CalcBeamSlope.maxStep doc.drawingUnit seg.m_nbNotesOrChords
      (last.m_x - first.m_x))
  rw [← hc, hf2, hl2] at hends
  obtain ⟨hap, han, hbp, hbn, _⟩ := hends
  have hsign := CalcSlope_pos_iff first.m_x first.m_yBeam last.m_x last.m_yBeam hx
  refine ⟨seg2, first2, last2, h, hf2, hl2, fun hpos => ?_, fun hneg => ?_⟩
  · have hd := hsign.1.mp hpos
    have key : first2.m_x = first.m_x ∧ last2.m_x = last.m_x ∧
        last2.m_yBeam - first2.m_yBeam =
          BeamSegment.CalcBeamSlope.maxStep doc.drawingUnit seg.m_nbNotesOrChords
            (last.m_x - first.m_x) := by
      rcases hplace with hp | hp
      · obtain ⟨e1, e2⟩ := hap hp hpos
        have e1 := Option.some.inj e1
        have e2 := Option.some.inj e2
        subst e1 e2
        exact ⟨rfl, rfl, by simp⟩
      · obtain ⟨e1, e2⟩ := hbp hp hpos
        have e1 := Option.some.inj e1
        have e2 := Option.some.inj e2
        subst e1 e2
        exact ⟨rfl, rfl, by simp⟩
    obtain ⟨k1, k2, k3⟩ := key
    have hsl := (CalcSlope_of_diff first2.m_x first2.m_yBeam last2.m_x last2.m_yBeam _
      (by omega) hM).1 k3
    rw [k1, k2] at hsl
    rw [hs, k1, k2]
    exact ⟨by omega, k3, hsl.1, hsl.2⟩
  · have hd := hsign.2.mp hneg
    have key : first2.m_x = first.m_x ∧ last2.m_x = last.m_x ∧
        last2.m_yBeam - first2.m_yBeam =
          -BeamSegment.CalcBeamSlope.maxStep doc.drawingUnit seg.m_nbNotesOrChords
            (last.m_x - first.m_x) := by
      rcases hplace with hp | hp
      · obtain ⟨e1, e2⟩ := han hp (not_lt.mpr hneg.le)
        have e1 := Option.some.inj e1
        have e2 := Option.some.inj e2
        subst e1 e2
        exact ⟨rfl, rfl, by simp⟩
      · obtain ⟨e1, e2⟩ := hbn hp (not_lt.mpr hneg.le)
        have e1 := Option.some.inj e1
        have e2 := Option.some.inj e2
        subst e1 e2
        exact ⟨rfl, rfl, by simp⟩
    obtain ⟨k1, k2, k3⟩ := key
    have hsl := (CalcSlope_of_diff first2.m_x first2.m_yBeam last2.m_x last2.m_yBeam _
      (by omega) hM).2 k3
    rw [k1, k2] at hsl
    rw [hs, k1, k2]
    exact ⟨by omega, k3, hsl.1, hsl.2⟩

/-- C24 (witness): two notes with beam points 270 and 70 at x = 11 and 111, staff unit
10, below placement: the raw slope is -2, the maximum step 20, and the final slope
-20 / 100. -/
theorem C24_witness :
    (2 : Int) ≤ C18_witness_segment.m_nbNotesOrChords ∧
    (demoPlaced 11 270).m_x < (demoPlaced 111 70).m_x ∧
    0 < BeamSegment.CalcBeamSlope.maxStep demoDoc.drawingUnit
            C18_witness_segment.m_nbNotesOrChords
            ((demoPlaced 111 70).m_x - (demoPlaced 11 270).m_x) ∧
    BeamSegment.CalcBeamSlope.maxStep demoDoc.drawingUnit
            C18_witness_segment.m_nbNotesOrChords
            ((demoPlaced 111 70).m_x - (demoPlaced 11 270).m_x) ≤
        |(demoPlaced 11 270).m_yBeam - (demoPlaced 111 70).m_yBeam| ∧
    ∃ seg2 first2 last2, C18_witness_segment.CalcBeamSlope demoDoc
        { demoInterface with m_drawingPlace := BEAMPLACE_below } = some seg2 ∧
      seg2.m_beamElementCoordRefs[0]? = some first2 ∧
      seg2.m_beamElementCoordRefs[1]? = some last2 ∧
      (0 < CalcSlope ((demoPlaced 11 270).m_x, (demoPlaced 11 270).m_yBeam)
          ((demoPlaced 111 70).m_x, (demoPlaced 111 70).m_yBeam) →
        0 < (demoPlaced 111 70).m_yBeam - (demoPlaced 11 270).m_yBeam ∧
        last2.m_yBeam - first2.m_yBeam =
          BeamSegment.CalcBeamSlope.maxStep demoDoc.drawingUnit
            C18_witness_segment.m_nbNotesOrChords
            ((demoPlaced 111 70).m_x - (demoPlaced 11 270).m_x) ∧
        seg2.m_beamSlope =
          ((BeamSegment.CalcBeamSlope.maxStep demoDoc.drawingUnit
            C18_witness_segment.m_nbNotesOrChords
            ((demoPlaced 111 70).m_x - (demoPlaced 11 270).m_x) : Int) : ℚ) /
            (((demoPlaced 111 70).m_x - (demoPlaced 11 270).m_x : Int) : ℚ) ∧
        0 < seg2.m_beamSlope) ∧
      (CalcSlope ((demoPlaced 11 270).m_x, (demoPlaced 11 270).m_yBeam)
          ((demoPlaced 111 70).m_x, (demoPlaced 111 70).m_yBeam) < 0 →
        (demoPlaced 111 70).m_yBeam - (demoPlaced 11 270).m_yBeam < 0 ∧
        last2.m_yBeam - first2.m_yBeam =
          -BeamSegment.CalcBeamSlope.maxStep demoDoc.drawingUnit
            C18_witness_segment.m_nbNotesOrChords
            ((demoPlaced 111 70).m_x - (demoPlaced 11 270).m_x) ∧
        seg2.m_beamSlope =
          -(((BeamSegment.CalcBeamSlope.maxStep demoDoc.drawingUnit
            C18_witness_segment.m_nbNotesOrChords
            ((demoPlaced 111 70).m_x - (demoPlaced 11 270).m_x) : Int) : ℚ) /
            (((demoPlaced 111 70).m_x - (demoPlaced 11 270).m_x : Int) : ℚ)) ∧
        seg2.m_beamSlope < 0) :=
  ⟨by decide, by decide, by decide, by decide,
    C24_clamped_difference C18_witness_segment demoDoc
      { demoInterface with m_drawingPlace := BEAMPLACE_below } 0 1 (demoPlaced 11 270)
      (demoPlaced 111 70) (by decide) rfl rfl rfl rfl (Or.inr rfl) (by decide) (by decide)
      (by simp [CalcSlope, demoPlaced]) (by decide)⟩

/-- C25: with both references set, at least two notes or chords and the first end point
left of the last one, `CalcBeamSlope` returns and changes at most `m_yBeam` of one of the
two end points: every other member, and under a placement that is neither above nor below
every member, is as before; under above placement either the first end point gets a
`m_yBeam` not below its previous value and the last one is unchanged, or the last end
point gets a `m_yBeam` not below its previous value and the first one is unchanged; under
below placement the same with a `m_yBeam` not above the previous value. -/
theorem C25_clamp_moves_away (seg : BeamSegment) (doc : Doc)
    (beamInterface : BeamDrawingInterface) (fi la : Nat) (first last : BeamElementCoord)
    (hnb : 2 ≤ seg.m_nbNotesOrChords)
    (hfi : seg.m_firstNoteOrChord = some fi) (hla : seg.m_lastNoteOrChord = some la)
    (hfirst : seg.m_beamElementCoordRefs[fi]? = some first)
    (hlast : seg.m_beamElementCoordRefs[la]? = some last)
    (hx : first.m_x < last.m_x) :
    ∃ seg2, seg.CalcBeamSlope doc beamInterface = some seg2 ∧
      (∀ i, i ≠ fi → i ≠ la →
        seg2.m_beamElementCoordRefs[i]? = seg.m_beamElementCoordRefs[i]?) ∧
      (beamInterface.m_drawingPlace = BEAMPLACE_above →
        (∃ v, first.m_yBeam ≤ v ∧
          seg2.m_beamElementCoordRefs[fi]? = some { first with m_yBeam := v } ∧
          seg2.m_beamElementCoordRefs[la]? = some last) ∨
        (∃ v, last.m_yBeam ≤ v ∧
          seg2.m_beamElementCoordRefs[la]? = some { last with m_yBeam := v } ∧
          seg2.m_beamElementCoordRefs[fi]? = some first)) ∧
      (beamInterface.m_drawingPlace = BEAMPLACE_below →
        (∃ v, v ≤ first.m_yBeam ∧
          seg2.m_beamElementCoordRefs[fi]? = some { first with m_yBeam := v } ∧
          seg2.m_beamElementCoordRefs[la]? = some last) ∨
        (∃ v, v ≤ last.m_yBeam ∧
          seg2.m_beamElementCoordRefs[la]? = some { last with m_yBeam := v } ∧
          seg2.m_beamElementCoordRefs[fi]? = some first)) ∧
      (beamInterface.m_drawingPlace ≠ BEAMPLACE_above →
        beamInterface.m_drawingPlace ≠ BEAMPLACE_below →
        seg2.m_beamElementCoordRefs = seg.m_beamElementCoordRefs) := by
  obtain ⟨seg2, h, hc⟩ := CalcBeamSlope_coords seg doc beamInterface fi la first last hnb hfi hla
    hfirst hlast
  have hne : fi ≠ la := by
    rintro rfl
    rw [hfirst] at hlast
    rw [Option.some.inj hlast] at hx
    exact lt_irrefl _ hx
  refine ⟨seg2, h, ?_⟩
  by_cases hkeep : CalcSlope (first.m_x, first.m_yBeam) (last.m_x, last.m_yBeam) = 0 ∨
      |first.m_yBeam - last.m_yBeam| <
        BeamSegment.CalcBeamSlope.maxStep doc.drawingUnit seg.m_nbNotesOrChords
          (last.m_x - first.m_x)
  · rw [if_pos hkeep] at hc
    rw [hc]
    exact ⟨fun _ _ _ => rfl,
      fun _ => Or.inl ⟨first.m_yBeam, le_refl _, hfirst, hlast⟩,
      fun _ => Or.inl ⟨first.m_yBeam, le_refl _, hfirst, hlast⟩, fun _ _ => rfl⟩
  · rw [if_neg hkeep] at hc
    rw [hc]
    have hstep : BeamSegment.CalcBeamSlope.maxStep doc.drawingUnit seg.m_nbNotesOrChords
        (last.m_x - first.m_x) ≤ |first.m_yBeam - last.m_yBeam| := by
      by_contra hlt
      exact hkeep (Or.inr (not_le.mp hlt))
    obtain ⟨hap, han, hbp, hbn, hmix⟩ :=
      clamp_ends seg.m_beamElementCoordRefs fi la first last hfirst hlast hne
        beamInterface.m_drawingPlace
        (CalcSlope (first.m_x, first.m_yBeam) (last.m_x, last.m_yBeam))
        (BeamSegment.CalcBeamSlope.maxStep doc.drawingUnit seg.m_nbNotesOrChords
          (last.m_x - first.m_x))
    have hsign := CalcSlope_pos_iff first.m_x first.m_yBeam last.m_x last.m_yBeam hx
    refine ⟨fun i h1 h2 => clamp_other _ fi la first last _ _ _ i h1 h2, fun hp => ?_,
      fun hp => ?_, hmix⟩
    · by_cases hpos : 0 < CalcSlope (first.m_x, first.m_yBeam) (last.m_x, last.m_yBeam)
      · have hd := hsign.1.mp hpos
        rw [abs_of_neg (by omega)] at hstep
        exact Or.inl ⟨_, by omega, hap hp hpos⟩
      · have hd : ¬ first.m_yBeam < last.m_yBeam := fun hlt => hpos (hsign.1.mpr hlt)
        rw [abs_of_nonneg (by omega)] at hstep
        obtain ⟨e1, e2⟩ := han hp hpos
        exact Or.inr ⟨_, by omega, e2, e1⟩
    · by_cases hpos : 0 < CalcSlope (first.m_x, first.m_yBeam) (last.m_x, last.m_yBeam)
      · have hd := hsign.1.mp hpos
        rw [abs_of_neg (by omega)] at hstep
        obtain ⟨e1, e2⟩ := hbp hp hpos
        exact Or.inr ⟨_, by omega, e2, e1⟩
      · have hd : ¬ first.m_yBeam < last.m_yBeam := fun hlt => hpos (hsign.1.mpr hlt)
        rw [abs_of_nonneg (by omega)] at hstep
        exact Or.inl ⟨_, by omega, hbn hp hpos⟩

/-- C25 (witness): two notes with beam points 270 and 70 at x = 11 and 111, above
placement. -/
theorem C25_witness :
    (2 : Int) ≤ C18_witness_segment.m_nbNotesOrChords ∧
    (demoPlaced 11 270).m_x < (demoPlaced 111 70).m_x ∧
    ∃ seg2, C18_witness_segment.CalcBeamSlope demoDoc
        { demoInterface with m_drawingPlace := BEAMPLACE_above } = some seg2 ∧
      (∀ i, i ≠ 0 → i ≠ 1 →
        seg2.m_beamElementCoordRefs[i]? = C18_witness_segment.m_beamElementCoordRefs[i]?) ∧
      (({ demoInterface with m_drawingPlace := BEAMPLACE_above } :
          BeamDrawingInterface).m_drawingPlace = BEAMPLACE_above →
        (∃ v, (demoPlaced 11 270).m_yBeam ≤ v ∧
          seg2.m_beamElementCoordRefs[0]? = some { demoPlaced 11 270 with m_yBeam := v } ∧
          seg2.m_beamElementCoordRefs[1]? = some (demoPlaced 111 70)) ∨
        (∃ v, (demoPlaced 111 70).m_yBeam ≤ v ∧
          seg2.m_beamElementCoordRefs[1]? = some { demoPlaced 111 70 with m_yBeam := v } ∧
          seg2.m_beamElementCoordRefs[0]? = some (demoPlaced 11 270))) ∧
      (({ demoInterface with m_drawingPlace := BEAMPLACE_above } :
          BeamDrawingInterface).m_drawingPlace = BEAMPLACE_below →
        (∃ v, v ≤ (demoPlaced 11 270).m_yBeam ∧
          seg2.m_beamElementCoordRefs[0]? = some { demoPlaced 11 270 with m_yBeam := v } ∧
          seg2.m_beamElementCoordRefs[1]? = some (demoPlaced 111 70)) ∨
        (∃ v, v ≤ (demoPlaced 111 70).m_yBeam ∧
          seg2.m_beamElementCoordRefs[1]? = some { demoPlaced 111 70 with m_yBeam := v } ∧
          seg2.m_beamElementCoordRefs[0]? = some (demoPlaced 11 270))) ∧
      (({ demoInterface with m_drawingPlace := BEAMPLACE_above } :
          BeamDrawingInterface).m_drawingPlace ≠ BEAMPLACE_above →
        ({ demoInterface with m_drawingPlace := BEAMPLACE_above } :
          BeamDrawingInterface).m_drawingPlace ≠ BEAMPLACE_below →
        seg2.m_beamElementCoordRefs = C18_witness_segment.m_beamElementCoordRefs) :=
  ⟨by decide, by decide,
    C25_clamp_moves_away C18_witness_segment demoDoc
      { demoInterface with m_drawingPlace := BEAMPLACE_above } 0 1 (demoPlaced 11 270)
      (demoPlaced 111 70) (by decide) rfl rfl rfl rfl (by decide)⟩

/-- C26: a pass of `CalcBeam` over a non-empty list in a ready state returns and keeps the
members: the result has as many members, and the member at every index keeps what
identifies it and has a stem exactly when it had one. A requested mixed placement is the
resolved one. If the resolved placement is not above, in particular if it is mixed, the
stem of every note or chord that has one holds the values of the down-stem formula,
`y1 = m_yBeam + stemWidth` and `y2 = m_yTop + stemDownNW.y`, whatever the drawing
direction of the stem is; the values of the up-stem formula are stored under above
placement only. -/
theorem C26_mixed_uses_down_formula (S : Int) (seg : BeamSegment) (layer : Layer)
    (staff : Staff) (doc : Doc) (beamInterface : BeamDrawingInterface) (place : data_BEAMPLACE)
    (init : Bool) (hne : seg.m_beamElementCoordRefs ≠ []) (hready : seg.passReady init = true) :
    ∃ r, seg.CalcBeam S layer staff doc beamInterface place init = some r ∧
      r.1.m_beamElementCoordRefs.length = seg.m_beamElementCoordRefs.length ∧
      (place = BEAMPLACE_mixed → r.2.m_drawingPlace = BEAMPLACE_mixed) ∧
      ∀ (i : Nat) (c0 : BeamElementCoord), seg.m_beamElementCoordRefs[i]? = some c0 →
        ∃ c, r.1.m_beamElementCoordRefs[i]? = some c ∧ c.origin = c0.origin ∧
          c.m_stem.isSome = c0.m_stem.isSome ∧
          (r.2.m_drawingPlace ≠ BEAMPLACE_above →
            (c.m_element.isNote || c.m_element.isChord) = true →
            ∀ stem, c.m_stem = some stem →
              stem.drawingStemLen =
                (c.m_yTop + c.m_element.stemDownNW_y.get r.2.m_cueSize) -
                  (c.m_yBeam + doc.drawingStemWidth) ∧
              stem.drawingYRel =
                (c.m_yTop + c.m_element.stemDownNW_y.get r.2.m_cueSize) -
                  c.m_element.drawingY) ∧
          (r.2.m_drawingPlace = BEAMPLACE_above →
            (c.m_element.isNote || c.m_element.isChord) = true →
            ∀ stem, c.m_stem = some stem →
              stem.drawingStemLen =
                (c.m_yBottom + c.m_element.stemUpSE_y.get r.2.m_cueSize) -
                  (c.m_yBeam - doc.drawingStemWidth) ∧
              stem.drawingYRel =
                (c.m_yBottom + c.m_element.stemUpSE_y.get r.2.m_cueSize) -
                  c.m_element.drawingY) := by
  obtain ⟨r, hr, hmixed, hdown, hup⟩ :=
    CalcBeam_down_formula_members S seg layer staff doc beamInterface place init hne hready
  obtain ⟨hlen, hat⟩ := CalcBeam_origin_at S seg layer staff doc beamInterface place init r hr
  refine ⟨r, hr, hlen, hmixed, fun i c0 h0 => ?_⟩
  obtain ⟨c, hc, hin, ho, hst⟩ := hat i c0 h0
  exact ⟨c, hc, ho, hst, fun hp => hdown hp c hin, fun hp => hup hp c hin⟩

/-- C26 (witness): two notes with encoded directions up and down, mixed requested. -/
theorem C26_witness :
    C26_segment.m_beamElementCoordRefs ≠ [] ∧ C26_segment.passReady true = true ∧
    ∃ r, C26_segment.CalcBeam 7 demoLayer demoStaff demoDoc demoInterface BEAMPLACE_mixed true = some r ∧
      r.1.m_beamElementCoordRefs.length = C26_segment.m_beamElementCoordRefs.length ∧
      (BEAMPLACE_mixed = BEAMPLACE_mixed → r.2.m_drawingPlace = BEAMPLACE_mixed) ∧
      ∀ (i : Nat) (c0 : BeamElementCoord), C26_segment.m_beamElementCoordRefs[i]? = some c0 →
        ∃ c, r.1.m_beamElementCoordRefs[i]? = some c ∧ c.origin = c0.origin ∧
          c.m_stem.isSome = c0.m_stem.isSome ∧
          (r.2.m_drawingPlace ≠ BEAMPLACE_above →
            (c.m_element.isNote || c.m_element.isChord) = true →
            ∀ stem, c.m_stem = some stem →
              stem.drawingStemLen =
                (c.m_yTop + c.m_element.stemDownNW_y.get r.2.m_cueSize) -
                  (c.m_yBeam + demoDoc.drawingStemWidth) ∧
              stem.drawingYRel =
                (c.m_yTop + c.m_element.stemDownNW_y.get r.2.m_cueSize) -
                  c.m_element.drawingY) ∧
          (r.2.m_drawingPlace = BEAMPLACE_above →
            (c.m_element.isNote || c.m_element.isChord) = true →
            ∀ stem, c.m_stem = some stem →
              stem.drawingStemLen =
                (c.m_yBottom + c.m_element.stemUpSE_y.get r.2.m_cueSize) -
                  (c.m_yBeam - demoDoc.drawingStemWidth) ∧
              stem.drawingYRel =
                (c.m_yBottom + c.m_element.stemUpSE_y.get r.2.m_cueSize) -
                  c.m_element.drawingY) :=
  ⟨by decide, by decide,
    C26_mixed_uses_down_formula 7 C26_segment demoLayer demoStaff demoDoc demoInterface
      BEAMPLACE_mixed true (by decide) (by decide)⟩

/-- C27: `SetDrawingStemDir` with a direction other than up returns what it returns with
direction down, apart from the drawing direction stored in the stem: the note it
measures is the one of direction down (the bottom note of a chord), `m_x` is shifted by
`m_stemXBelow[m_cueSize]`, and for a member with a stem that measures `note`, `m_yBeam` is
`m_yBottom` minus `(L * unit) / 2`. -/
theorem C27_not_up_is_down (S : Int) (c : BeamElementCoord) (stemDir : data_STEMDIRECTION)
    (doc : Doc) (beamInterface : BeamDrawingInterface) (hdir : stemDir ≠ STEMDIRECTION_up) :
    c.SetDrawingStemDir S stemDir doc beamInterface =
      { c.SetDrawingStemDir S STEMDIRECTION_down doc beamInterface with
        m_stem := c.m_stem.map (fun s => { s with drawingStemDir := stemDir }) } ∧
    c.refNote stemDir = c.refNote STEMDIRECTION_down ∧
    (∀ stem, c.m_stem = some stem →
      (c.SetDrawingStemDir S stemDir doc beamInterface).m_x =
        c.m_x + beamInterface.m_stemXBelow.get beamInterface.m_cueSize) ∧
    (∀ stem note, c.m_stem = some stem → c.refNote STEMDIRECTION_down = some note →
      (c.SetDrawingStemDir S stemDir doc beamInterface).m_yBeam =
        c.m_yBottom -
          Int.tdiv (BeamElementCoord.stemLen S c.m_dur 1 note.locFlag note * doc.drawingUnit) 2) := by
  have href : c.refNote stemDir = c.refNote STEMDIRECTION_down := by
    unfold BeamElementCoord.refNote
    split
    · rfl
    · rw [if_neg hdir, if_neg (by decide)]
    · rfl
  have hmain : c.SetDrawingStemDir S stemDir doc beamInterface =
      { c.SetDrawingStemDir S STEMDIRECTION_down doc beamInterface with
        m_stem := c.m_stem.map (fun s => { s with drawingStemDir := stemDir }) } := by
    cases hstem : c.m_stem with
    | none =>
      rcases c with ⟨x, yt, yb, ybm, d, o, sh, st, el⟩
      simp only at hstem
      subst hstem
      rfl
    | some stem =>
      have hr : ∀ (st : Option Stem) (o : Bool) (sh : Int) (d : data_STEMDIRECTION),
          d ≠ STEMDIRECTION_up →
          BeamElementCoord.refNote
            { c with m_stem := st, m_onStaffLine := o, m_shortenable := sh } d =
            c.refNote STEMDIRECTION_down := by
        intro st o sh d hd
        unfold BeamElementCoord.refNote
        simp only []
        split
        · rfl
        · rw [if_neg hd, if_neg (by decide)]
        · rfl
      unfold BeamElementCoord.SetDrawingStemDir
      simp only [hstem, hr _ _ _ stemDir hdir, hr _ _ _ STEMDIRECTION_down (by decide),
        if_neg hdir, if_neg (show ¬ STEMDIRECTION_down = STEMDIRECTION_up by decide),
        Option.map_some']
      split
      · rfl
      · split_ifs <;> rfl
  refine ⟨hmain, href, fun stem hstem => ?_, fun stem note hstem hnote => ?_⟩
  · obtain ⟨y, o, el, _, he⟩ := SetDrawingStemDir_shape S c stemDir doc beamInterface stem hstem
    rw [he]
    simp only [if_neg hdir]
  · rw [hmain]
    simp only []
    have hy := (SetDrawingStemDir_yBeam S c STEMDIRECTION_down doc beamInterface stem note
      hstem hnote).1
    rw [hy]
    simp only [BeamElementCoord.chosenStemLen]
    rw [if_neg (by decide), if_neg (by decide), stemLen_neg, Int.neg_mul, Int.neg_tdiv]
    ring

/-- C27 (witness): a chord with direction NONE: the bottom note is measured and `m_x` is
shifted by the below-offset. -/
theorem C27_witness :
    STEMDIRECTION_NONE ≠ STEMDIRECTION_up ∧
    C27_coord.SetDrawingStemDir 7 STEMDIRECTION_NONE demoDoc demoInterface =
      { C27_coord.SetDrawingStemDir 7 STEMDIRECTION_down demoDoc demoInterface with
        m_stem := C27_coord.m_stem.map (fun s => { s with drawingStemDir := STEMDIRECTION_NONE }) } ∧
    C27_coord.refNote STEMDIRECTION_NONE = some (demoNote 0 14) :=
  ⟨by decide,
    (C27_not_up_is_down 7 C27_coord STEMDIRECTION_NONE demoDoc demoInterface (by decide)).1,
    by decide⟩

/-- C30: with `overlap > 0`, `AdjustPosition` moves the verse left by
`d = min overlap freeSpace` when `freeSpace > 0` and by nothing when `freeSpace <= 0`, leaves
`overlap - d` in `overlap` (which is not negative, and `0` when `freeSpace > overlap`) and
returns `0`; with `overlap <= 0` it changes neither the verse nor `overlap` and returns
`min (-overlap) (3 * unit)`. -/
theorem C30_adjust_position (v : Verse) (overlap freeSpace drawingUnit100 : Int) :
    (0 < overlap → 0 < freeSpace →
      (v.AdjustPosition overlap freeSpace drawingUnit100).2.2.drawingXRel =
        v.drawingXRel - min overlap freeSpace ∧
      (v.AdjustPosition overlap freeSpace drawingUnit100).2.1 =
        overlap - min overlap freeSpace ∧
      0 ≤ (v.AdjustPosition overlap freeSpace drawingUnit100).2.1 ∧
      (overlap < freeSpace → (v.AdjustPosition overlap freeSpace drawingUnit100).2.1 = 0) ∧
      (v.AdjustPosition overlap freeSpace drawingUnit100).1 = 0) ∧
    (0 < overlap → freeSpace ≤ 0 →
      (v.AdjustPosition overlap freeSpace drawingUnit100).2.2 = v ∧
      (v.AdjustPosition overlap freeSpace drawingUnit100).2.1 = overlap ∧
      (v.AdjustPosition overlap freeSpace drawingUnit100).1 = 0) ∧
    (overlap ≤ 0 →
      (v.AdjustPosition overlap freeSpace drawingUnit100).2.2 = v ∧
      (v.AdjustPosition overlap freeSpace drawingUnit100).2.1 = overlap ∧
      (v.AdjustPosition overlap freeSpace drawingUnit100).1 =
        min (-overlap) (3 * drawingUnit100)) := by
  unfold Verse.AdjustPosition
  refine ⟨fun ho hf => ?_, fun ho hf => ?_, fun ho => ?_⟩
  · rw [if_pos ho]
    by_cases h : overlap < freeSpace
    · rw [if_pos h, min_eq_left h.le]
      exact ⟨rfl, by simp, le_refl _, fun _ => rfl, rfl⟩
    · rw [if_neg h, if_pos hf, min_eq_right (not_lt.mp h)]
      exact ⟨rfl, rfl, by simp only []; omega, fun h2 => absurd h2 h, rfl⟩
  · have h1 : ¬ freeSpace > overlap := by omega
    have h2 : ¬ freeSpace > 0 := by omega
    rw [if_pos ho, if_neg h1, if_neg h2]
    exact ⟨rfl, rfl, rfl⟩
  · have h1 : ¬ overlap > 0 := by omega
    rw [if_neg h1]
    exact ⟨rfl, rfl, rfl⟩

/-- C30 (witness): an overlap of 30 against a free space of 20 at `x = 100`: the verse
moves to 80 and an overlap of 10 is left. -/
theorem C30_witness :
    (0 : Int) < 30 ∧ (0 : Int) < 20 ∧
    (({ drawingXRel := 100 } : Verse).AdjustPosition 30 20 9).2.2.drawingXRel =
      100 - min 30 20 ∧
    (({ drawingXRel := 100 } : Verse).AdjustPosition 30 20 9).2.1 = 30 - min 30 20 :=
  ⟨by decide, by decide,
    ((C30_adjust_position { drawingXRel := 100 } 30 20 9).1 (by decide) (by decide)).1,
    ((C30_adjust_position { drawingXRel := 100 } 30 20 9).1 (by decide) (by decide)).2.1⟩

/-- C31: for a string `s` (its length is a `size_t`, below `2 ^ 64`):
`ExtractUuidFragment` returns the characters after the last `#` when `s` is
`pre ++ # :: suf` with no `#` in `suf` and `suf` not empty; it returns `s` when `s` has no
`#`, when the last `#` is the final character, and when `s` is empty; it always returns,
a result other than `s` contains no `#`, and the function applied to its result returns
that result again. -/
theorem C31_extract_uuid_fragment (s : List Char) (hlen : s.length < 2 ^ 64) :
    (∀ pre suf, s = pre ++ '#' :: suf → '#' ∉ suf → suf ≠ [] →
      TimeSpanningInterface.ExtractUuidFragment s = some suf) ∧
    ('#' ∉ s → TimeSpanningInterface.ExtractUuidFragment s = some s) ∧
    (∀ pre, s = pre ++ ['#'] → TimeSpanningInterface.ExtractUuidFragment s = some s) ∧
    (s = [] → TimeSpanningInterface.ExtractUuidFragment s = some s) ∧
    ∃ r, TimeSpanningInterface.ExtractUuidFragment s = some r ∧ (r ≠ s → '#' ∉ r) ∧
      TimeSpanningInterface.ExtractUuidFragment r = some r := by
  refine ⟨fun pre suf hs hsuf hne => ?_, ExtractUuidFragment_no_hash s, fun pre hs => ?_,
    fun hs => ExtractUuidFragment_no_hash s (by rw [hs]; simp), ?_⟩
  · subst hs
    rw [ExtractUuidFragment_split pre suf hsuf hlen, if_neg hne]
  · subst hs
    rw [ExtractUuidFragment_split pre [] (by simp) hlen, if_pos rfl]
  · by_cases h : '#' ∈ s
    · obtain ⟨pre, c, suf, hs, hc, hsuf⟩ := exists_last_split ['#'] s (by
        intro hall
        exact hall _ h (by simp))
      rw [List.mem_singleton] at hc
      subst hc
      have hsuf2 : '#' ∉ suf := fun hm => hsuf _ hm (by simp)
      subst hs
      rw [ExtractUuidFragment_split pre suf hsuf2 hlen]
      by_cases hne : suf = []
      · rw [if_pos hne]
        refine ⟨_, rfl, fun hr => absurd rfl hr, ?_⟩
        rw [ExtractUuidFragment_split pre suf hsuf2 hlen, if_pos hne]
      · rw [if_neg hne]
        exact ⟨_, rfl, fun _ => hsuf2, ExtractUuidFragment_no_hash suf hsuf2⟩
    · exact ⟨s, ExtractUuidFragment_no_hash s h, fun hr => absurd rfl hr,
        ExtractUuidFragment_no_hash s h⟩

/-- C31 (witness): the string `a#b`, whose fragment is `b`. -/
theorem C31_witness :
    C31_string.length < 2 ^ 64 ∧
    (∀ pre suf, C31_string = pre ++ '#' :: suf → '#' ∉ suf → suf ≠ [] →
      TimeSpanningInterface.ExtractUuidFragment C31_string = some suf) ∧
    ('#' ∉ C31_string →
      TimeSpanningInterface.ExtractUuidFragment C31_string = some C31_string) ∧
    (∀ pre, C31_string = pre ++ ['#'] →
      TimeSpanningInterface.ExtractUuidFragment C31_string = some C31_string) ∧
    (C31_string = [] →
      TimeSpanningInterface.ExtractUuidFragment C31_string = some C31_string) ∧
    ∃ r, TimeSpanningInterface.ExtractUuidFragment C31_string = some r ∧
      (r ≠ C31_string → '#' ∉ r) ∧
      TimeSpanningInterface.ExtractUuidFragment r = some r :=
  ⟨by decide, C31_extract_uuid_fragment C31_string (by decide)⟩

end vrv
